import Mathlib

/-!
# Issue browser of `pm-tools` (issue-monitor): filter language and table layout

A shallow embedding of `internal/aksmonitor/models/github_issues.go`
(`GitHubIssuesModel`): the filter/search predicates, `applyFilters`, the layout
functions `updateSizes` / `adjustTableColumns`, the row builder
`updateTableRows`, the event handler `Update` and the renderer `View`; and of
`GetGitHubIssues` of `internal/aksmonitor/services/services.go` with its cache
file; followed by theorems about them.

Conventions of the embedding.

* A Go `string` holding text is a `List Char` (`GoString`), the sequence of its
  runes; `len` and the slice expressions work on its bytes (`utf8 s`, a
  `GoBytes`): `len` is the number of bytes and `s[:n]` / `s[n:]` is `sliceTo` /
  `sliceFrom`, which return `none` where Go raises a run-time panic (bounds
  outside `0 ≤ n ≤ len s`).  The cells of a table row are kept as bytes.
* A Go `int` is an `Int`; `/` is truncating division (`Int.tdiv`).  Terminal
  sizes are far below the 64-bit range, so no wrap-around is modelled.
* A nil pointer is `none`.
* A method with pointer receiver that mutates the model becomes a function
  returning an `Outcome`: the model as the method left it, tagged `done` when
  the method returned and `panicked` when a run-time panic interrupted it.
* The widgets of the `bubbles` library are records of the values the browser
  sets and reads; a setter (`SetRows`, `SetColumns`, `SetWidth`, `SetHeight`)
  stores its argument.  How the library draws them is outside the embedding,
  but for the run-time panic of `table.SetColumns` when a row the table holds has
  more cells than the new columns (`rowsFit`).
-/

set_option autoImplicit false

namespace IssueMonitor

/-! ## Strings (`strings` package of the Go standard library) -/

/-- A Go string holding text, as the sequence of its runes (the strings of the
program hold valid UTF-8). -/
abbrev GoString := List Char

/-- A Go string as the sequence of its bytes, which is what `len` counts and what a
slice expression cuts. -/
abbrev GoBytes := List Nat

/-- The bytes of one rune in a Go string: its UTF-8 encoding, one to four bytes. -/
def utf8Rune (c : Char) : GoBytes :=
  let r := c.toNat
  if r < 0x80 then [r]
  else if r < 0x800 then [0xC0 + r / 0x40, 0x80 + r % 0x40]
  else if r < 0x10000 then [0xE0 + r / 0x1000, 0x80 + r / 0x40 % 0x40, 0x80 + r % 0x40]
  else
    [0xF0 + r / 0x40000, 0x80 + r / 0x1000 % 0x40, 0x80 + r / 0x40 % 0x40, 0x80 + r % 0x40]

/-- The bytes of a Go string. -/
def utf8 (s : GoString) : GoBytes := s.flatMap utf8Rune

/-- White space in the sense of `unicode.IsSpace`, which `strings.Fields` and
`strings.TrimSpace` use. -/
def isSpace (c : Char) : Bool :=
  let n := c.toNat
  n == 0x09 || n == 0x0A || n == 0x0B || n == 0x0C || n == 0x0D || n == 0x20 ||
  n == 0x85 || n == 0xA0 || n == 0x1680 || (0x2000 ≤ n && n ≤ 0x200A) ||
  n == 0x2028 || n == 0x2029 || n == 0x202F || n == 0x205F || n == 0x3000

/-- One run of the lower-case mapping of Unicode: the code points `lo`,
`lo + stride`, ... up to `hi` map to `target`, `target + stride`, ... -/
structure CaseRange where
  lo : Nat
  hi : Nat
  target : Nat
  stride : Nat
  deriving DecidableEq, Repr

/-- The lower-case mappings of `unicode.ToLower` above ASCII (the simple lower-case
mapping of the Unicode character database), as runs in increasing order. -/
def caseRanges : List CaseRange :=
  [CaseRange.mk 0xC0 0xD6 0xE0 1, CaseRange.mk 0xD8 0xDE 0xF8 1,
   CaseRange.mk 0x100 0x12E 0x101 2, CaseRange.mk 0x130 0x130 0x69 1,
   CaseRange.mk 0x132 0x136 0x133 2, CaseRange.mk 0x139 0x147 0x13A 2,
   CaseRange.mk 0x14A 0x176 0x14B 2, CaseRange.mk 0x178 0x178 0xFF 1,
   CaseRange.mk 0x179 0x17D 0x17A 2, CaseRange.mk 0x181 0x181 0x253 1,
   CaseRange.mk 0x182 0x184 0x183 2, CaseRange.mk 0x186 0x186 0x254 1,
   CaseRange.mk 0x187 0x187 0x188 1, CaseRange.mk 0x189 0x18A 0x256 1,
   CaseRange.mk 0x18B 0x18B 0x18C 1, CaseRange.mk 0x18E 0x18E 0x1DD 1,
   CaseRange.mk 0x18F 0x18F 0x259 1, CaseRange.mk 0x190 0x190 0x25B 1,
   CaseRange.mk 0x191 0x191 0x192 1, CaseRange.mk 0x193 0x193 0x260 1,
   CaseRange.mk 0x194 0x194 0x263 1, CaseRange.mk 0x196 0x196 0x269 1,
   CaseRange.mk 0x197 0x197 0x268 1, CaseRange.mk 0x198 0x198 0x199 1,
   CaseRange.mk 0x19C 0x19C 0x26F 1, CaseRange.mk 0x19D 0x19D 0x272 1,
   CaseRange.mk 0x19F 0x19F 0x275 1, CaseRange.mk 0x1A0 0x1A4 0x1A1 2,
   CaseRange.mk 0x1A6 0x1A6 0x280 1, CaseRange.mk 0x1A7 0x1A7 0x1A8 1,
   CaseRange.mk 0x1A9 0x1A9 0x283 1, CaseRange.mk 0x1AC 0x1AC 0x1AD 1,
   CaseRange.mk 0x1AE 0x1AE 0x288 1, CaseRange.mk 0x1AF 0x1AF 0x1B0 1,
   CaseRange.mk 0x1B1 0x1B2 0x28A 1, CaseRange.mk 0x1B3 0x1B5 0x1B4 2,
   CaseRange.mk 0x1B7 0x1B7 0x292 1, CaseRange.mk 0x1B8 0x1B8 0x1B9 1,
   CaseRange.mk 0x1BC 0x1BC 0x1BD 1, CaseRange.mk 0x1C4 0x1C4 0x1C6 1,
   CaseRange.mk 0x1C5 0x1C5 0x1C6 1, CaseRange.mk 0x1C7 0x1C7 0x1C9 1,
   CaseRange.mk 0x1C8 0x1C8 0x1C9 1, CaseRange.mk 0x1CA 0x1CA 0x1CC 1,
   CaseRange.mk 0x1CB 0x1DB 0x1CC 2, CaseRange.mk 0x1DE 0x1EE 0x1DF 2,
   CaseRange.mk 0x1F1 0x1F1 0x1F3 1, CaseRange.mk 0x1F2 0x1F4 0x1F3 2,
   CaseRange.mk 0x1F6 0x1F6 0x195 1, CaseRange.mk 0x1F7 0x1F7 0x1BF 1,
   CaseRange.mk 0x1F8 0x21E 0x1F9 2, CaseRange.mk 0x220 0x220 0x19E 1,
   CaseRange.mk 0x222 0x232 0x223 2, CaseRange.mk 0x23A 0x23A 0x2C65 1,
   CaseRange.mk 0x23B 0x23B 0x23C 1, CaseRange.mk 0x23D 0x23D 0x19A 1,
   CaseRange.mk 0x23E 0x23E 0x2C66 1, CaseRange.mk 0x241 0x241 0x242 1,
   CaseRange.mk 0x243 0x243 0x180 1, CaseRange.mk 0x244 0x244 0x289 1,
   CaseRange.mk 0x245 0x245 0x28C 1, CaseRange.mk 0x246 0x24E 0x247 2,
   CaseRange.mk 0x370 0x372 0x371 2, CaseRange.mk 0x376 0x376 0x377 1,
   CaseRange.mk 0x37F 0x37F 0x3F3 1, CaseRange.mk 0x386 0x386 0x3AC 1,
   CaseRange.mk 0x388 0x38A 0x3AD 1, CaseRange.mk 0x38C 0x38C 0x3CC 1,
   CaseRange.mk 0x38E 0x38F 0x3CD 1, CaseRange.mk 0x391 0x3A1 0x3B1 1,
   CaseRange.mk 0x3A3 0x3AB 0x3C3 1, CaseRange.mk 0x3CF 0x3CF 0x3D7 1,
   CaseRange.mk 0x3D8 0x3EE 0x3D9 2, CaseRange.mk 0x3F4 0x3F4 0x3B8 1,
   CaseRange.mk 0x3F7 0x3F7 0x3F8 1, CaseRange.mk 0x3F9 0x3F9 0x3F2 1,
   CaseRange.mk 0x3FA 0x3FA 0x3FB 1, CaseRange.mk 0x3FD 0x3FF 0x37B 1,
   CaseRange.mk 0x400 0x40F 0x450 1, CaseRange.mk 0x410 0x42F 0x430 1,
   CaseRange.mk 0x460 0x480 0x461 2, CaseRange.mk 0x48A 0x4BE 0x48B 2,
   CaseRange.mk 0x4C0 0x4C0 0x4CF 1, CaseRange.mk 0x4C1 0x4CD 0x4C2 2,
   CaseRange.mk 0x4D0 0x52E 0x4D1 2, CaseRange.mk 0x531 0x556 0x561 1,
   CaseRange.mk 0x10A0 0x10C5 0x2D00 1, CaseRange.mk 0x10C7 0x10C7 0x2D27 1,
   CaseRange.mk 0x10CD 0x10CD 0x2D2D 1, CaseRange.mk 0x13A0 0x13EF 0xAB70 1,
   CaseRange.mk 0x13F0 0x13F5 0x13F8 1, CaseRange.mk 0x1C90 0x1CBA 0x10D0 1,
   CaseRange.mk 0x1CBD 0x1CBF 0x10FD 1, CaseRange.mk 0x1E00 0x1E94 0x1E01 2,
   CaseRange.mk 0x1E9E 0x1E9E 0xDF 1, CaseRange.mk 0x1EA0 0x1EFE 0x1EA1 2,
   CaseRange.mk 0x1F08 0x1F0F 0x1F00 1, CaseRange.mk 0x1F18 0x1F1D 0x1F10 1,
   CaseRange.mk 0x1F28 0x1F2F 0x1F20 1, CaseRange.mk 0x1F38 0x1F3F 0x1F30 1,
   CaseRange.mk 0x1F48 0x1F4D 0x1F40 1, CaseRange.mk 0x1F59 0x1F59 0x1F51 1,
   CaseRange.mk 0x1F5B 0x1F5B 0x1F53 1, CaseRange.mk 0x1F5D 0x1F5D 0x1F55 1,
   CaseRange.mk 0x1F5F 0x1F5F 0x1F57 1, CaseRange.mk 0x1F68 0x1F6F 0x1F60 1,
   CaseRange.mk 0x1F88 0x1F8F 0x1F80 1, CaseRange.mk 0x1F98 0x1F9F 0x1F90 1,
   CaseRange.mk 0x1FA8 0x1FAF 0x1FA0 1, CaseRange.mk 0x1FB8 0x1FB9 0x1FB0 1,
   CaseRange.mk 0x1FBA 0x1FBB 0x1F70 1, CaseRange.mk 0x1FBC 0x1FBC 0x1FB3 1,
   CaseRange.mk 0x1FC8 0x1FCB 0x1F72 1, CaseRange.mk 0x1FCC 0x1FCC 0x1FC3 1,
   CaseRange.mk 0x1FD8 0x1FD9 0x1FD0 1, CaseRange.mk 0x1FDA 0x1FDB 0x1F76 1,
   CaseRange.mk 0x1FE8 0x1FE9 0x1FE0 1, CaseRange.mk 0x1FEA 0x1FEB 0x1F7A 1,
   CaseRange.mk 0x1FEC 0x1FEC 0x1FE5 1, CaseRange.mk 0x1FF8 0x1FF9 0x1F78 1,
   CaseRange.mk 0x1FFA 0x1FFB 0x1F7C 1, CaseRange.mk 0x1FFC 0x1FFC 0x1FF3 1,
   CaseRange.mk 0x2126 0x2126 0x3C9 1, CaseRange.mk 0x212A 0x212A 0x6B 1,
   CaseRange.mk 0x212B 0x212B 0xE5 1, CaseRange.mk 0x2132 0x2132 0x214E 1,
   CaseRange.mk 0x2160 0x216F 0x2170 1, CaseRange.mk 0x2183 0x2183 0x2184 1,
   CaseRange.mk 0x24B6 0x24CF 0x24D0 1, CaseRange.mk 0x2C00 0x2C2F 0x2C30 1,
   CaseRange.mk 0x2C60 0x2C60 0x2C61 1, CaseRange.mk 0x2C62 0x2C62 0x26B 1,
   CaseRange.mk 0x2C63 0x2C63 0x1D7D 1, CaseRange.mk 0x2C64 0x2C64 0x27D 1,
   CaseRange.mk 0x2C67 0x2C6B 0x2C68 2, CaseRange.mk 0x2C6D 0x2C6D 0x251 1,
   CaseRange.mk 0x2C6E 0x2C6E 0x271 1, CaseRange.mk 0x2C6F 0x2C6F 0x250 1,
   CaseRange.mk 0x2C70 0x2C70 0x252 1, CaseRange.mk 0x2C72 0x2C72 0x2C73 1,
   CaseRange.mk 0x2C75 0x2C75 0x2C76 1, CaseRange.mk 0x2C7E 0x2C7F 0x23F 1,
   CaseRange.mk 0x2C80 0x2CE2 0x2C81 2, CaseRange.mk 0x2CEB 0x2CED 0x2CEC 2,
   CaseRange.mk 0x2CF2 0x2CF2 0x2CF3 1, CaseRange.mk 0xA640 0xA66C 0xA641 2,
   CaseRange.mk 0xA680 0xA69A 0xA681 2, CaseRange.mk 0xA722 0xA72E 0xA723 2,
   CaseRange.mk 0xA732 0xA76E 0xA733 2, CaseRange.mk 0xA779 0xA77B 0xA77A 2,
   CaseRange.mk 0xA77D 0xA77D 0x1D79 1, CaseRange.mk 0xA77E 0xA786 0xA77F 2,
   CaseRange.mk 0xA78B 0xA78B 0xA78C 1, CaseRange.mk 0xA78D 0xA78D 0x265 1,
   CaseRange.mk 0xA790 0xA792 0xA791 2, CaseRange.mk 0xA796 0xA7A8 0xA797 2,
   CaseRange.mk 0xA7AA 0xA7AA 0x266 1, CaseRange.mk 0xA7AB 0xA7AB 0x25C 1,
   CaseRange.mk 0xA7AC 0xA7AC 0x261 1, CaseRange.mk 0xA7AD 0xA7AD 0x26C 1,
   CaseRange.mk 0xA7AE 0xA7AE 0x26A 1, CaseRange.mk 0xA7B0 0xA7B0 0x29E 1,
   CaseRange.mk 0xA7B1 0xA7B1 0x287 1, CaseRange.mk 0xA7B2 0xA7B2 0x29D 1,
   CaseRange.mk 0xA7B3 0xA7B3 0xAB53 1, CaseRange.mk 0xA7B4 0xA7C2 0xA7B5 2,
   CaseRange.mk 0xA7C4 0xA7C4 0xA794 1, CaseRange.mk 0xA7C5 0xA7C5 0x282 1,
   CaseRange.mk 0xA7C6 0xA7C6 0x1D8E 1, CaseRange.mk 0xA7C7 0xA7C9 0xA7C8 2,
   CaseRange.mk 0xA7D0 0xA7D0 0xA7D1 1, CaseRange.mk 0xA7D6 0xA7D8 0xA7D7 2,
   CaseRange.mk 0xA7F5 0xA7F5 0xA7F6 1, CaseRange.mk 0xFF21 0xFF3A 0xFF41 1,
   CaseRange.mk 0x10400 0x10427 0x10428 1, CaseRange.mk 0x104B0 0x104D3 0x104D8 1,
   CaseRange.mk 0x10570 0x1057A 0x10597 1, CaseRange.mk 0x1057C 0x1058A 0x105A3 1,
   CaseRange.mk 0x1058C 0x10592 0x105B3 1, CaseRange.mk 0x10594 0x10595 0x105BB 1,
   CaseRange.mk 0x10C80 0x10CB2 0x10CC0 1, CaseRange.mk 0x118A0 0x118BF 0x118C0 1,
   CaseRange.mk 0x16E40 0x16E5F 0x16E60 1, CaseRange.mk 0x1E900 0x1E921 0x1E922 1]

/-- The function `unicode.ToLower` on a code point above ASCII. -/
def lowerPoint (r : Nat) : Nat :=
  match caseRanges.find? (fun c => decide (c.lo ≤ r ∧ r ≤ c.hi)) with
  | some c => if (r - c.lo) % c.stride = 0 then c.target + (r - c.lo) else r
  | none => r

/-- The function `unicode.ToLower`: the ASCII letters `A`-`Z` directly, every other
rune through the case table. -/
def lowerRune (c : Char) : Char :=
  if c.toNat < 0x80 then c.toLower else Char.ofNat (lowerPoint c.toNat)

/-- The function `strings.ToLower`: every rune mapped by `unicode.ToLower`. -/
def toLower (s : GoString) : GoString := s.map lowerRune

/-- The function `strings.TrimSpace`: leading and trailing white space removed. -/
def trimSpace (s : GoString) : GoString :=
  ((s.dropWhile isSpace).reverse.dropWhile isSpace).reverse

/-- The function `strings.Contains s substr`: `substr` occurs in `s` as a
contiguous block. -/
def contains : GoString → GoString → Bool
  | [], substr => substr.isPrefixOf []
  | c :: cs, substr => substr.isPrefixOf (c :: cs) || contains cs substr

/-- The scanning loop of `strings.Fields`: `cur` is the field being read. -/
def fieldsFrom (cur : GoString) : GoString → List GoString
  | [] => if cur.isEmpty then [] else [cur]
  | c :: cs =>
    if isSpace c then
      if cur.isEmpty then fieldsFrom [] cs else cur :: fieldsFrom [] cs
    else fieldsFrom (cur ++ [c]) cs

/-- The function `strings.Fields`: the maximal runs of non-space characters. -/
def fields (s : GoString) : List GoString := fieldsFrom [] s

/-- The scanning loop of `strings.SplitN s sep 2` for a one-character separator:
`pre` is the part read so far. -/
def splitN2From (sep : Char) (pre : GoString) : GoString → List GoString
  | [] => [pre]
  | c :: cs => if c = sep then [pre, cs] else splitN2From sep (pre ++ [c]) cs

/-- The call `strings.SplitN(s, sep, 2)` for a one-character separator: `[s]` when
`sep` does not occur, else the text before the first `sep` and the whole rest. -/
def splitN2 (s : GoString) (sep : Char) : List GoString := splitN2From sep [] s

/-- The slice expression `s[:n]`; `none` stands for the run-time panic
"slice bounds out of range". -/
def sliceTo {α : Type} (s : List α) (n : Int) : Option (List α) :=
  if 0 ≤ n ∧ n ≤ (s.length : Int) then some (s.take n.toNat) else none

/-- The slice expression `s[n:]`; `none` stands for the run-time panic. -/
def sliceFrom {α : Type} (s : List α) (n : Int) : Option (List α) :=
  if 0 ≤ n ∧ n ≤ (s.length : Int) then some (s.drop n.toNat) else none

/-! ## Data model (`services.IssueWithRepo`, `github.Issue`) -/

/-- The type `github.User`, reduced to the field the browser reads. -/
structure User where
  Login : Option GoString
  deriving DecidableEq, Repr

/-- The type `github.Label`, reduced to the field the browser reads. -/
structure Label where
  Name : Option GoString
  deriving DecidableEq, Repr

/-- The type `github.Timestamp`, kept as its two renderings
(`Format("Jan 02")` and `Format("Jan 02, 2006")`). -/
structure Timestamp where
  short : GoString
  long : GoString
  deriving DecidableEq, Repr

/-- The type `github.Issue`: every field is a pointer, `none` when nil. -/
structure Issue where
  Number : Option Int := none
  Title : Option GoString := none
  Body : Option GoString := none
  State : Option GoString := none
  Assignee : Option User := none
  Labels : List Label := []
  Comments : Option Int := none
  HTMLURL : Option GoString := none
  CreatedAt : Option Timestamp := none
  UpdatedAt : Option Timestamp := none
  deriving DecidableEq, Repr

/-- The type `services.IssueWithRepo`; `Repo` is the source key `owner/name`.
The `Issue` pointer is the non-nil one the list call returns. -/
structure IssueWithRepo where
  Issue : Issue
  Repo : GoString
  deriving DecidableEq, Repr

/-- The type `github.IssueComment`, reduced to the fields the browser reads. -/
structure IssueComment where
  User : Option User := none
  Body : Option GoString := none
  CreatedAt : Option Timestamp := none
  deriving DecidableEq, Repr

/-! ## Widgets (`bubbles/table`, `viewport`, `textinput`) -/

/-- The type `table.Column`. -/
structure Column where
  Title : GoString
  Width : Int
  deriving DecidableEq, Repr

/-- A `table.Row`: the cells of one line, each a string taken as its bytes. -/
abbrev Row := List GoBytes

/-- The part of `table.Model` the browser sets and reads. -/
structure Table where
  cols : List Column
  rows : List Row := []
  cursor : Int := 0
  height : Int
  width : Int
  deriving DecidableEq, Repr

/-- What a viewport shows.  The styled text itself is not modelled: the content
is identified by what it was rendered from. -/
inductive Content where
  | blank
  | preview (issue : IssueWithRepo) (width : Int)
  | detail (issue : IssueWithRepo)
  | withCommentInfo (shown : Content) (commentInfo : GoString)
  | comments (issue : IssueWithRepo) (comments : List IssueComment)
  deriving DecidableEq, Repr

/-- The part of `viewport.Model` the browser sets and reads. -/
structure Viewport where
  Width : Int
  Height : Int
  content : Content := Content.blank
  deriving DecidableEq, Repr

/-- The part of `textinput.Model` the browser sets and reads. -/
structure TextInput where
  value : GoString := []
  focused : Bool := false
  Width : Int := 50
  deriving DecidableEq, Repr

/-- The constants of type `viewMode`. -/
inductive viewMode where
  | viewModeList
  | viewModeTable
  | viewModeDetail
  | viewModeComments
  deriving DecidableEq, Repr

/-- The type `GitHubIssuesModel` (the service handle and the spinner animation
carry no state the browser logic reads). -/
structure GitHubIssuesModel where
  table : Table
  viewport : Viewport
  previewPane : Viewport
  searchInput : TextInput
  filterInput : TextInput
  selected : Option IssueWithRepo
  selectedIndex : Int
  comments : List IssueComment
  loading : Bool
  loadingComments : Bool
  error : GoString
  showFilters : Bool
  showPreview : Bool
  activeQuickFilter : Int
  currentView : viewMode
  issues : List IssueWithRepo
  filteredIssues : List IssueWithRepo
  currentColumns : List Column
  width : Int
  height : Int
  deriving DecidableEq, Repr

/-- How a mutating method ended: it returned (`done`) or a run-time panic
interrupted it (`panicked`); either way with the model as the method left it. -/
inductive Outcome where
  | done (m : GitHubIssuesModel)
  | panicked (m : GitHubIssuesModel)
  deriving DecidableEq, Repr

/-- The model as the method left it. -/
def Outcome.state : Outcome → GitHubIssuesModel
  | Outcome.done m => m
  | Outcome.panicked m => m

/-- Whether the method returned normally. -/
def Outcome.completed : Outcome → Bool
  | Outcome.done _ => true
  | Outcome.panicked _ => false

/-- Sequencing: the next statements run only if no panic happened. -/
def Outcome.andThen (o : Outcome) (f : GitHubIssuesModel → Outcome) : Outcome :=
  match o with
  | Outcome.done m => f m
  | Outcome.panicked m => Outcome.panicked m

/-- The type `quickFilter`: a named preset query bound to a key. -/
structure quickFilter where
  name : GoString
  query : GoString
  key : GoString
  deriving DecidableEq, Repr

/-- The table of presets `quickFilters`. -/
def quickFilters : List quickFilter :=
  [⟨"My Issues".toList, "assignee:@me".toList, "1".toList⟩,
   ⟨"Open".toList, "state:open".toList, "2".toList⟩,
   ⟨"Recent".toList, "updated:>7days".toList, "3".toList⟩,
   ⟨"Bugs".toList, "label:bug".toList, "4".toList⟩,
   ⟨"Features".toList, "label:feature".toList, "5".toList⟩,
   ⟨"High Priority".toList, "label:priority-high".toList, "6".toList⟩]

/-- The column list `initialColumns` of `NewGitHubIssuesModel`. -/
def initialColumns : List Column :=
  [⟨"#".toList, 7⟩, ⟨"Title".toList, 50⟩, ⟨"State".toList, 9⟩, ⟨"Assignee".toList, 15⟩,
   ⟨"Labels".toList, 18⟩, ⟨"Updated".toList, 10⟩, ⟨"Repo".toList, 15⟩]

/-- The constructor `NewGitHubIssuesModel`. -/
def NewGitHubIssuesModel : GitHubIssuesModel where
  table := { cols := initialColumns, height := 20, width := 120 }
  viewport := { Width := 100, Height := 25 }
  previewPane := { Width := 50, Height := 20 }
  searchInput := { Width := 50 }
  filterInput := { Width := 50 }
  selected := none
  selectedIndex := -1
  comments := []
  loading := false
  loadingComments := false
  error := []
  showFilters := false
  showPreview := true
  activeQuickFilter := -1
  currentView := viewMode.viewModeTable
  issues := []
  filteredIssues := []
  currentColumns := initialColumns
  width := 0
  height := 0

/-! ## Filter language: `matchesSearch`, `matchesFilter` -/

/-- The method `matchesSearch`: the term occurs in the lower-cased title, body,
assignee login, a label name or the repository. -/
def matchesSearch (issue : IssueWithRepo) (searchTerm : GoString) : Bool :=
  if (match issue.Issue.Title with
      | some t => contains (toLower t) searchTerm
      | none => false) then true
  else if (match issue.Issue.Body with
      | some b => contains (toLower b) searchTerm
      | none => false) then true
  else if (match issue.Issue.Assignee with
      | some u =>
        match u.Login with
        | some l => contains (toLower l) searchTerm
        | none => false
      | none => false) then true
  else if issue.Issue.Labels.any (fun label =>
      match label.Name with
      | some n => contains (toLower n) searchTerm
      | none => false) then true
  else if contains (toLower issue.Repo) searchTerm then true
  else false

/-- The loop of `matchesFilter` over the tokens `strings.Fields` produced. -/
def matchesFilterLoop (issue : IssueWithRepo) : List GoString → Bool
  | [] => true
  | filter :: rest =>
    match splitN2 filter ':' with
    | [key, value] =>
      if key = "state".toList then
        match issue.Issue.State with
        | none => false
        | some st => if !contains (toLower st) value then false else matchesFilterLoop issue rest
      else if key = "label".toList then
        let found := issue.Issue.Labels.any (fun label =>
          match label.Name with
          | some n => contains (toLower n) value
          | none => false)
        if !found then false else matchesFilterLoop issue rest
      else if key = "author".toList ∨ key = "assignee".toList then
        match issue.Issue.Assignee with
        | none => false
        | some u =>
          match u.Login with
          | none => false
          | some l => if !contains (toLower l) value then false else matchesFilterLoop issue rest
      else if key = "repo".toList then
        if !contains (toLower issue.Repo) value then false else matchesFilterLoop issue rest
      else matchesFilterLoop issue rest
    | _ => matchesSearch issue filter

/-- The method `matchesFilter`. -/
def matchesFilter (issue : IssueWithRepo) (filterTerm : GoString) : Bool :=
  matchesFilterLoop issue (fields filterTerm)


/-! ## Table rows: `updateTableRows` -/

/-- The first column with the given title, as the `for ... break` searches of
`updateTableRows` find it. -/
def findColumn (cols : List Column) (title : GoString) : Option Column :=
  cols.find? (fun col => col.Title = title)

/-- The title cell of `updateTableRows` for a Title column of width
`titleColWidth`; `len` and the slices count bytes; `none` is a run-time panic of a
slice expression. -/
def titleCell (issue : IssueWithRepo) (titleColWidth : Int) : Option GoBytes :=
  match issue.Issue.Title with
  | none => some (utf8 "Untitled".toList)
  | some title =>
    let title := utf8 title
    if (title.length : Int) > titleColWidth - 3 then
      if (title.length : Int) > titleColWidth then
        let firstPart := (titleColWidth - 3).tdiv 2
        let lastPart := titleColWidth - 3 - firstPart
        if firstPart > 5 ∧ lastPart > 5 then
          (sliceTo title firstPart).bind fun head =>
          (sliceFrom title ((title.length : Int) - lastPart)).bind fun tail =>
          some (head ++ utf8 "...".toList ++ tail)
        else
          (sliceTo title (titleColWidth - 3)).bind fun head =>
          some (head ++ utf8 "...".toList)
      else some title
    else some title

/-- The state cell of `updateTableRows`. -/
def stateCell (issue : IssueWithRepo) : GoBytes :=
  match issue.Issue.State with
  | none => utf8 "Unknown".toList
  | some st =>
    if st = "open".toList then utf8 "🟢 Open".toList else utf8 "🔴 Closed".toList

/-- The assignee cell of `updateTableRows`. -/
def assigneeCell (cols : List Column) (issue : IssueWithRepo) : Option GoBytes :=
  match issue.Issue.Assignee with
  | none => some (utf8 "Unassigned".toList)
  | some u =>
    match u.Login with
    | none => some (utf8 "Unassigned".toList)
    | some login =>
      let assignee := utf8 ('@' :: login)
      let maxAssigneeWidth : Int :=
        match findColumn cols "Assignee".toList with
        | some col => col.Width - 2
        | none => 13
      if (assignee.length : Int) > maxAssigneeWidth then
        (sliceTo assignee (maxAssigneeWidth - 3)).bind fun head =>
          some (head ++ utf8 "...".toList)
      else some assignee

/-- The loop of `updateTableRows` collecting at most two label names. -/
def labelNames : Nat → List Label → List GoString
  | _, [] => []
  | i, label :: rest =>
    if i ≥ 2 then ["...".toList]
    else
      match label.Name with
      | some n => n :: labelNames (i + 1) rest
      | none => labelNames (i + 1) rest

/-- The labels cell of `updateTableRows`, when the plan has a Labels column `col`. -/
def labelsCell (col : Column) (issue : IssueWithRepo) : Option GoBytes :=
  let maxLabelWidth := col.Width - 2
  if issue.Issue.Labels.length > 0 then
    let labels := utf8 (List.intercalate ",".toList (labelNames 0 issue.Issue.Labels))
    if (labels.length : Int) > maxLabelWidth then
      (sliceTo labels (maxLabelWidth - 3)).bind fun head => some (head ++ utf8 "...".toList)
    else some labels
  else some []

/-- The updated cell of `updateTableRows`, when the plan has an Updated column. -/
def updatedCell (issue : IssueWithRepo) : GoBytes :=
  match issue.Issue.UpdatedAt with
  | some t => utf8 t.short
  | none => utf8 "Unknown".toList

/-- The repo cell of `updateTableRows`, when the plan has a Repo column `col`. -/
def repoCell (col : Column) (issue : IssueWithRepo) : Option GoBytes :=
  let maxRepoWidth := col.Width - 2
  let repo := utf8 issue.Repo
  if (repo.length : Int) > maxRepoWidth then
    (sliceTo repo (maxRepoWidth - 3)).bind fun head => some (head ++ utf8 "...".toList)
  else some repo

/-- The number cell of `updateTableRows`. -/
def numberCell (issue : IssueWithRepo) : GoBytes :=
  match issue.Issue.Number with
  | some n => utf8 ('#' :: (toString n).toList)
  | none => utf8 "N/A".toList

/-- One iteration of the row loop of `updateTableRows`: the row of one issue under
the column plan `cols` and Title width `titleColWidth`. -/
def buildRow (cols : List Column) (titleColWidth : Int) (issue : IssueWithRepo) :
    Option Row :=
  (titleCell issue titleColWidth).bind fun title =>
  (assigneeCell cols issue).bind fun assignee =>
  (match findColumn cols "Labels".toList with
    | some col => (labelsCell col issue).map some
    | none => some none).bind fun labels =>
  let updated : Option GoBytes :=
    match findColumn cols "Updated".toList with
    | some _ => some (updatedCell issue)
    | none => none
  (match findColumn cols "Repo".toList with
    | some col => (repoCell col issue).map some
    | none => some none).bind fun repo =>
  some ([numberCell issue, title, stateCell issue, assignee]
    ++ labels.toList ++ updated.toList ++ repo.toList)

/-- The row loop of `updateTableRows`: it stops at the first panic. -/
def buildRows (cols : List Column) (titleColWidth : Int) :
    List IssueWithRepo → Option (List Row)
  | [] => some []
  | issue :: rest =>
    (buildRow cols titleColWidth issue).bind fun row =>
    (buildRows cols titleColWidth rest).bind fun rows =>
    some (row :: rows)

/-- The method `updateTableRows`. -/
def updateTableRows (m : GitHubIssuesModel) : Outcome :=
  if m.filteredIssues.length = 0 then
    Outcome.done { m with table := { m.table with rows := [] } }
  else
    let titleColWidth : Int :=
      match findColumn m.currentColumns "Title".toList with
      | some col => col.Width
      | none => 40
    match buildRows m.currentColumns titleColWidth m.filteredIssues with
    | some rows => Outcome.done { m with table := { m.table with rows := rows } }
    | none => Outcome.panicked m

/-! ## Layout: `adjustTableColumns`, `updateSizes` -/

/-- The column plan `adjustTableColumns` computes for an available width. -/
def planColumns (availableWidth : Int) : List Column :=
  if availableWidth < 80 then
    [⟨"#".toList, 6⟩, ⟨"Title".toList, availableWidth - 25⟩, ⟨"State".toList, 8⟩,
     ⟨"Assignee".toList, 10⟩]
  else if availableWidth < 120 then
    [⟨"#".toList, 7⟩, ⟨"Title".toList, availableWidth - 55⟩, ⟨"State".toList, 9⟩,
     ⟨"Assignee".toList, 12⟩, ⟨"Labels".toList, 15⟩, ⟨"Updated".toList, 10⟩]
  else
    let titleWidth := max 20 (availableWidth - 75)
    [⟨"#".toList, 7⟩, ⟨"Title".toList, titleWidth⟩, ⟨"State".toList, 9⟩,
     ⟨"Assignee".toList, 15⟩, ⟨"Labels".toList, 18⟩, ⟨"Updated".toList, 10⟩,
     ⟨"Repo".toList, 15⟩]

/-- Whether the table widget can draw the rows against the columns.  Its
`renderRow` reads `m.cols[i]` for every cell `i` of a row, an index out of range
when the row has more cells than there are columns. -/
def rowsFit (cols : List Column) (rows : List Row) : Bool :=
  rows.all fun row => decide (row.length ≤ cols.length)

/-- The method `adjustTableColumns`: it stores the plan in `currentColumns` and
in the table, sets the table width and rebuilds the rows.  `table.SetColumns`
stores the columns and draws the rows the table still holds against them
(`UpdateViewport`), which panics when one of them does not fit; the embedding
takes every stored row as drawn. -/
def adjustTableColumns (m : GitHubIssuesModel) (availableWidth : Int) : Outcome :=
  let columns := planColumns availableWidth
  let m := { m with currentColumns := columns, table := { m.table with cols := columns } }
  if rowsFit columns m.table.rows then
    updateTableRows { m with table := { m.table with width := availableWidth } }
  else Outcome.panicked m

/-- The method `updateSizes`. -/
def updateSizes (m : GitHubIssuesModel) : Outcome :=
  let width := if m.width ≤ 0 then 150 else m.width
  let height := if m.height ≤ 0 then 40 else m.height
  let availableWidth := width - 4
  let availableHeight := height - 15
  let availableWidth := if availableWidth < 20 then 80 else availableWidth
  let availableHeight := if availableHeight < 5 then 20 else availableHeight
  let availableHeight := if m.showFilters then availableHeight - 4 else availableHeight
  (if width > 120 then
    (adjustTableColumns { m with showPreview := true } ((availableWidth * 60).tdiv 100)).andThen
      fun m =>
        Outcome.done
          { m with
            previewPane :=
              { m.previewPane with
                Width := (availableWidth * 35).tdiv 100
                Height := max 15 (availableHeight - 3) } }
  else
    adjustTableColumns { m with showPreview := false } availableWidth).andThen fun m =>
  let inputWidth := max 30 (availableWidth.tdiv 2 - 10)
  Outcome.done
    { m with
      table := { m.table with height := max 10 availableHeight }
      viewport := { m.viewport with Width := availableWidth, Height := availableHeight }
      searchInput := { m.searchInput with Width := inputWidth }
      filterInput := { m.filterInput with Width := inputWidth } }

/-! ## Filtering: `applyFilters`, `updatePreviewPane` -/

/-- The method `updatePreviewPane`: the preview shows the issue under the cursor.
A negative cursor makes the index expression `filteredIssues[cursor]` panic. -/
def updatePreviewPane (m : GitHubIssuesModel) (cursor : Int) : Outcome :=
  if cursor ≥ (m.filteredIssues.length : Int) then Outcome.done m
  else if cursor < 0 then Outcome.panicked m
  else
    match m.filteredIssues.get? cursor.toNat with
    | some issue =>
      Outcome.done
        { m with
          previewPane :=
            { m.previewPane with content := Content.preview issue m.previewPane.Width } }
    | none => Outcome.panicked m

/-- The method `applyFilters`. -/
def applyFilters (m : GitHubIssuesModel) : Outcome :=
  let filteredIssues := m.issues
  let searchTerm := toLower (trimSpace m.searchInput.value)
  let filteredIssues :=
    if searchTerm ≠ [] then filteredIssues.filter (fun issue => matchesSearch issue searchTerm)
    else filteredIssues
  let filterTerm := toLower (trimSpace m.filterInput.value)
  let filteredIssues :=
    if filterTerm ≠ [] then filteredIssues.filter (fun issue => matchesFilter issue filterTerm)
    else filteredIssues
  (updateTableRows { m with filteredIssues := filteredIssues }).andThen fun m =>
  if m.showPreview ∧ m.filteredIssues.length > 0 then
    let cursor := m.table.cursor
    if cursor < (m.filteredIssues.length : Int) then updatePreviewPane m cursor
    else Outcome.done m
  else Outcome.done m

/-! ## Events and rendering -/

/-- The case `tea.WindowSizeMsg` of the method `Update`. -/
def updateWindowSize (m : GitHubIssuesModel) (Width Height : Int) : Outcome :=
  (updateSizes { m with width := Width, height := Height }).andThen fun m =>
  updateTableRows m

/-- The condition `showSplitView` of `renderTableView`: the table and the preview
are rendered side by side. -/
def showSplitView (m : GitHubIssuesModel) : Bool :=
  m.showPreview && decide (m.filteredIssues.length > 0) && decide (m.width > 120)

/-- The messages `Update` receives.  `KeyMsg` carries the text `msg.String()` of the
key; `MouseWheelMsg` is a `tea.MouseMsg` of type wheel up or wheel down, `MouseMsg`
any other mouse event and `otherMsg` any message `Update` has no case for. -/
inductive Msg where
  | WindowSizeMsg (Width Height : Int)
  | KeyMsg (key : GoString)
  | issuesLoadedMsg (Issues : List IssueWithRepo)
  | errorMsg (Error : GoString)
  | browserActionMsg (success : Bool) (message : GoString)
  | commentsActionMsg (success : Bool) (message : GoString)
  | commentsLoadedMsg (comments : List IssueComment)
  | MouseWheelMsg
  | MouseMsg
  | otherMsg
  deriving DecidableEq, Repr

/-- The `Update` methods of the three `bubbles` widgets, which `Update` delegates
to.  They belong to the library, so the browser is modelled for any of them. -/
structure Widgets where
  textinputUpdate : TextInput → Msg → TextInput
  tableUpdate : Table → Msg → Table
  viewportUpdate : Viewport → Msg → Viewport

/-- The method `updateDetailView`: the detail viewport shows the selected issue.
The header formats `*issue.Number`, a nil dereference when the number is absent. -/
def updateDetailView (m : GitHubIssuesModel) : Outcome :=
  match m.selected with
  | none => Outcome.done m
  | some issue =>
    match issue.Issue.Number with
    | none => Outcome.panicked m
    | some _ => Outcome.done { m with viewport := { m.viewport with content := Content.detail issue } }

/-- The method `updateDetailViewWithCommentInfo`. -/
def updateDetailViewWithCommentInfo (m : GitHubIssuesModel) (commentInfo : GoString) : Outcome :=
  (updateDetailView m).andThen fun m =>
  Outcome.done
    { m with
      viewport :=
        { m.viewport with content := Content.withCommentInfo m.viewport.content commentInfo } }

/-- The method `updateCommentsView`: the viewport shows the comment thread of the
selected issue.  The header formats `*issue.Number` and `*issue.Title`. -/
def updateCommentsView (m : GitHubIssuesModel) : Outcome :=
  match m.selected with
  | none => Outcome.done m
  | some issue =>
    match issue.Issue.Number, issue.Issue.Title with
    | some _, some _ =>
      Outcome.done
        { m with viewport := { m.viewport with content := Content.comments issue m.comments } }
    | _, _ => Outcome.panicked m

/-- How a `case` of `Update` ends: the method is over (`return`, or a panic), or
control leaves the `switch` and goes on to the component updates. -/
inductive Flow where
  | ends (o : Outcome)
  | goesOn (m : GitHubIssuesModel)
  deriving DecidableEq, Repr

/-- A step that goes on unless it panicked. -/
def Flow.ofOutcome : Outcome → Flow
  | Outcome.done m => Flow.goesOn m
  | Outcome.panicked m => Flow.ends (Outcome.panicked m)

/-- The index `int(msg.String()[0] - '1')` for the keys `1` to `6`. -/
def quickFilterIndex (key : GoString) : Option Nat :=
  if key = "1".toList then some 0
  else if key = "2".toList then some 1
  else if key = "3".toList then some 2
  else if key = "4".toList then some 3
  else if key = "5".toList then some 4
  else if key = "6".toList then some 5
  else none

/-- The part of the `tea.KeyMsg` case guarded by `!inputFocused`, first block: the
quick filters `1`-`6`, the filter toggle `f`, the search `s`, the preview `p`. -/
def shortcutKeys (m : GitHubIssuesModel) (key : GoString) : Flow :=
  match (if m.currentView = viewMode.viewModeTable then
      (quickFilterIndex key).bind fun filterIndex =>
        (quickFilters.get? filterIndex).map fun q => (filterIndex, q)
    else none) with
  | some (filterIndex, q) =>
    if m.activeQuickFilter = (filterIndex : Int) then
      Flow.ends (applyFilters
        { m with activeQuickFilter := -1, filterInput := { m.filterInput with value := [] } })
    else
      Flow.ends (applyFilters
        { m with
          activeQuickFilter := filterIndex
          filterInput := { m.filterInput with value := q.query } })
  | none =>
    if key = "f".toList ∧ m.currentView = viewMode.viewModeTable then
      if !m.showFilters then
        Flow.ends (Outcome.done
          { m with showFilters := true, filterInput := { m.filterInput with focused := true } })
      else
        Flow.ends (Outcome.done
          { m with
            showFilters := false
            filterInput := { m.filterInput with focused := false }
            searchInput := { m.searchInput with focused := false } })
    else if key = "s".toList ∧ m.currentView = viewMode.viewModeTable ∧ !m.showFilters then
      Flow.ends (Outcome.done { m with searchInput := { m.searchInput with focused := true } })
    else if key = "p".toList ∧ m.currentView = viewMode.viewModeTable then
      Flow.ends (Outcome.done { m with showPreview := !m.showPreview })
    else Flow.goesOn m

/-- The part of the `tea.KeyMsg` case that works regardless of input focus: `esc`
and `tab`. -/
def alwaysKeys (m : GitHubIssuesModel) (key : GoString) : Flow :=
  if key = "esc".toList then
    if m.currentView = viewMode.viewModeComments then
      Flow.ends (Outcome.done { m with currentView := viewMode.viewModeDetail, comments := [] })
    else if m.currentView = viewMode.viewModeDetail then
      Flow.ends (Outcome.done
        { m with currentView := viewMode.viewModeTable, selected := none, selectedIndex := -1 })
    else if m.showFilters then
      Flow.ends (Outcome.done
        { m with
          showFilters := false
          searchInput := { m.searchInput with focused := false }
          filterInput := { m.filterInput with focused := false } })
    else if m.searchInput.focused then
      Flow.ends (Outcome.done { m with searchInput := { m.searchInput with focused := false } })
    else Flow.ends (Outcome.done m)
  else if key = "tab".toList then
    if m.showFilters then
      if m.filterInput.focused then
        Flow.ends (Outcome.done
          { m with
            filterInput := { m.filterInput with focused := false }
            searchInput := { m.searchInput with focused := true } })
      else if m.searchInput.focused then
        Flow.ends (Outcome.done
          { m with
            searchInput := { m.searchInput with focused := false }
            filterInput := { m.filterInput with focused := true } })
      else
        Flow.ends (Outcome.done { m with filterInput := { m.filterInput with focused := true } })
    else Flow.goesOn m
  else Flow.goesOn m

/-- The part of the `tea.KeyMsg` case guarded by `!inputFocused`, second block:
`enter`, `r`, `o`, `y`, `c`.  The commands returned with `r`, `o`, `y`, `c` run
outside the model; their results come back as later messages. -/
def plainKeys (m : GitHubIssuesModel) (key : GoString) : Flow :=
  if key = "enter".toList then
    if m.currentView = viewMode.viewModeTable ∧ m.filteredIssues.length > 0 then
      let cursor := m.table.cursor
      if cursor < (m.filteredIssues.length : Int) then
        if cursor < 0 then Flow.ends (Outcome.panicked m)
        else
          match m.filteredIssues.get? cursor.toNat with
          | none => Flow.ends (Outcome.panicked m)
          | some issue =>
            Flow.ofOutcome (updateDetailView
              { m with
                selected := some issue
                selectedIndex := cursor
                currentView := viewMode.viewModeDetail })
      else Flow.goesOn m
    else Flow.goesOn m
  else if key = "r".toList then Flow.ends (Outcome.done m)
  else if key = "o".toList then
    if m.selected.isSome then Flow.ends (Outcome.done m) else Flow.goesOn m
  else if key = "y".toList then
    if m.selected.isSome then Flow.ends (Outcome.done m) else Flow.goesOn m
  else if key = "c".toList then
    if m.selected.isSome then Flow.ends (Outcome.done { m with loadingComments := true })
    else Flow.goesOn m
  else Flow.goesOn m

/-- The case `tea.KeyMsg` of `Update`; `inputFocused` is read once, on entry. -/
def keyMsg (m : GitHubIssuesModel) (key : GoString) : Flow :=
  let inputFocused := m.searchInput.focused || m.filterInput.focused
  match (if !inputFocused then shortcutKeys m key else Flow.goesOn m) with
  | Flow.ends o => Flow.ends o
  | Flow.goesOn m =>
    match alwaysKeys m key with
    | Flow.ends o => Flow.ends o
    | Flow.goesOn m => if !inputFocused then plainKeys m key else Flow.goesOn m

/-- The `switch` over the message type in `Update`. -/
def msgCase (m : GitHubIssuesModel) : Msg → Flow
  | Msg.WindowSizeMsg Width Height => Flow.ends (updateWindowSize m Width Height)
  | Msg.KeyMsg key => keyMsg m key
  | Msg.issuesLoadedMsg Issues =>
    Flow.ofOutcome (applyFilters { m with loading := false, error := [], issues := Issues })
  | Msg.errorMsg Error => Flow.goesOn { m with loading := false, error := Error }
  | Msg.browserActionMsg success message =>
    if success then Flow.goesOn { m with error := [] }
    else Flow.goesOn { m with error := message }
  | Msg.commentsActionMsg success message =>
    if success then
      if m.selected.isSome then
        Flow.ofOutcome (updateDetailViewWithCommentInfo { m with error := [] } message)
      else Flow.goesOn { m with error := [] }
    else Flow.goesOn { m with error := message }
  | Msg.commentsLoadedMsg comments =>
    Flow.ofOutcome (updateCommentsView
      { m with
        loadingComments := false
        comments := comments
        currentView := viewMode.viewModeComments })
  | Msg.MouseWheelMsg => Flow.ends (Outcome.done m)
  | Msg.MouseMsg => Flow.goesOn m
  | Msg.otherMsg => Flow.goesOn m

/-- The end of `Update`, "update components based on current view": the focused
input, else the table (and the preview when the cursor moved), or the detail
viewport, receive the message. -/
def updateComponents (w : Widgets) (m : GitHubIssuesModel) (msg : Msg) : Outcome :=
  if m.currentView = viewMode.viewModeTable then
    if m.searchInput.focused then
      applyFilters { m with searchInput := w.textinputUpdate m.searchInput msg }
    else if m.filterInput.focused then
      applyFilters { m with filterInput := w.textinputUpdate m.filterInput msg }
    else
      let oldCursor := m.table.cursor
      let m := { m with table := w.tableUpdate m.table msg }
      let newCursor := m.table.cursor
      if m.showPreview ∧ oldCursor ≠ newCursor ∧ m.filteredIssues.length > 0 ∧
          newCursor < (m.filteredIssues.length : Int) then
        updatePreviewPane m newCursor
      else Outcome.done m
  else if m.currentView = viewMode.viewModeDetail then
    Outcome.done { m with viewport := w.viewportUpdate m.viewport msg }
  else Outcome.done m

/-- The method `Update`. -/
def Update (w : Widgets) (m : GitHubIssuesModel) (msg : Msg) : Outcome :=
  match msgCase m msg with
  | Flow.ends o => o
  | Flow.goesOn m => updateComponents w m msg

/-- The method `Init`: 150 columns by 40 rows, preview on, sizes computed. -/
def Init (m : GitHubIssuesModel) : Outcome :=
  updateSizes { m with width := 150, height := 40, showPreview := true }

/-- The row details at the end of the status line of `renderTableView`. -/
structure StatusRow where
  row : Int
  count : Nat
  number : Int
  login : Option GoString
  comments : Option Int
  deriving DecidableEq, Repr

/-- The panes of the split view of `renderTableView`: the three widths handed to
`lipgloss` and the preview shown. -/
structure SplitPanes where
  tableWidth : Int
  spacerWidth : Int
  previewWidth : Int
  preview : Content
  deriving DecidableEq, Repr

/-- What `renderTableView` draws, section by section. -/
structure TableFrame where
  quickFilters : Option Int
  filterBox : Option (GoString × GoString)
  previewHint : Bool
  table : Table
  split : Option SplitPanes
  shown : Nat
  total : Nat
  filtered : Bool
  statusRow : Option StatusRow
  deriving DecidableEq, Repr

/-- A frame returned by `View`, identified by what it shows. -/
inductive Frame where
  | loadingIssues
  | loadingComments
  | error (message : GoString)
  | noIssueSelected
  | viewport (content : Content)
  | table (t : TableFrame)
  deriving DecidableEq, Repr

/-- The result of a rendering method: the frame (`none` after a run-time panic)
and the model as the method left it. -/
structure Rendering where
  frame : Option Frame
  state : GitHubIssuesModel
  deriving DecidableEq, Repr

/-- The status line of `renderTableView`; `none` is a run-time panic (negative
cursor, or an issue without number under the cursor). -/
def statusRow (m : GitHubIssuesModel) : Option (Option StatusRow) :=
  if m.filteredIssues.length > 0 then
    let cursor := m.table.cursor
    if cursor < (m.filteredIssues.length : Int) then
      if cursor < 0 then none
      else
        match m.filteredIssues.get? cursor.toNat with
        | none => none
        | some selected =>
          match selected.Issue.Number with
          | none => none
          | some number =>
            some (some
              { row := cursor + 1
                count := m.filteredIssues.length
                number := number
                login := selected.Issue.Assignee.bind fun u => u.Login
                comments := selected.Issue.Comments.bind fun c =>
                  if c > 0 then some c else none })
    else some none
  else some none

/-- The method `renderTableView`. -/
def renderTableView (m : GitHubIssuesModel) : Rendering :=
  let quick := if m.currentView = viewMode.viewModeTable then some m.activeQuickFilter else none
  let filterBox := if m.showFilters then some (m.searchInput.value, m.filterInput.value) else none
  let table := m.table
  let finish (m : GitHubIssuesModel) (hint : Bool) (split : Option SplitPanes) : Rendering :=
    match statusRow m with
    | none => { frame := none, state := m }
    | some row =>
      { frame := some (Frame.table
          { quickFilters := quick
            filterBox := filterBox
            previewHint := hint
            table := table
            split := split
            shown := m.filteredIssues.length
            total := m.issues.length
            filtered := decide (m.searchInput.value ≠ [] ∨ m.filterInput.value ≠ [] ∨
              m.activeQuickFilter ≠ -1)
            statusRow := row })
        state := m }
  if showSplitView m then
    let cursor := m.table.cursor
    match (if cursor < (m.filteredIssues.length : Int) then updatePreviewPane m cursor
      else Outcome.done m) with
    | Outcome.panicked m => { frame := none, state := m }
    | Outcome.done m =>
      let tableWidth := (m.width * 60).tdiv 100
      let previewWidth := (m.width * 35).tdiv 100
      let spacerWidth := m.width - tableWidth - previewWidth
      let tableWidth := if tableWidth < 40 then 40 else tableWidth
      let previewWidth := if previewWidth < 30 then 30 else previewWidth
      finish m false
        (some
          { tableWidth := tableWidth
            spacerWidth := spacerWidth
            previewWidth := previewWidth
            preview := m.previewPane.content })
  else finish m (m.showPreview && decide (m.width ≤ 120)) none

/-- The method `renderDetailView`. -/
def renderDetailView (m : GitHubIssuesModel) : Rendering :=
  match m.selected with
  | none => { frame := some Frame.noIssueSelected, state := m }
  | some _ => { frame := some (Frame.viewport m.viewport.content), state := m }

/-- The method `renderCommentsView`: it rebuilds the comment thread into the
viewport before returning it. -/
def renderCommentsView (m : GitHubIssuesModel) : Rendering :=
  match m.selected with
  | none => { frame := some Frame.noIssueSelected, state := m }
  | some issue =>
    match issue.Issue.Number, issue.Issue.Title with
    | some _, some _ =>
      let m := { m with viewport := { m.viewport with content := Content.comments issue m.comments } }
      { frame := some (Frame.viewport m.viewport.content), state := m }
    | _, _ => { frame := none, state := m }

/-- The method `View`. -/
def View (m : GitHubIssuesModel) : Rendering :=
  if m.loading then { frame := some Frame.loadingIssues, state := m }
  else if m.loadingComments then { frame := some Frame.loadingComments, state := m }
  else if m.error ≠ [] then { frame := some (Frame.error m.error), state := m }
  else
    match m.currentView with
    | viewMode.viewModeDetail => renderDetailView m
    | viewMode.viewModeComments => renderCommentsView m
    | _ => renderTableView m

/-- The cursor bound `clamp(v, low, high)` of the table widget. -/
def clamp (v low high : Int) : Int := min (max v low) high

/-- A reading of the widget `Update` methods for the plain keys: a focused text
input appends a typed character (up to its limit of 100) and drops the last one
on `backspace`; the table moves its cursor by one row on `up` / `down`, within
the rows; the viewport keeps its content. -/
def keyboardWidgets : Widgets where
  textinputUpdate := fun t msg =>
    match msg with
    | Msg.KeyMsg key =>
      if !t.focused then t
      else if key = "backspace".toList then { t with value := t.value.dropLast }
      else
        match key with
        | [c] => if t.value.length < 100 then { t with value := t.value ++ [c] } else t
        | _ => t
    | _ => t
  tableUpdate := fun t msg =>
    match msg with
    | Msg.KeyMsg key =>
      if key = "up".toList then { t with cursor := clamp (t.cursor - 1) 0 (t.rows.length - 1) }
      else if key = "down".toList then
        { t with cursor := clamp (t.cursor + 1) 0 (t.rows.length - 1) }
      else t
    | _ => t
  viewportUpdate := fun v _ => v

/-- The messages of a list handled one after the other; a panic ends the run. -/
def runUpdates (w : Widgets) (m : GitHubIssuesModel) : List Msg → Outcome
  | [] => Outcome.done m
  | msg :: rest =>
    match Update w m msg with
    | Outcome.done m' => runUpdates w m' rest
    | Outcome.panicked m' => Outcome.panicked m'

/-- The commands of the browser's own that `Update` returns: `loadIssues`,
`openInBrowser`, `copyToClipboard`, `loadComments`.  The commands of the widgets and
of the spinner, batched at the end of `Update`, are left out. -/
inductive Cmd where
  | loadIssues
  | openInBrowser
  | copyToClipboard
  | loadComments
  deriving DecidableEq, Repr

/-- The command returned by the second `!inputFocused` block of the `tea.KeyMsg`
case: `r` reloads the issues; `o`, `y`, `c` act on the selected issue. -/
def plainKeysCmd (m : GitHubIssuesModel) (key : GoString) : Option Cmd :=
  if key = "enter".toList then none
  else if key = "r".toList then some Cmd.loadIssues
  else if key = "o".toList then
    if m.selected.isSome then some Cmd.openInBrowser else none
  else if key = "y".toList then
    if m.selected.isSome then some Cmd.copyToClipboard else none
  else if key = "c".toList then
    if m.selected.isSome then some Cmd.loadComments else none
  else none

/-- The command of its own that the `tea.KeyMsg` case returns: the shortcut keys,
`esc` and `tab` return `nil`. -/
def keyMsgCmd (m : GitHubIssuesModel) (key : GoString) : Option Cmd :=
  let inputFocused := m.searchInput.focused || m.filterInput.focused
  match (if !inputFocused then shortcutKeys m key else Flow.goesOn m) with
  | Flow.ends _ => none
  | Flow.goesOn m =>
    match alwaysKeys m key with
    | Flow.ends _ => none
    | Flow.goesOn m => if !inputFocused then plainKeysCmd m key else none

/-- The command of its own that `Update` returns with the model. -/
def UpdateCmd (m : GitHubIssuesModel) : Msg → Option Cmd
  | Msg.KeyMsg key => keyMsgCmd m key
  | _ => none

/-- The method `Refresh`: it shows the loading screen; the command it returns is
`loadIssues`. -/
def Refresh (m : GitHubIssuesModel) : GitHubIssuesModel := { m with loading := true }

/-! ## Host model: `MainModel` -/

/-- The type `Tab`. -/
inductive Tab where
  | TabGitHubIssues
  | TabADOItems
  | TabSyncOverview
  | TabUpdatesFeed
  | TabRoadmapReview
  deriving DecidableEq, Repr

/-- The type `MainModel`, reduced to the current tab, the GitHub issues browser and
the error text; the models of the other four tabs are left out. -/
structure MainModel where
  currentTab : Tab
  githubIssues : GitHubIssuesModel
  error : GoString
  deriving DecidableEq, Repr

/-- The constructor `NewMainModel`. -/
def NewMainModel : MainModel :=
  { currentTab := Tab.TabGitHubIssues, githubIssues := NewGitHubIssuesModel, error := [] }

/-- The messages `MainModel.Update` receives: those of the host, `RefreshCmd` and
`ErrorMsg`, and every message the browser knows. -/
inductive MainMsg where
  | RefreshCmd
  | ErrorMsg (Error : GoString)
  | tea (msg : Msg)
  deriving DecidableEq, Repr

/-- The result of `MainModel.Update`: the model, whether the method returned
without a panic, and whether it returned `tea.Quit`. -/
structure MainStep where
  state : MainModel
  completed : Bool
  quit : Bool
  deriving DecidableEq, Repr

/-- The end of `MainModel.Update`, "delegate to current tab": the GitHub issues
browser receives the message when its tab is the current one. -/
def MainModel.delegate (w : Widgets) (m : MainModel) (msg : Msg) : MainStep :=
  match m.currentTab with
  | Tab.TabGitHubIssues =>
    let o := IssueMonitor.Update w m.githubIssues msg
    { state := { m with githubIssues := o.state }, completed := o.completed, quit := false }
  | _ => { state := m, completed := true, quit := false }

/-- The method `MainModel.Update`.  A resize goes to every child with the height
reduced by 6; `q` and `ctrl+c` quit; the keys `1` to `5` select a tab and return;
`RefreshCmd` refreshes the children; `ErrorMsg` stores the error; any other
message goes to the current tab. -/
def MainModel.Update (w : Widgets) (m : MainModel) : MainMsg → MainStep
  | MainMsg.tea (Msg.WindowSizeMsg Width Height) =>
    let o := IssueMonitor.Update w m.githubIssues (Msg.WindowSizeMsg Width (Height - 6))
    { state := { m with githubIssues := o.state }, completed := o.completed, quit := false }
  | MainMsg.tea (Msg.KeyMsg key) =>
    if key = "q".toList ∨ key = "ctrl+c".toList then
      { state := m, completed := true, quit := true }
    else if key = "1".toList then
      { state := { m with currentTab := Tab.TabGitHubIssues }, completed := true, quit := false }
    else if key = "2".toList then
      { state := { m with currentTab := Tab.TabADOItems }, completed := true, quit := false }
    else if key = "3".toList then
      { state := { m with currentTab := Tab.TabSyncOverview }, completed := true, quit := false }
    else if key = "4".toList then
      { state := { m with currentTab := Tab.TabUpdatesFeed }, completed := true, quit := false }
    else if key = "5".toList then
      { state := { m with currentTab := Tab.TabRoadmapReview }, completed := true, quit := false }
    else MainModel.delegate w m (Msg.KeyMsg key)
  | MainMsg.RefreshCmd =>
    { state := { m with githubIssues := Refresh m.githubIssues }, completed := true,
      quit := false }
  | MainMsg.ErrorMsg Error =>
    { state := { m with error := Error }, completed := true, quit := false }
  | MainMsg.tea msg => MainModel.delegate w m msg

/-! ## Issue store: `GetGitHubIssues` (package `services`) -/

/-- The type `config.Repository`. -/
structure Repository where
  Owner : GoString
  Name : GoString
  Labels : List GoString := []
  Description : GoString := []
  deriving DecidableEq, Repr

/-- The method `Repository.FullName`: `owner/name`. -/
def Repository.FullName (r : Repository) : GoString := r.Owner ++ '/' :: r.Name

/-- The file `github_issues.json` of the cache directory: the issue list its JSON
content decodes to (`none` when `json.Unmarshal` rejects the content) and the
modification time, in nanoseconds. -/
structure CacheFile where
  issues : Option (List IssueWithRepo)
  modTime : Int
  deriving DecidableEq, Repr

/-- The constant `5*time.Minute`, in nanoseconds. -/
def fiveMinutes : Int := 5 * 60 * 1000000000

/-- What one call of `GetGitHubIssues` meets outside the program: whether the
GitHub client exists, the answer of `Issues.ListByRepo` for each repository
(`none` is an error, a timeout included), the clock at the cache check and at
the cache write, and whether `os.WriteFile` succeeds. -/
structure CallEnv where
  clientReady : Bool
  listByRepo : Repository → Option (List Issue)
  now : Int
  writeTime : Int
  writeOk : Bool

/-- The pair `([]IssueWithRepo, error)` returned by `GetGitHubIssues`. -/
inductive IssuesResult where
  | ok (issues : List IssueWithRepo)
  | error (message : GoString)
  deriving DecidableEq, Repr

/-- What one call of `GetGitHubIssues` leaves: the returned list or error, the cache
file afterwards, and the repositories the GitHub client was called for, in order
(the calls the client recorded). -/
structure CallResult where
  result : IssuesResult
  cache : Option CacheFile
  fetched : List Repository
  deriving DecidableEq, Repr

/-- The GitHub client `s.githubClient`: its answer to `Issues.ListByRepo` for each
repository (`none` is an error) and the repositories it has been called for so
far, in order. -/
structure Client where
  answer : Repository → Option (List Issue)
  calls : List Repository

/-- The call `s.githubClient.Issues.ListByRepo`: the answer for the repository,
and the client with the call recorded. -/
def Client.ListByRepo (client : Client) (repo : Repository) :
    Option (List Issue) × Client :=
  (client.answer repo, { client with calls := client.calls ++ [repo] })

/-- The fetch loop of `GetGitHubIssues`: every repository is asked through
`ListByRepo`; a repository whose fetch fails is skipped (with a warning), the
issues of the others are appended, tagged with `FullName`.  The result is the
list `allIssues` and the client after the calls. -/
def fetchAll (client : Client) : List Repository → List IssueWithRepo × Client
  | [] => ([], client)
  | repo :: rest =>
    match client.ListByRepo repo with
    | (none, client) => fetchAll client rest
    | (some issues, client) =>
      match fetchAll client rest with
      | (more, client) =>
        (issues.map (fun issue => { Issue := issue, Repo := repo.FullName }) ++ more, client)

/-- The cache read at the head of `GetGitHubIssues`: the cached list, when the file
exists, decodes and is less than five minutes old. -/
def cachedIssues (now : Int) (cache : Option CacheFile) : Option (List IssueWithRepo) :=
  match cache with
  | some file =>
    match file.issues with
    | some issues => if now - file.modTime < fiveMinutes then some issues else none
    | none => none
  | none => none

/-- The method `GetGitHubIssues`, for the configured repositories and the cache
file found.  The JSON encoding is taken to succeed and to decode back to the
list it encodes; a failed write is taken to leave the file as it was. -/
def GetGitHubIssues (env : CallEnv) (repositories : List Repository)
    (cache : Option CacheFile) : CallResult :=
  if !env.clientReady then
    { result := IssuesResult.error "GitHub client not initialized".toList
      cache := cache
      fetched := [] }
  else
    match cachedIssues env.now cache with
    | some issues => { result := IssuesResult.ok issues, cache := cache, fetched := [] }
    | none =>
      match fetchAll { answer := env.listByRepo, calls := [] } repositories with
      | (allIssues, client) =>
        { result := IssuesResult.ok allIssues
          cache := if env.writeOk then
              some { issues := some allIssues, modTime := env.writeTime }
            else cache
          fetched := client.calls }

/-- The method `ClearCache`: the cache directory is removed. -/
def ClearCache (_cache : Option CacheFile) : Option CacheFile := none


/-- The displayed list: `filteredIssues` after `applyFilters` ran on a fresh model
holding the issue list, the search text and the filter text. -/
def displayed (issues : List IssueWithRepo) (search filter : GoString) : List IssueWithRepo :=
  (applyFilters
    { NewGitHubIssuesModel with
      issues := issues
      searchInput := { value := search }
      filterInput := { value := filter } }).state.filteredIssues

/-- Specification side of the search query: a blank text matches every issue, any
other text matches through `matchesSearch` on its trimmed, lower-cased form. -/
def searchQueryMatches (issue : IssueWithRepo) (s : GoString) : Bool :=
  decide (toLower (trimSpace s) = []) || matchesSearch issue (toLower (trimSpace s))

/-- Specification side of the filter query: a blank text matches every issue, any
other text matches through `matchesFilter` on its trimmed, lower-cased form. -/
def filterQueryMatches (issue : IssueWithRepo) (f : GoString) : Bool :=
  decide (toLower (trimSpace f) = []) || matchesFilter issue (toLower (trimSpace f))

/-! ## Lemmas on the string functions -/

theorem contains_iff_isInfix (s substr : GoString) :
    contains s substr = true ↔ substr <:+: s := by
  induction s with
  | nil => simp [contains, List.isPrefixOf_iff_prefix]
  | cons c cs ih =>
    simp only [contains, Bool.or_eq_true, ih, List.isPrefixOf_iff_prefix]
    exact (List.infix_cons_iff).symm

theorem contains_self (s : GoString) : contains s s = true :=
  (contains_iff_isInfix s s).2 (List.infix_refl s)

theorem fieldsFrom_of_no_space (t : GoString) (ht : ∀ c ∈ t, isSpace c = false) :
    ∀ cur : GoString, fieldsFrom cur t = if (cur ++ t).isEmpty then [] else [cur ++ t] := by
  induction t with
  | nil => intro cur; simp [fieldsFrom]
  | cons c cs ih =>
    intro cur
    have hc : isSpace c = false := ht c (List.mem_cons_self _ _)
    have hcs : ∀ d ∈ cs, isSpace d = false := fun d hd => ht d (List.mem_cons_of_mem _ hd)
    simp [fieldsFrom, hc, ih hcs]

theorem fieldsFrom_append_space (a b : GoString) (sp : Char) (hsp : isSpace sp = true) :
    ∀ cur : GoString, fieldsFrom cur (a ++ sp :: b) = fieldsFrom cur a ++ fieldsFrom [] b := by
  induction a with
  | nil =>
    intro cur
    by_cases h : cur.isEmpty = true <;> simp [fieldsFrom, hsp, h]
  | cons c cs ih =>
    intro cur
    by_cases hc : isSpace c = true
    · by_cases h : cur.isEmpty = true <;> simp [fieldsFrom, hc, h, ih]
    · simp [fieldsFrom, hc, ih]

theorem fields_append_space (a b : GoString) (sp : Char) (hsp : isSpace sp = true) :
    fields (a ++ sp :: b) = fields a ++ fields b :=
  fieldsFrom_append_space a b sp hsp []

theorem fields_of_no_space (t : GoString) (ht : ∀ c ∈ t, isSpace c = false) (hne : t ≠ []) :
    fields t = [t] := by
  have h := fieldsFrom_of_no_space t ht []
  simpa [fields, hne] using h

theorem splitN2From_of_not_mem (sep : Char) (t : GoString) (ht : sep ∉ t) :
    ∀ pre : GoString, splitN2From sep pre t = [pre ++ t] := by
  induction t with
  | nil => intro pre; simp [splitN2From]
  | cons c cs ih =>
    intro pre
    have hc : ¬ c = sep := fun h => ht (h ▸ List.mem_cons_self _ _)
    have hcs : sep ∉ cs := fun h => ht (List.mem_cons_of_mem _ h)
    simp [splitN2From, hc, ih hcs]

theorem splitN2From_first_sep (sep : Char) (k v : GoString) (hk : sep ∉ k) :
    ∀ pre : GoString, splitN2From sep pre (k ++ sep :: v) = [pre ++ k, v] := by
  induction k with
  | nil => intro pre; simp [splitN2From]
  | cons c cs ih =>
    intro pre
    have hc : ¬ c = sep := fun h => hk (h ▸ List.mem_cons_self _ _)
    have hcs : sep ∉ cs := fun h => hk (List.mem_cons_of_mem _ h)
    simp [splitN2From, hc, ih hcs]

theorem splitN2_key_value (k v : GoString) (hk : ':' ∉ k) :
    splitN2 (k ++ ':' :: v) ':' = [k, v] := by
  simpa [splitN2] using splitN2From_first_sep ':' k v hk []

theorem splitN2_bare (t : GoString) (ht : ':' ∉ t) : splitN2 t ':' = [t] := by
  simpa [splitN2] using splitN2From_of_not_mem ':' t ht []

/-! ## Lemmas on the outcome of the mutating methods -/

theorem updateTableRows_state (m : GitHubIssuesModel) :
    ∃ rows, (updateTableRows m).state = { m with table := { m.table with rows := rows } } := by
  unfold updateTableRows
  split
  · exact ⟨[], rfl⟩
  · dsimp only
    generalize (match findColumn m.currentColumns "Title".toList with
      | some col => col.Width
      | none => 40) = w
    cases buildRows m.currentColumns w m.filteredIssues with
    | none => exact ⟨m.table.rows, rfl⟩
    | some rows => exact ⟨rows, rfl⟩

theorem adjustTableColumns_state (m : GitHubIssuesModel) (a : Int) :
    ∃ wd rows, (adjustTableColumns m a).state =
      { m with
        currentColumns := planColumns a
        table := { m.table with cols := planColumns a, width := wd, rows := rows } } := by
  unfold adjustTableColumns
  dsimp only
  split
  · obtain ⟨rows, h⟩ := updateTableRows_state
      { m with
        currentColumns := planColumns a
        table := { m.table with cols := planColumns a, width := a } }
    exact ⟨a, rows, h⟩
  · exact ⟨m.table.width, m.table.rows, rfl⟩

theorem updateTableRows_filteredIssues (m : GitHubIssuesModel) :
    (updateTableRows m).state.filteredIssues = m.filteredIssues := by
  obtain ⟨rows, h⟩ := updateTableRows_state m
  rw [h]

theorem updatePreviewPane_filteredIssues (m : GitHubIssuesModel) (cursor : Int) :
    (updatePreviewPane m cursor).state.filteredIssues = m.filteredIssues := by
  unfold updatePreviewPane
  split
  · rfl
  · split
    · rfl
    · split <;> rfl

theorem andThen_state_filteredIssues (o : Outcome) (f : GitHubIssuesModel → Outcome)
    (hf : ∀ m, (f m).state.filteredIssues = m.filteredIssues) :
    (o.andThen f).state.filteredIssues = o.state.filteredIssues := by
  cases o with
  | done m => exact hf m
  | panicked m => rfl

theorem applyFilters_filteredIssues_eq (m : GitHubIssuesModel) :
    (applyFilters m).state.filteredIssues =
      m.issues.filter (fun issue =>
        searchQueryMatches issue m.searchInput.value &&
          filterQueryMatches issue m.filterInput.value) := by
  unfold applyFilters
  rw [andThen_state_filteredIssues, updateTableRows_filteredIssues]
  · simp only [searchQueryMatches, filterQueryMatches]
    by_cases hs : toLower (trimSpace m.searchInput.value) = [] <;>
      by_cases hf : toLower (trimSpace m.filterInput.value) = [] <;>
      simp [hs, hf, List.filter_filter, Bool.and_comm]
  · intro m'
    dsimp only
    split
    · split
      · exact updatePreviewPane_filteredIssues _ _
      · rfl
    · rfl


/-! ## Lemmas on `matchesSearch` and the filter loop -/

theorem matchesSearch_iff (issue : IssueWithRepo) (t : GoString) :
    matchesSearch issue t = true ↔
      (∃ title, issue.Issue.Title = some title ∧ t <:+: toLower title) ∨
      (∃ body, issue.Issue.Body = some body ∧ t <:+: toLower body) ∨
      (∃ u login, issue.Issue.Assignee = some u ∧ u.Login = some login ∧
        t <:+: toLower login) ∨
      (∃ label ∈ issue.Issue.Labels, ∃ name, label.Name = some name ∧ t <:+: toLower name) ∨
      t <:+: toLower issue.Repo := by
  have hT : (match issue.Issue.Title with
      | some x => contains (toLower x) t
      | none => false) = true ↔ ∃ title, issue.Issue.Title = some title ∧ t <:+: toLower title := by
    cases issue.Issue.Title <;> simp [contains_iff_isInfix]
  have hB : (match issue.Issue.Body with
      | some b => contains (toLower b) t
      | none => false) = true ↔ ∃ body, issue.Issue.Body = some body ∧ t <:+: toLower body := by
    cases issue.Issue.Body <;> simp [contains_iff_isInfix]
  have hA : (match issue.Issue.Assignee with
      | some u =>
        match u.Login with
        | some l => contains (toLower l) t
        | none => false
      | none => false) = true ↔
      ∃ u login, issue.Issue.Assignee = some u ∧ u.Login = some login ∧ t <:+: toLower login := by
    cases issue.Issue.Assignee with
    | none => simp
    | some u => cases hl : u.Login <;> simp [contains_iff_isInfix, hl]
  have hL : (issue.Issue.Labels.any (fun label =>
      match label.Name with
      | some n => contains (toLower n) t
      | none => false)) = true ↔
      ∃ label ∈ issue.Issue.Labels, ∃ name, label.Name = some name ∧ t <:+: toLower name := by
    rw [List.any_eq_true]
    constructor
    · rintro ⟨label, hmem, h⟩
      refine ⟨label, hmem, ?_⟩
      cases hn : label.Name with
      | none => simp [hn] at h
      | some n => exact ⟨n, rfl, (contains_iff_isInfix _ _).1 (by simpa [hn] using h)⟩
    · rintro ⟨label, hmem, n, hn, h⟩
      exact ⟨label, hmem, by simpa [hn] using (contains_iff_isInfix _ _).2 h⟩
  unfold matchesSearch
  rw [← hT, ← hB, ← hA, ← hL, ← contains_iff_isInfix]
  split_ifs <;> simp_all

theorem matchesFilterLoop_bare (issue : IssueWithRepo) (tok : GoString) (rest : List GoString)
    (h : ':' ∉ tok) : matchesFilterLoop issue (tok :: rest) = matchesSearch issue tok := by
  simp [matchesFilterLoop, splitN2_bare tok h]

/-- The keys `matchesFilter` gives a meaning to. -/
def knownKeys : List GoString :=
  ["state".toList, "label".toList, "author".toList, "assignee".toList, "repo".toList]

theorem matchesFilterLoop_unknown (issue : IssueWithRepo) (k v : GoString)
    (rest : List GoString) (hk : ':' ∉ k) (hunk : k ∉ knownKeys) :
    matchesFilterLoop issue ((k ++ ':' :: v) :: rest) = matchesFilterLoop issue rest := by
  simp [knownKeys] at hunk
  obtain ⟨h1, h2, h3, h4, h5⟩ := hunk
  simp [matchesFilterLoop, splitN2_key_value k v hk, h1, h2, h3, h4, h5]

theorem matchesFilterLoop_state (issue : IssueWithRepo) (v : GoString) (rest : List GoString) :
    matchesFilterLoop issue (("state".toList ++ ':' :: v) :: rest) =
      ((match issue.Issue.State with
        | some st => contains (toLower st) v
        | none => false) && matchesFilterLoop issue rest) := by
  rw [matchesFilterLoop, splitN2_key_value _ v (by decide)]
  cases issue.Issue.State with
  | none => simp
  | some st => cases contains (toLower st) v <;> simp


theorem matchesFilterLoop_label (issue : IssueWithRepo) (v : GoString) (rest : List GoString) :
    matchesFilterLoop issue (("label".toList ++ ':' :: v) :: rest) =
      (issue.Issue.Labels.any (fun label =>
          match label.Name with
          | some n => contains (toLower n) v
          | none => false) && matchesFilterLoop issue rest) := by
  rw [matchesFilterLoop, splitN2_key_value _ v (by decide)]
  dsimp only
  rw [if_neg (by decide), if_pos rfl]
  cases issue.Issue.Labels.any (fun label =>
          match label.Name with
          | some n => contains (toLower n) v
          | none => false) <;> simp

theorem matchesFilterLoop_login (issue : IssueWithRepo) (k v : GoString) (rest : List GoString)
    (hk : k = "author".toList ∨ k = "assignee".toList) :
    matchesFilterLoop issue ((k ++ ':' :: v) :: rest) =
      ((match issue.Issue.Assignee with
        | some u =>
          match u.Login with
          | some l => contains (toLower l) v
          | none => false
        | none => false) && matchesFilterLoop issue rest) := by
  have hcolon : ':' ∉ k := by rcases hk with h | h <;> subst h <;> decide
  have h1 : k ≠ "state".toList := by rcases hk with h | h <;> subst h <;> decide
  have h2 : k ≠ "label".toList := by rcases hk with h | h <;> subst h <;> decide
  rw [matchesFilterLoop, splitN2_key_value _ v hcolon]
  dsimp only
  rw [if_neg h1, if_neg h2, if_pos hk]
  cases issue.Issue.Assignee with
  | none => simp
  | some u =>
    cases hl : u.Login with
    | none => simp [hl]
    | some l => cases hc : contains (toLower l) v <;> simp [hl, hc]

theorem matchesFilterLoop_repo (issue : IssueWithRepo) (v : GoString) (rest : List GoString) :
    matchesFilterLoop issue (("repo".toList ++ ':' :: v) :: rest) =
      (contains (toLower issue.Repo) v && matchesFilterLoop issue rest) := by
  rw [matchesFilterLoop, splitN2_key_value _ v (by decide)]
  dsimp only
  rw [if_neg (by decide), if_neg (by decide), if_neg (by decide), if_pos rfl]
  cases contains (toLower issue.Repo) v <;> simp

theorem displayed_eq (issues : List IssueWithRepo) (s f : GoString) :
    displayed issues s f =
      issues.filter (fun issue => searchQueryMatches issue s && filterQueryMatches issue f) := by
  unfold displayed
  rw [applyFilters_filteredIssues_eq]

theorem isSpace_toLower (c : Char) : isSpace c.toLower = isSpace c := by
  unfold Char.toLower
  dsimp only
  split
  · rename_i h
    unfold isSpace
    dsimp only
    generalize c.toNat = n at h ⊢
    obtain ⟨h1, h2⟩ := h
    interval_cases n <;> decide
  · rfl

/-- No white space among the code points `a` to `b`. -/
def spaceFree (a b : Nat) : Bool :=
  (decide (b < 0x09) || decide (0x0D < a)) && (decide (b < 0x20) || decide (0x20 < a)) &&
  (decide (b < 0x85) || decide (0x85 < a)) && (decide (b < 0xA0) || decide (0xA0 < a)) &&
  (decide (b < 0x1680) || decide (0x1680 < a)) &&
  (decide (b < 0x2000) || decide (0x200A < a)) &&
  (decide (b < 0x2028) || decide (0x2029 < a)) &&
  (decide (b < 0x202F) || decide (0x202F < a)) &&
  (decide (b < 0x205F) || decide (0x205F < a)) &&
  (decide (b < 0x3000) || decide (0x3000 < a))

/-- A run of the case table is sound for white space: neither its sources nor its
targets hold white space, and its targets are runes. -/
def CaseRange.ok (c : CaseRange) : Bool :=
  decide (c.lo ≤ c.hi) && spaceFree c.lo c.hi && spaceFree c.target (c.target + (c.hi - c.lo)) &&
  (decide (c.target + (c.hi - c.lo) < 0xD800) ||
    (decide (0xDFFF < c.target) && decide (c.target + (c.hi - c.lo) < 0x110000)))

set_option maxRecDepth 100000 in
theorem caseRanges_ok : caseRanges.all CaseRange.ok = true := by
  decide

theorem isSpace_of_spaceFree (a b : Nat) (c : Char) (h : spaceFree a b = true)
    (ha : a ≤ c.toNat) (hb : c.toNat ≤ b) : isSpace c = false := by
  unfold isSpace
  dsimp only
  generalize c.toNat = n at ha hb ⊢
  simp only [spaceFree, Bool.and_eq_true, Bool.or_eq_true, decide_eq_true_eq] at h
  simp only [Bool.or_eq_false_iff, beq_eq_false_iff_ne, ne_eq, Bool.and_eq_false_imp,
    decide_eq_true_eq, decide_eq_false_iff_not]
  omega

theorem isSpace_lowerRune (c : Char) : isSpace (lowerRune c) = isSpace c := by
  unfold lowerRune
  split
  · exact isSpace_toLower c
  · unfold lowerPoint
    cases hfind : caseRanges.find? (fun r => decide (r.lo ≤ c.toNat ∧ c.toNat ≤ r.hi)) with
    | none =>
      dsimp only
      rw [Char.ofNat_toNat]
    | some r =>
      dsimp only
      split
      · have hmem := List.mem_of_find?_eq_some hfind
        have hin := List.find?_some hfind
        simp only [decide_eq_true_eq] at hin
        have hok := List.all_eq_true.1 caseRanges_ok r hmem
        simp only [CaseRange.ok, Bool.and_eq_true, Bool.or_eq_true, decide_eq_true_eq] at hok
        obtain ⟨⟨⟨_, hsrc⟩, htgt⟩, hvalid⟩ := hok
        have hvalid' : (r.target + (c.toNat - r.lo)).isValidChar := by
          unfold Nat.isValidChar
          omega
        have htoNat : (Char.ofNat (r.target + (c.toNat - r.lo))).toNat = r.target + (c.toNat - r.lo) := by
          rw [Char.ofNat, dif_pos hvalid']
          rfl
        rw [isSpace_of_spaceFree _ _ c hsrc hin.1 hin.2,
          isSpace_of_spaceFree _ _ _ htgt (by rw [htoNat]; omega) (by rw [htoNat]; omega)]
      · rw [Char.ofNat_toNat]

theorem toLower_dropWhile (s : GoString) :
    toLower (s.dropWhile isSpace) = (toLower s).dropWhile isSpace := by
  induction s with
  | nil => rfl
  | cons c cs ih =>
    by_cases hc : isSpace c = true
    · have hc2 : isSpace (lowerRune c) = true := by rw [isSpace_lowerRune]; exact hc
      simpa [toLower, List.dropWhile, hc, hc2] using ih
    · have hc2 : ¬ isSpace (lowerRune c) = true := by rw [isSpace_lowerRune]; exact hc
      simp [toLower, List.dropWhile, hc, hc2]

theorem toLower_trimSpace (s : GoString) : toLower (trimSpace s) = trimSpace (toLower s) := by
  unfold trimSpace
  have hrev : ∀ l : GoString, toLower l.reverse = (toLower l).reverse := fun l => by
    simp [toLower]
  rw [hrev, toLower_dropWhile, hrev, toLower_dropWhile]

theorem no_space_clause (k v : GoString) (hk : ∀ c ∈ k, isSpace c = false)
    (hv : ∀ c ∈ v, isSpace c = false) : ∀ c ∈ k ++ ':' :: v, isSpace c = false := by
  intro c hc
  rcases List.mem_append.1 hc with h | h
  · exact hk c h
  · rcases List.mem_cons.1 h with h | h
    · subst h; decide
    · exact hv c h

theorem fields_clause (k v : GoString) (hk : ∀ c ∈ k, isSpace c = false)
    (hv : ∀ c ∈ v, isSpace c = false) : fields (k ++ ':' :: v) = [k ++ ':' :: v] :=
  fields_of_no_space _ (no_space_clause k v hk hv) (by simp)

theorem no_space_toLower (v : GoString) (hv : ∀ c ∈ v, isSpace c = false) :
    ∀ c ∈ toLower v, isSpace c = false := by
  intro c hc
  obtain ⟨d, hd, rfl⟩ := List.mem_map.1 hc
  rw [isSpace_lowerRune]
  exact hv d hd

theorem matchesFilterLoop_congr (issue : IssueWithRepo) (tok : GoString)
    (r r' : List GoString) (h : matchesFilterLoop issue r = matchesFilterLoop issue r') :
    matchesFilterLoop issue (tok :: r) = matchesFilterLoop issue (tok :: r') := by
  simp only [matchesFilterLoop, h]

theorem matchesFilterLoop_insert_unknown (issue : IssueWithRepo) (k v : GoString)
    (hk : ':' ∉ k) (hunk : k ∉ knownKeys) (ys : List GoString) :
    ∀ xs : List GoString,
      matchesFilterLoop issue (xs ++ (k ++ ':' :: v) :: ys) = matchesFilterLoop issue (xs ++ ys) := by
  intro xs
  induction xs with
  | nil => simpa using matchesFilterLoop_unknown issue k v ys hk hunk
  | cons x xs ih => exact matchesFilterLoop_congr issue x _ _ ih

theorem dropWhile_isSpace_of_head (c : Char) (cs : GoString) (hc : isSpace c = false) :
    (c :: cs).dropWhile isSpace = c :: cs := by
  simp [List.dropWhile, hc]

theorem trimSpace_eq_self (c d : Char) (mid l : GoString) (hc : isSpace c = false)
    (hd : isSpace d = false) (hl : ∀ x ∈ l, isSpace x = false) :
    trimSpace (c :: (mid ++ d :: l)) = c :: (mid ++ d :: l) := by
  unfold trimSpace
  rw [dropWhile_isSpace_of_head c _ hc]
  have hrev : (c :: (mid ++ d :: l)).reverse = l.reverse ++ d :: (c :: mid).reverse := by
    simp
  have hdrop : (l.reverse ++ d :: (c :: mid).reverse).dropWhile isSpace =
      l.reverse ++ d :: (c :: mid).reverse := by
    cases hlr : l.reverse with
    | nil => simp [List.dropWhile, hd]
    | cons x xs =>
      have hx : isSpace x = false :=
        hl x (List.mem_reverse.1 (hlr ▸ List.mem_cons_self x xs))
      simp [List.dropWhile, hx]
  rw [hrev, hdrop, ← hrev, List.reverse_reverse]


/-! ## Lemmas on the layout and the row builder -/

theorem sliceTo_eq_some {α : Type} (s : List α) (n : Int) (h0 : 0 ≤ n)
    (h1 : n ≤ (s.length : Int)) :
    sliceTo s n = some (s.take n.toNat) := by
  simp [sliceTo, h0, h1]

theorem sliceFrom_eq_some {α : Type} (s : List α) (n : Int) (h0 : 0 ≤ n)
    (h1 : n ≤ (s.length : Int)) :
    sliceFrom s n = some (s.drop n.toNat) := by
  simp [sliceFrom, h0, h1]

theorem titleCell_isSome (issue : IssueWithRepo) (w : Int) (hw : 3 ≤ w) :
    (titleCell issue w).isSome = true := by
  unfold titleCell
  cases issue.Issue.Title with
  | none => rfl
  | some title =>
    dsimp only
    have hdiv : (w - 3).tdiv 2 = (w - 3) / 2 := Int.tdiv_eq_ediv (by omega) (by omega)
    rw [hdiv]
    split_ifs with h1 h2 h3
    · rw [sliceTo_eq_some _ _ (by omega) (by omega),
        sliceFrom_eq_some _ _ (by omega) (by omega)]
      rfl
    · rw [sliceTo_eq_some _ _ (by omega) (by omega)]
      rfl
    · rfl
    · rfl

/-- A column plan whose cells can be truncated without a slice out of bounds: the
Title column, if any, is at least 3 wide and every other column at least 5. -/
def SafePlan (cols : List Column) : Prop :=
  (∀ col, findColumn cols "Title".toList = some col → 3 ≤ col.Width) ∧
    ∀ title col, title ≠ "Title".toList → findColumn cols title = some col → 5 ≤ col.Width

theorem findColumn_some (cols : List Column) (title : GoString) (col : Column)
    (h : findColumn cols title = some col) : col ∈ cols ∧ col.Title = title := by
  unfold findColumn at h
  exact ⟨List.mem_of_find?_eq_some h, by simpa using List.find?_some h⟩

theorem mem_planColumns (a : Int) (col : Column) (hmem : col ∈ planColumns a) :
    (col.Title = "Title".toList ∧ (28 ≤ a → 3 ≤ col.Width)) ∨
      (col.Title ≠ "Title".toList ∧ 5 ≤ col.Width) := by
  unfold planColumns at hmem
  split_ifs at hmem with h1 h2
  · simp only [List.mem_cons, List.mem_singleton, List.not_mem_nil, or_false] at hmem
    rcases hmem with rfl | rfl | rfl | rfl
    · exact Or.inr ⟨by decide, by decide⟩
    · exact Or.inl ⟨rfl, fun h => by show (3 : Int) ≤ a - 25; omega⟩
    · exact Or.inr ⟨by decide, by decide⟩
    · exact Or.inr ⟨by decide, by decide⟩
  · simp only [List.mem_cons, List.mem_singleton, List.not_mem_nil, or_false] at hmem
    rcases hmem with rfl | rfl | rfl | rfl | rfl | rfl
    · exact Or.inr ⟨by decide, by decide⟩
    · exact Or.inl ⟨rfl, fun h => by show (3 : Int) ≤ a - 55; omega⟩
    · exact Or.inr ⟨by decide, by decide⟩
    · exact Or.inr ⟨by decide, by decide⟩
    · exact Or.inr ⟨by decide, by decide⟩
    · exact Or.inr ⟨by decide, by decide⟩
  · simp only [List.mem_cons, List.mem_singleton, List.not_mem_nil, or_false] at hmem
    rcases hmem with rfl | rfl | rfl | rfl | rfl | rfl | rfl
    · exact Or.inr ⟨by decide, by decide⟩
    · exact Or.inl ⟨rfl, fun _ => le_trans (by decide) (le_max_left (20 : Int) (a - 75))⟩
    · exact Or.inr ⟨by decide, by decide⟩
    · exact Or.inr ⟨by decide, by decide⟩
    · exact Or.inr ⟨by decide, by decide⟩
    · exact Or.inr ⟨by decide, by decide⟩
    · exact Or.inr ⟨by decide, by decide⟩

theorem safePlan_planColumns (a : Int) (ha : 28 ≤ a) : SafePlan (planColumns a) := by
  constructor
  · intro col h
    obtain ⟨hmem, htitle⟩ := findColumn_some _ _ _ h
    rcases mem_planColumns a col hmem with ⟨_, hw⟩ | ⟨hne, _⟩
    · exact hw ha
    · exact absurd htitle hne
  · intro title col hne h
    obtain ⟨hmem, htitle⟩ := findColumn_some _ _ _ h
    rcases mem_planColumns a col hmem with ⟨ht, _⟩ | ⟨_, hw⟩
    · exact absurd (htitle.symm.trans ht) hne
    · exact hw

theorem assigneeCell_isSome (cols : List Column) (issue : IssueWithRepo)
    (hsafe : SafePlan cols) : (assigneeCell cols issue).isSome = true := by
  unfold assigneeCell
  cases issue.Issue.Assignee with
  | none => rfl
  | some u =>
    rcases u with ⟨_ | login⟩
    · rfl
    · dsimp only
      cases hcol : findColumn cols "Assignee".toList with
      | none =>
        dsimp only
        split_ifs with h
        · rw [sliceTo_eq_some _ _ (by omega) (by omega)]; rfl
        · rfl
      | some col =>
        have hw := hsafe.2 _ col (by decide) hcol
        dsimp only
        split_ifs with h
        · rw [sliceTo_eq_some _ _ (by omega) (by omega)]; rfl
        · rfl

theorem labelsCell_isSome (col : Column) (issue : IssueWithRepo) (hw : 5 ≤ col.Width) :
    (labelsCell col issue).isSome = true := by
  unfold labelsCell
  dsimp only
  split_ifs with h1 h2
  · rw [sliceTo_eq_some _ _ (by omega) (by omega)]; rfl
  · rfl
  · rfl

theorem repoCell_isSome (col : Column) (issue : IssueWithRepo) (hw : 5 ≤ col.Width) :
    (repoCell col issue).isSome = true := by
  unfold repoCell
  dsimp only
  split_ifs with h
  · rw [sliceTo_eq_some _ _ (by omega) (by omega)]; rfl
  · rfl

theorem buildRow_isSome (cols : List Column) (w : Int) (issue : IssueWithRepo)
    (hsafe : SafePlan cols) (hw : 3 ≤ w) : (buildRow cols w issue).isSome = true := by
  unfold buildRow
  obtain ⟨title, ht⟩ := Option.isSome_iff_exists.1 (titleCell_isSome issue w hw)
  obtain ⟨assignee, ha⟩ := Option.isSome_iff_exists.1 (assigneeCell_isSome cols issue hsafe)
  rw [ht, ha]
  simp only [Option.bind]
  cases hl : findColumn cols "Labels".toList with
  | none =>
    cases hr : findColumn cols "Repo".toList with
    | none => rfl
    | some rc =>
      obtain ⟨r, hr2⟩ := Option.isSome_iff_exists.1
        (repoCell_isSome rc issue (hsafe.2 _ rc (by decide) hr))
      simp [hr2]
  | some lc =>
    obtain ⟨l, hl2⟩ := Option.isSome_iff_exists.1
      (labelsCell_isSome lc issue (hsafe.2 _ lc (by decide) hl))
    cases hr : findColumn cols "Repo".toList with
    | none => simp [hl2]
    | some rc =>
      obtain ⟨r, hr2⟩ := Option.isSome_iff_exists.1
        (repoCell_isSome rc issue (hsafe.2 _ rc (by decide) hr))
      simp [hl2, hr2]

theorem buildRows_isSome (cols : List Column) (w : Int) (hsafe : SafePlan cols) (hw : 3 ≤ w) :
    ∀ issues : List IssueWithRepo, (buildRows cols w issues).isSome = true := by
  intro issues
  induction issues with
  | nil => rfl
  | cons issue rest ih =>
    obtain ⟨row, hrow⟩ := Option.isSome_iff_exists.1 (buildRow_isSome cols w issue hsafe hw)
    obtain ⟨rows, hrows⟩ := Option.isSome_iff_exists.1 ih
    simp [buildRows, hrow, hrows]

theorem updateTableRows_done (m : GitHubIssuesModel) (hsafe : SafePlan m.currentColumns) :
    ∃ rows, updateTableRows m = Outcome.done { m with table := { m.table with rows := rows } } := by
  unfold updateTableRows
  split
  · exact ⟨[], rfl⟩
  · dsimp only
    have hw : 3 ≤ (match findColumn m.currentColumns "Title".toList with
        | some col => col.Width
        | none => 40) := by
      cases hcol : findColumn m.currentColumns "Title".toList with
      | none => decide
      | some col => exact hsafe.1 col hcol
    generalize (match findColumn m.currentColumns "Title".toList with
      | some col => col.Width
      | none => 40) = w at hw
    obtain ⟨rows, hrows⟩ := Option.isSome_iff_exists.1
      (buildRows_isSome m.currentColumns w hsafe hw m.filteredIssues)
    exact ⟨rows, by rw [hrows]⟩

/-- The fields the split-view condition of `renderTableView` reads. -/
def viewFields (m : GitHubIssuesModel) : Bool × Int × List IssueWithRepo :=
  (m.showPreview, m.width, m.filteredIssues)

theorem andThen_state_viewFields (o : Outcome) (f : GitHubIssuesModel → Outcome)
    (hf : ∀ m, viewFields (f m).state = viewFields m) :
    viewFields (o.andThen f).state = viewFields o.state := by
  cases o with
  | done m => exact hf m
  | panicked m => rfl

theorem updateTableRows_viewFields (m : GitHubIssuesModel) :
    viewFields (updateTableRows m).state = viewFields m := by
  obtain ⟨rows, h⟩ := updateTableRows_state m
  rw [h]
  rfl

theorem adjustTableColumns_viewFields (m : GitHubIssuesModel) (a : Int) :
    viewFields (adjustTableColumns m a).state = viewFields m := by
  obtain ⟨wd, rows, h⟩ := adjustTableColumns_state m a
  rw [h]
  rfl

theorem updateSizes_viewFields (m : GitHubIssuesModel) :
    viewFields (updateSizes m).state =
      (decide ((if m.width ≤ 0 then 150 else m.width) > 120), m.width, m.filteredIssues) := by
  unfold updateSizes
  dsimp only
  rw [andThen_state_viewFields]
  · by_cases hW : (if m.width ≤ 0 then 150 else m.width) > 120
    · rw [if_pos hW, andThen_state_viewFields, adjustTableColumns_viewFields]
      · simp [viewFields, hW]
      · intro _; rfl
    · rw [if_neg hW, adjustTableColumns_viewFields]
      simp [viewFields, hW]
  · intro _; rfl

theorem updateWindowSize_viewFields (m : GitHubIssuesModel) (w h : Int) :
    viewFields (updateWindowSize m w h).state =
      (decide ((if w ≤ 0 then 150 else w) > 120), w, m.filteredIssues) := by
  unfold updateWindowSize
  rw [andThen_state_viewFields _ _ updateTableRows_viewFields, updateSizes_viewFields]

/-- The width `titleColWidth` that `updateTableRows` reads from the column plan:
the width of its Title column, or 40 when it has none. -/
def titleColWidth (cols : List Column) : Int :=
  match findColumn cols "Title".toList with
  | some col => col.Width
  | none => 40

/-- The width `updateSizes` hands to `adjustTableColumns` for a terminal width:
60% of the available width when the view is split, else the available width. -/
def plannedWidth (w : Int) : Int :=
  let width := if w ≤ 0 then 150 else w
  let availableWidth := width - 4
  let availableWidth := if availableWidth < 20 then 80 else availableWidth
  if width > 120 then (availableWidth * 60).tdiv 100 else availableWidth

theorem adjustTableColumns_done (m : GitHubIssuesModel) (a : Int) (ha : 28 ≤ a)
    (hfit : rowsFit (planColumns a) m.table.rows = true) :
    ∃ m', adjustTableColumns m a = Outcome.done m' ∧ SafePlan m'.currentColumns := by
  unfold adjustTableColumns
  dsimp only
  rw [if_pos hfit]
  obtain ⟨rows, h⟩ := updateTableRows_done
    { m with
      currentColumns := planColumns a
      table := { m.table with cols := planColumns a, width := a } }
    (safePlan_planColumns a ha)
  exact ⟨_, h, safePlan_planColumns a ha⟩

theorem updateSizes_done (m : GitHubIssuesModel) (hw : m.width < 24 ∨ 31 < m.width)
    (hfit : rowsFit (planColumns (plannedWidth m.width)) m.table.rows = true) :
    ∃ m', updateSizes m = Outcome.done m' ∧ SafePlan m'.currentColumns := by
  have hW0 : (if m.width ≤ 0 then 150 else m.width) = 150 ∨
      (if m.width ≤ 0 then 150 else m.width) < 24 ∨
      31 < (if m.width ≤ 0 then 150 else m.width) := by
    split_ifs <;> omega
  have key : ∀ W : Int, (W = 150 ∨ W < 24 ∨ 31 < W) →
      28 ≤ (if W - 4 < 20 then 80 else W - 4) := by
    intro W h
    split_ifs <;> omega
  have key2 : ∀ W : Int, W > 120 →
      28 ≤ ((if W - 4 < 20 then 80 else W - 4) * 60).tdiv 100 := by
    intro W h
    rw [if_neg (by omega), Int.tdiv_eq_ediv (by omega) (by omega)]
    omega
  unfold plannedWidth at hfit
  dsimp only at hfit
  unfold updateSizes
  dsimp only
  by_cases hW : (if m.width ≤ 0 then 150 else m.width) > 120
  · rw [if_pos hW] at hfit
    rw [if_pos hW]
    obtain ⟨m', h, hs⟩ := adjustTableColumns_done { m with showPreview := true } _
      (key2 _ hW) hfit
    rw [h]
    exact ⟨_, rfl, hs⟩
  · rw [if_neg hW] at hfit
    rw [if_neg hW]
    obtain ⟨m', h, hs⟩ := adjustTableColumns_done { m with showPreview := false } _
      (key _ hW0) hfit
    rw [h]
    exact ⟨_, rfl, hs⟩

theorem updateWindowSize_done (m : GitHubIssuesModel) (w h : Int) (hw : w < 24 ∨ 31 < w)
    (hfit : rowsFit (planColumns (plannedWidth w)) m.table.rows = true) :
    (updateWindowSize m w h).completed = true := by
  unfold updateWindowSize
  obtain ⟨m', h1, hs⟩ := updateSizes_done { m with width := w, height := h } hw hfit
  rw [h1]
  obtain ⟨rows, h2⟩ := updateTableRows_done m' hs
  simp [Outcome.andThen, h2, Outcome.completed]

/-! ## Theorems on the filter language -/

/-- C1: `applyFilters` leaves in `filteredIssues` exactly the issues of the list that
match both the search query and the filter query, in the order of the list: it is
the list filtered by the conjunction, hence a sub-sequence of it.  The equality
holds for the model as `applyFilters` leaves it: `filteredIssues` is assigned
before the rows and the preview are rebuilt. -/
theorem applyFilters_displays_matches_of_both_queries (m : GitHubIssuesModel) :
    (applyFilters m).state.filteredIssues =
        m.issues.filter (fun issue =>
          searchQueryMatches issue m.searchInput.value &&
            filterQueryMatches issue m.filterInput.value) ∧
      List.Sublist (applyFilters m).state.filteredIssues m.issues ∧
      ∀ issue, issue ∈ (applyFilters m).state.filteredIssues ↔
        issue ∈ m.issues ∧ searchQueryMatches issue m.searchInput.value = true ∧
          filterQueryMatches issue m.filterInput.value = true := by
  have h := applyFilters_filteredIssues_eq m
  refine ⟨h, ?_, ?_⟩
  · rw [h]; exact List.filter_sublist _
  · intro issue
    rw [h]
    simp [List.mem_filter]

/-- An open issue whose title contains the word "bug". -/
def loginBug : IssueWithRepo :=
  { Issue := { Number := some 7, Title := some "Bug in login".toList,
               State := some "open".toList },
    Repo := "azure/aks".toList }

/-- C2: at the filter text `bug state:closed` and an open issue titled "Bug in login",
the bare term `bug` matches, the clause `state:closed` does not, and `matchesFilter`
answers true: the bare term returns the result of the search at once and the
clauses after it are never evaluated. -/
theorem matchesFilter_bare_term_skips_later_clauses :
    matchesSearch loginBug "bug".toList = true ∧
      matchesFilter loginBug "state:closed".toList = false ∧
      matchesFilter loginBug "bug state:closed".toList = true ∧
      displayed [loginBug] [] "bug state:closed".toList = [loginBug] := by
  decide

/-- C3: for a non-blank search text `s` and a blank filter text, with `t` the
trimmed lower-cased `s`, an issue of the list is displayed iff `t` is a substring of
the lower-cased title, body, assignee login, some label name or the repository;
absent fields contribute nothing.  The result depends on `s` only through its
lower-cased form. -/
theorem search_stage_iff_substring_of_a_field (issues : List IssueWithRepo) (s : GoString)
    (hs : trimSpace s ≠ []) :
    (∀ issue, issue ∈ displayed issues s [] ↔
      issue ∈ issues ∧
        ((∃ title, issue.Issue.Title = some title ∧
            toLower (trimSpace s) <:+: toLower title) ∨
          (∃ body, issue.Issue.Body = some body ∧
            toLower (trimSpace s) <:+: toLower body) ∨
          (∃ u login, issue.Issue.Assignee = some u ∧ u.Login = some login ∧
            toLower (trimSpace s) <:+: toLower login) ∨
          (∃ label ∈ issue.Issue.Labels, ∃ name, label.Name = some name ∧
            toLower (trimSpace s) <:+: toLower name) ∨
          toLower (trimSpace s) <:+: toLower issue.Repo)) ∧
      ∀ s', toLower s' = toLower s → displayed issues s' [] = displayed issues s [] := by
  have hs2 : toLower (trimSpace s) ≠ [] := by simpa [toLower] using hs
  constructor
  · intro issue
    rw [displayed_eq, List.mem_filter, ← matchesSearch_iff]
    have hf : filterQueryMatches issue [] = true := by
      simp [filterQueryMatches, trimSpace, toLower]
    simp [searchQueryMatches, hs2, hf]
  · intro s' h
    rw [displayed_eq, displayed_eq]
    simp only [searchQueryMatches, toLower_trimSpace, h]

/-- An issue assigned to `Alice`, labelled `Bug`, from `Azure/AKS`. -/
def aliceIssue : IssueWithRepo :=
  { Issue := { Number := some 3, Title := some "Crash on Start".toList,
               Assignee := some ⟨some "Alice".toList⟩,
               Labels := [⟨some "Bug".toList⟩, ⟨none⟩] },
    Repo := "Azure/AKS".toList }

/-- An issue titled `ÉCOLE Σ`, with letters outside ASCII. -/
def ecoleIssue : IssueWithRepo :=
  { Issue := { Number := some 4, Title := some "ÉCOLE Σ".toList },
    Repo := "Azure/AKS".toList }

/-- C3 at the search text ` ALI ` over an issue assigned to `Alice` and an issue
without assignee, and at the search texts `école` and `σ` over an issue titled
`ÉCOLE Σ`. -/
theorem search_stage_iff_substring_of_a_field_witness :
    trimSpace " ALI ".toList ≠ [] ∧
      aliceIssue ∈ displayed [loginBug, aliceIssue] " ALI ".toList [] ∧
      loginBug ∉ displayed [loginBug, aliceIssue] " ALI ".toList [] ∧
      displayed [loginBug, aliceIssue] " ali ".toList [] =
        displayed [loginBug, aliceIssue] " ALI ".toList [] ∧
      toLower "ÉCOLE Σ".toList = "école σ".toList ∧
      ecoleIssue ∈ displayed [loginBug, ecoleIssue] "école".toList [] ∧
      displayed [loginBug, ecoleIssue] "σ".toList [] = [ecoleIssue] ∧
      displayed [loginBug, ecoleIssue] "École".toList [] =
        displayed [loginBug, ecoleIssue] "éCOLE".toList [] :=
  ⟨by decide,
   by decide,
   by decide,
   (search_stage_iff_substring_of_a_field [loginBug, aliceIssue] " ALI ".toList
      (by decide)).2 " ali ".toList (by decide),
   by decide,
   ((search_stage_iff_substring_of_a_field [loginBug, ecoleIssue] "école".toList
      (by decide)).1 ecoleIssue).2
     ⟨by decide, Or.inl ⟨"ÉCOLE Σ".toList, rfl, by decide⟩⟩,
   by decide,
   (search_stage_iff_substring_of_a_field [loginBug, ecoleIssue] "éCOLE".toList
      (by decide)).2 "École".toList (by decide)⟩


/-- Issue #1 of the end-to-end scenario: title `A`, state open, label `bug`. -/
def issueOne : IssueWithRepo :=
  { Issue := { Number := some 1, Title := some "A".toList, State := some "open".toList,
               Labels := [⟨some "bug".toList⟩] },
    Repo := "azure/aks".toList }

/-- Issue #2 of the end-to-end scenario: title `B`, state closed, no label. -/
def issueTwo : IssueWithRepo :=
  { Issue := { Number := some 2, Title := some "B".toList, State := some "closed".toList },
    Repo := "azure/aks".toList }

theorem matchesFilter_clause (issue : IssueWithRepo) (k v : GoString)
    (hk : ∀ c ∈ k, isSpace c = false) (hv : ∀ c ∈ v, isSpace c = false) :
    matchesFilter issue (k ++ ':' :: v) = matchesFilterLoop issue [k ++ ':' :: v] := by
  rw [matchesFilter, fields_clause k v hk hv]

/-- C4: a filter text made of one clause `key:value` matches iff the field of the
key is present and its lower-cased text contains the value: `state` reads the
state string, `label` some label name, `author` and `assignee` the assignee login,
`repo` the repository.  An absent field makes the clause fail; the answer is a
plain boolean.  Over the list [#1 open, #2 closed] the text `state:open` displays
exactly [#1]. -/
theorem matchesFilter_single_clause_iff (issue : IssueWithRepo) (v : GoString)
    (hv : ∀ c ∈ v, isSpace c = false) :
    (matchesFilter issue ("state".toList ++ ':' :: v) = true ↔
        ∃ st, issue.Issue.State = some st ∧ v <:+: toLower st) ∧
      (matchesFilter issue ("label".toList ++ ':' :: v) = true ↔
        ∃ label ∈ issue.Issue.Labels, ∃ name, label.Name = some name ∧ v <:+: toLower name) ∧
      (matchesFilter issue ("author".toList ++ ':' :: v) = true ↔
        ∃ u login, issue.Issue.Assignee = some u ∧ u.Login = some login ∧
          v <:+: toLower login) ∧
      (matchesFilter issue ("assignee".toList ++ ':' :: v) = true ↔
        ∃ u login, issue.Issue.Assignee = some u ∧ u.Login = some login ∧
          v <:+: toLower login) ∧
      (matchesFilter issue ("repo".toList ++ ':' :: v) = true ↔ v <:+: toLower issue.Repo) ∧
      displayed [issueOne, issueTwo] [] "state:open".toList = [issueOne] := by
  have hlogin : ∀ k : GoString, k = "author".toList ∨ k = "assignee".toList →
      (matchesFilterLoop issue [k ++ ':' :: v] = true ↔
        ∃ u login, issue.Issue.Assignee = some u ∧ u.Login = some login ∧
          v <:+: toLower login) := by
    intro k hk
    rw [matchesFilterLoop_login issue k v [] hk]
    cases issue.Issue.Assignee with
    | none => simp
    | some u => cases hl : u.Login <;> simp [matchesFilterLoop, contains_iff_isInfix, hl]
  refine ⟨?_, ?_, ?_, ?_, ?_, by decide⟩
  · rw [matchesFilter_clause issue _ v (by decide) hv, matchesFilterLoop_state]
    cases issue.Issue.State <;> simp [matchesFilterLoop, contains_iff_isInfix]
  · rw [matchesFilter_clause issue _ v (by decide) hv, matchesFilterLoop_label]
    simp only [matchesFilterLoop, Bool.and_true, List.any_eq_true]
    constructor
    · rintro ⟨label, hmem, h⟩
      refine ⟨label, hmem, ?_⟩
      cases hn : label.Name with
      | none => simp [hn] at h
      | some n => exact ⟨n, rfl, (contains_iff_isInfix _ _).1 (by simpa [hn] using h)⟩
    · rintro ⟨label, hmem, n, hn, h⟩
      exact ⟨label, hmem, by simpa [hn] using (contains_iff_isInfix _ _).2 h⟩
  · rw [matchesFilter_clause issue _ v (by decide) hv]
    exact hlogin _ (Or.inl rfl)
  · rw [matchesFilter_clause issue _ v (by decide) hv]
    exact hlogin _ (Or.inr rfl)
  · rw [matchesFilter_clause issue _ v (by decide) hv, matchesFilterLoop_repo]
    simp [matchesFilterLoop, contains_iff_isInfix]

/-- C4 at the value `ope` and the open, unassigned issue #1. -/
theorem matchesFilter_single_clause_iff_witness :
    (∀ c ∈ "ope".toList, isSpace c = false) ∧
      (matchesFilter issueOne ("state".toList ++ ':' :: "ope".toList) = true ↔
        ∃ st, issueOne.Issue.State = some st ∧ "ope".toList <:+: toLower st) ∧
      matchesFilter issueOne "state:ope".toList = true ∧
      matchesFilter issueOne "assignee:ope".toList = false :=
  ⟨by decide, (matchesFilter_single_clause_iff issueOne "ope".toList (by decide)).1,
   by decide, by decide⟩

/-- A token `key:value` whose key is none of `state`, `label`, `author`, `assignee`,
`repo`. -/
def UnknownKeyClause (tok : GoString) : Prop :=
  ∃ k v, tok = k ++ ':' :: v ∧ ':' ∉ k ∧ k ∉ knownKeys

/-- C5: `matchesFilter` is a total boolean function, and a clause with an unknown key
always matches: a filter text all of whose tokens are such clauses matches every
issue (so does `updated:>7days`, the query of the preset `Recent`), and inserting such a clause into a
filter text, at any place between its tokens, does not change the answer. -/
theorem unknown_key_clause_always_matches (issue : IssueWithRepo) :
    (∀ text, (∀ tok ∈ fields text, UnknownKeyClause tok) → matchesFilter issue text = true) ∧
      (∀ a b tok, UnknownKeyClause tok → (∀ c ∈ tok, isSpace c = false) →
        matchesFilter issue (a ++ ' ' :: (tok ++ ' ' :: b)) =
          matchesFilter issue (a ++ ' ' :: b)) ∧
      matchesFilter issue "updated:>7days".toList = true ∧
      (quickFilters.get? 2).map (fun q => q.query) = some "updated:>7days".toList := by
  refine ⟨?_, ?_, ?_, rfl⟩
  · intro text
    unfold matchesFilter
    generalize fields text = toks
    intro h
    induction toks with
    | nil => rfl
    | cons tok rest ih =>
      obtain ⟨k, v, rfl, hk, hunk⟩ := h tok (List.mem_cons_self _ _)
      rw [matchesFilterLoop_unknown issue k v rest hk hunk]
      exact ih (fun t ht => h t (List.mem_cons_of_mem _ ht))
  · rintro a b tok ⟨k, v, rfl, hk, hunk⟩ hsp
    unfold matchesFilter
    rw [fields_append_space a _ ' ' (by decide), fields_append_space _ b ' ' (by decide),
      fields_of_no_space _ hsp (by simp), fields_append_space a b ' ' (by decide)]
    exact matchesFilterLoop_insert_unknown issue k v hk hunk (fields b) (fields a)
  · have h : matchesFilter issue ("updated".toList ++ ':' :: ">7days".toList) =
        matchesFilterLoop issue ["updated".toList ++ ':' :: ">7days".toList] :=
      matchesFilter_clause issue _ _ (by decide) (by decide)
    have h2 := matchesFilterLoop_unknown issue "updated".toList ">7days".toList []
      (by decide) (by decide)
    rw [h2] at h
    exact h

/-- C5 at the clause `updated:>7days` inserted between `state:closed` and
`label:bug`, over an open issue. -/
theorem unknown_key_clause_always_matches_witness :
    UnknownKeyClause "updated:>7days".toList ∧
      (∀ c ∈ "updated:>7days".toList, isSpace c = false) ∧
      matchesFilter issueOne
          ("state:closed".toList ++ ' ' :: ("updated:>7days".toList ++ ' ' :: "label:bug".toList)) =
        matchesFilter issueOne ("state:closed".toList ++ ' ' :: "label:bug".toList) ∧
      matchesFilter issueOne ("state:closed".toList ++ ' ' :: "label:bug".toList) = false :=
  ⟨⟨"updated".toList, ">7days".toList, by decide, by decide, by decide⟩,
   by decide,
   (unknown_key_clause_always_matches issueOne).2.1 "state:closed".toList "label:bug".toList
     "updated:>7days".toList
     ⟨"updated".toList, ">7days".toList, by decide, by decide, by decide⟩ (by decide),
   by decide⟩

/-- C6: a token is cut at its first colon only: `k:v` with no colon in `k` has key
`k` and value `v`, whatever further colons `v` holds (`repo:a:b` is the key `repo`
with value `a:b`, matched against the repository); a token without colon is
a bare term, answered by `matchesSearch`. -/
theorem clause_splits_at_first_colon (k v : GoString) (hk : ':' ∉ k) :
    splitN2 (k ++ ':' :: v) ':' = [k, v] ∧
      (∀ t : GoString, ':' ∉ t → splitN2 t ':' = [t]) ∧
      (∀ (issue : IssueWithRepo) (t : GoString) (rest : List GoString), ':' ∉ t →
        matchesFilterLoop issue (t :: rest) = matchesSearch issue t) ∧
      splitN2 "repo:a:b".toList ':' = ["repo".toList, "a:b".toList] ∧
      ∀ issue : IssueWithRepo,
        matchesFilter issue "repo:a:b".toList = contains (toLower issue.Repo) "a:b".toList := by
  refine ⟨splitN2_key_value k v hk, splitN2_bare, ?_, by decide, ?_⟩
  · intro issue t rest ht
    exact matchesFilterLoop_bare issue t rest ht
  · intro issue
    have h : matchesFilter issue ("repo".toList ++ ':' :: "a:b".toList) =
        matchesFilterLoop issue ["repo".toList ++ ':' :: "a:b".toList] :=
      matchesFilter_clause issue _ _ (by decide) (by decide)
    rw [matchesFilterLoop_repo] at h
    simpa [matchesFilterLoop] using h

/-- C6 at the token `label:a:b:c`. -/
theorem clause_splits_at_first_colon_witness :
    ':' ∉ "label".toList ∧
      splitN2 ("label".toList ++ ':' :: "a:b:c".toList) ':' = ["label".toList, "a:b:c".toList] :=
  ⟨by decide, (clause_splits_at_first_colon "label".toList "a:b:c".toList (by decide)).1⟩


/-- The filter text `state:<a> label:<b>`. -/
def stateLabelText (a b : GoString) : GoString :=
  ("state".toList ++ ':' :: a) ++ ' ' :: ("label".toList ++ ':' :: b)

theorem filterQueryMatches_stateLabelText (issue : IssueWithRepo) (a b : GoString)
    (ha : ∀ c ∈ a, isSpace c = false) (hb : ∀ c ∈ b, isSpace c = false) :
    filterQueryMatches issue (stateLabelText a b) =
      ((match issue.Issue.State with
        | some st => contains (toLower st) (toLower a)
        | none => false) &&
       issue.Issue.Labels.any (fun label =>
          match label.Name with
          | some n => contains (toLower n) (toLower b)
          | none => false)) := by
  have htrim : trimSpace (stateLabelText a b) = stateLabelText a b := by
    have hshape : stateLabelText a b =
        's' :: ("tate:".toList ++ a ++ " label".toList ++ ':' :: b) := by
      simp [stateLabelText]
    rw [hshape]
    exact trimSpace_eq_self 's' ':' _ b (by decide) (by decide) hb
  have hlow : toLower (stateLabelText a b) = stateLabelText (toLower a) (toLower b) := by
    simp [stateLabelText, toLower]
    decide
  have hne : stateLabelText (toLower a) (toLower b) ≠ [] := by simp [stateLabelText]
  have hfields : fields (stateLabelText (toLower a) (toLower b)) =
      ["state".toList ++ ':' :: toLower a, "label".toList ++ ':' :: toLower b] := by
    unfold stateLabelText
    rw [fields_append_space _ _ ' ' (by decide),
      fields_clause _ _ (by decide) (no_space_toLower a ha),
      fields_clause _ _ (by decide) (no_space_toLower b hb)]
    rfl
  unfold filterQueryMatches
  rw [htrim, hlow, decide_eq_false hne, Bool.false_or, matchesFilter, hfields,
    matchesFilterLoop_state, matchesFilterLoop_label]
  simp [matchesFilterLoop]

theorem displayed_single (issue : IssueWithRepo) (f : GoString) :
    displayed [issue] [] f = if filterQueryMatches issue f then [issue] else [] := by
  have hs : searchQueryMatches issue [] = true := by
    simp [searchQueryMatches, trimSpace, toLower]
  rw [displayed_eq]
  cases hf : filterQueryMatches issue f <;> simp [List.filter, hs, hf]

/-- C7, as stated, fails: for the open issue #1 labelled `bug`, the value `OPEN` is
non-empty and is not a substring of the lower-cased state `open`, yet the filter text
`state:OPEN label:bug` still displays the issue, because the filter text is
lower-cased before it is matched. -/
theorem round_trip_rejection_fails_on_case :
    "OPEN".toList ≠ [] ∧
      ¬ ("OPEN".toList <:+: toLower "open".toList) ∧
      issueOne.Issue.State = some "open".toList ∧
      displayed [issueOne] [] (stateLabelText "OPEN".toList "bug".toList) = [issueOne] := by
  refine ⟨by decide, ?_, rfl, by decide⟩
  rw [← contains_iff_isInfix]
  decide

/-- C7 (amended): for an issue with state `s` and a label `l`, both free of white
space, the filter text `state:<s> label:<l>` displays the issue; it is rejected when
the state value is replaced by a white-space-free `v` whose lower-cased form is not a
substring of the lower-cased state, and when the label value is replaced by a
white-space-free `v` whose lower-cased form is a substring of no lower-cased label
name. -/
theorem round_trip_of_own_field_values (issue : IssueWithRepo) (s l : GoString)
    (hstate : issue.Issue.State = some s) (hlabel : (⟨some l⟩ : Label) ∈ issue.Issue.Labels)
    (hs : ∀ c ∈ s, isSpace c = false) (hl : ∀ c ∈ l, isSpace c = false) :
    displayed [issue] [] (stateLabelText s l) = [issue] ∧
      (∀ v : GoString, (∀ c ∈ v, isSpace c = false) → ¬ (toLower v <:+: toLower s) →
        displayed [issue] [] (stateLabelText v l) = []) ∧
      (∀ v : GoString, (∀ c ∈ v, isSpace c = false) →
        (∀ label ∈ issue.Issue.Labels, ∀ name, label.Name = some name →
          ¬ (toLower v <:+: toLower name)) →
        displayed [issue] [] (stateLabelText s v) = []) := by
  have hown : issue.Issue.Labels.any (fun label =>
      match label.Name with
      | some n => contains (toLower n) (toLower l)
      | none => false) = true :=
    List.any_eq_true.2 ⟨⟨some l⟩, hlabel, contains_self _⟩
  refine ⟨?_, ?_, ?_⟩
  · rw [displayed_single, filterQueryMatches_stateLabelText issue s l hs hl, hstate, hown]
    simp [contains_self]
  · intro v hv hnot
    have hc : contains (toLower s) (toLower v) = false := by
      rw [← Bool.not_eq_true, contains_iff_isInfix]
      exact hnot
    rw [displayed_single, filterQueryMatches_stateLabelText issue v l hv hl, hstate]
    simp [hc]
  · intro v hv hnot
    have hnone : issue.Issue.Labels.any (fun label =>
        match label.Name with
        | some n => contains (toLower n) (toLower v)
        | none => false) = false := by
      rw [← Bool.not_eq_true, List.any_eq_true]
      rintro ⟨label, hmem, h⟩
      cases hn : label.Name with
      | none => simp [hn] at h
      | some n =>
        exact hnot label hmem n hn ((contains_iff_isInfix _ _).1 (by simpa [hn] using h))
    rw [displayed_single, filterQueryMatches_stateLabelText issue s v hs hv, hnone]
    simp

/-- C7 (amended) at issue #1 (state `open`, label `bug`): its own values are
accepted, the state value `closed` and the label value `feature` are rejected. -/
theorem round_trip_of_own_field_values_witness :
    issueOne.Issue.State = some "open".toList ∧
      (⟨some "bug".toList⟩ : Label) ∈ issueOne.Issue.Labels ∧
      displayed [issueOne] [] (stateLabelText "open".toList "bug".toList) = [issueOne] ∧
      displayed [issueOne] [] (stateLabelText "closed".toList "bug".toList) = [] ∧
      displayed [issueOne] [] (stateLabelText "open".toList "feature".toList) = [] :=
  have h := round_trip_of_own_field_values issueOne "open".toList "bug".toList rfl
    (by decide) (by decide) (by decide)
  ⟨rfl, by decide, h.1,
   h.2.1 "closed".toList (by decide) (by rw [← contains_iff_isInfix]; decide),
   h.2.2 "feature".toList (by decide) (by
     intro label hmem name hname
     rw [← contains_iff_isInfix]
     have hlab : label = ⟨some "bug".toList⟩ := by simpa [issueOne] using hmem
     subst hlab
     have hnm : name = "bug".toList := by simpa using hname.symm
     subst hnm
     decide)⟩


/-! ## Theorems on the layout -/

/-- The model after start-up (`Init`: 150 columns by 40 rows, preview on) and the
arrival of the issue list [#1] (`issuesLoadedMsg`). -/
def loadedModel : Outcome :=
  (updateSizes
    { NewGitHubIssuesModel with width := 150, height := 40, showPreview := true }).andThen
    fun m => applyFilters { m with loading := false, error := [], issues := [issueOne] }

/-- The model after start-up and a resize to 24 columns by 40 rows while the table
is still empty. -/
def emptyAt24 : Outcome :=
  (Init NewGitHubIssuesModel).andThen fun m =>
    runUpdates keyboardWidgets m [Msg.WindowSizeMsg 24 40]

/-- C8: a terminal 24 columns wide crashes the table.  `WindowSizeMsg{24, 40}` plans
the Title column with width -5, and `updateTableRows` evaluates
`title[:titleColWidth-3]`, that is `"A"[:-8]` for issue #1 (title `A`).  Resized
after the arrival of issue #1, the handler ends in a run-time panic; resized while
the table is empty the handler returns, and the arrival of issue #1 then ends in
the run-time panic of that slice. -/
theorem resize_to_24_columns_panics :
    loadedModel.completed = true ∧
      loadedModel.state.filteredIssues = [issueOne] ∧
      (updateWindowSize loadedModel.state 24 40).completed = false ∧
      titleCell issueOne (-5) = none ∧
      sliceTo "A".toList (-5 - 3) = none ∧
      emptyAt24.completed = true ∧
      titleColWidth emptyAt24.state.currentColumns = -5 ∧
      (Update keyboardWidgets emptyAt24.state (Msg.issuesLoadedMsg [issueOne])).completed
        = false := by
  decide

/-- The model after start-up, a resize to 48 columns by 40 rows while the table is
still empty, and the arrival of the issue list [#1]. -/
def loadedAt48 : Outcome :=
  (Init NewGitHubIssuesModel).andThen fun m =>
    runUpdates keyboardWidgets m [Msg.WindowSizeMsg 48 40, Msg.issuesLoadedMsg [issueOne]]

/-- C9: the Title column is not floored at 20 in the minimal tier.  For an available
width of 20 the plan gives the Title column the width -5 and for 44 the width 19;
a terminal 48 columns wide (available width 44), resized before the issues arrive,
ends with the issue list drawn and a Title column of width 19 in the plan and in
the table. -/
theorem title_column_below_20_in_minimal_tier :
    findColumn (planColumns 20) "Title".toList = some ⟨"Title".toList, -5⟩ ∧
      findColumn (planColumns 44) "Title".toList = some ⟨"Title".toList, 19⟩ ∧
      plannedWidth 48 = 44 ∧
      loadedAt48.completed = true ∧
      loadedAt48.state.filteredIssues = [issueOne] ∧
      findColumn loadedAt48.state.currentColumns "Title".toList
        = some ⟨"Title".toList, 19⟩ ∧
      findColumn loadedAt48.state.table.cols "Title".toList
        = some ⟨"Title".toList, 19⟩ := by
  decide

/-- The loaded model after the user switched the preview off with `p`. -/
def previewOff : GitHubIssuesModel := { loadedModel.state with showPreview := false }

/-- C10, as stated, fails: with the preview switched off (`r = false`) and a
non-empty filtered list, a resize to 140 columns completes and the table view
renders the split layout, although `r ∧ w > 120` is false. -/
theorem resize_shows_preview_though_not_requested :
    Update keyboardWidgets loadedModel.state (Msg.KeyMsg "p".toList)
        = Outcome.done previewOff ∧
      previewOff.showPreview = false ∧
      previewOff.filteredIssues ≠ [] ∧
      (updateWindowSize previewOff 140 40).completed = true ∧
      showSplitView (updateWindowSize previewOff 140 40).state = true := by
  decide

/-- C10 (amended): after a resize to width `w`, with a non-empty filtered list, the
table view renders the split table+preview layout iff `w > 120`, whatever the
preview flag was before: `updateSizes` overwrites the flag (true for `w > 120` and
for the fallback `w ≤ 0`, false otherwise).  The resize handler completes for every
width outside 24..31 when the rows the table holds fit the column plan of the new
width. -/
theorem resize_split_view_iff_wider_than_120 (m : GitHubIssuesModel) (w h : Int)
    (hne : m.filteredIssues ≠ []) :
    (showSplitView (updateWindowSize m w h).state = true ↔ 120 < w) ∧
      (updateWindowSize m w h).state.showPreview = decide (120 < w ∨ w ≤ 0) ∧
      (w < 24 ∨ 31 < w → rowsFit (planColumns (plannedWidth w)) m.table.rows = true →
        (updateWindowSize m w h).completed = true) := by
  have hv := updateWindowSize_viewFields m w h
  simp only [viewFields, Prod.mk.injEq] at hv
  obtain ⟨hp, hwd, hf⟩ := hv
  have hlen : 0 < m.filteredIssues.length := List.length_pos.2 hne
  refine ⟨?_, ?_, updateWindowSize_done m w h⟩
  · unfold showSplitView
    rw [hp, hwd, hf]
    by_cases h1 : w ≤ 0
    · simp [h1, hlen]
    · simp [h1, hlen]
  · rw [hp]
    by_cases h1 : w ≤ 0
    · simp [h1]
    · simp [h1]

/-- The model after start-up, a resize to 79 columns by 40 rows while the table is
still empty, and the arrival of the issue list [#1]: the rows have the four cells
of the minimal plan and the preview flag is off. -/
def loadedAt79 : Outcome :=
  (Init NewGitHubIssuesModel).andThen fun m =>
    runUpdates keyboardWidgets m [Msg.WindowSizeMsg 79 40, Msg.issuesLoadedMsg [issueOne]]

/-- C10 (amended) at the boundary sizes 79x40 and 121x40, from a model whose
preview flag is off, and at 140x40 from the loaded model with the preview
requested and switched off: every resize completes. -/
theorem resize_split_view_iff_wider_than_120_witness :
    loadedAt79.completed = true ∧
      loadedAt79.state.showPreview = false ∧
      loadedAt79.state.filteredIssues ≠ [] ∧
      (updateWindowSize loadedAt79.state 79 40).completed = true ∧
      showSplitView (updateWindowSize loadedAt79.state 79 40).state = false ∧
      (updateWindowSize loadedAt79.state 121 40).completed = true ∧
      showSplitView (updateWindowSize loadedAt79.state 121 40).state = true ∧
      (updateWindowSize loadedModel.state 140 40).completed = true ∧
      showSplitView (updateWindowSize loadedModel.state 140 40).state = true ∧
      showSplitView (updateWindowSize previewOff 140 40).state = true :=
  ⟨by decide, by decide, by decide,
   (resize_split_view_iff_wider_than_120 loadedAt79.state 79 40 (by decide)).2.2
     (by decide) (by decide),
   by
     have h := (resize_split_view_iff_wider_than_120 loadedAt79.state 79 40 (by decide)).1
     rw [← Bool.not_eq_true, h]
     decide,
   (resize_split_view_iff_wider_than_120 loadedAt79.state 121 40 (by decide)).2.2
     (by decide) (by decide),
   (resize_split_view_iff_wider_than_120 loadedAt79.state 121 40 (by decide)).1.2
     (by decide),
   (resize_split_view_iff_wider_than_120 loadedModel.state 140 40 (by decide)).2.2
     (by decide) (by decide),
   (resize_split_view_iff_wider_than_120 loadedModel.state 140 40 (by decide)).1.2
     (by decide),
   (resize_split_view_iff_wider_than_120 previewOff 140 40 (by decide)).1.2 (by decide)⟩

/-- The titles of a column plan, in order. -/
def columnTitles (cols : List Column) : List GoString := cols.map fun col => col.Title

theorem andThen_state_proj {α : Type} (π : GitHubIssuesModel → α) (o : Outcome)
    (f : GitHubIssuesModel → Outcome) (hf : ∀ m, π (f m).state = π m) :
    π (o.andThen f).state = π o.state := by
  cases o with
  | done m => exact hf m
  | panicked m => rfl

theorem updateTableRows_proj {α : Type} (π : GitHubIssuesModel → α)
    (hπ : ∀ (m : GitHubIssuesModel) (rows : List Row),
      π { m with table := { m.table with rows := rows } } = π m)
    (m : GitHubIssuesModel) : π (updateTableRows m).state = π m := by
  obtain ⟨rows, h⟩ := updateTableRows_state m
  rw [h]
  exact hπ m rows

theorem adjustTableColumns_currentColumns (m : GitHubIssuesModel) (a : Int) :
    (adjustTableColumns m a).state.currentColumns = planColumns a ∧
      (adjustTableColumns m a).state.table.cols = planColumns a := by
  obtain ⟨wd, rows, h⟩ := adjustTableColumns_state m a
  rw [h]
  exact ⟨rfl, rfl⟩

theorem updateSizes_narrow_currentColumns (m : GitHubIssuesModel)
    (hw : ¬ (if m.width ≤ 0 then 150 else m.width) > 120) :
    (updateSizes m).state.currentColumns =
      planColumns (if (if m.width ≤ 0 then 150 else m.width) - 4 < 20 then 80
        else (if m.width ≤ 0 then 150 else m.width) - 4) := by
  unfold updateSizes
  dsimp only
  rw [andThen_state_proj (fun m => m.currentColumns)]
  · rw [if_neg hw]
    exact (adjustTableColumns_currentColumns _ _).1
  · intro _; rfl

theorem columnTitles_planColumns (a : Int) :
    columnTitles (planColumns a) =
      if a < 80 then ["#".toList, "Title".toList, "State".toList, "Assignee".toList]
      else if a < 120 then
        ["#".toList, "Title".toList, "State".toList, "Assignee".toList, "Labels".toList,
         "Updated".toList]
      else
        ["#".toList, "Title".toList, "State".toList, "Assignee".toList, "Labels".toList,
         "Updated".toList, "Repo".toList] := by
  unfold planColumns columnTitles
  split_ifs <;> rfl

/-- C11: the column plan `adjustTableColumns` stores for an available width `a` is
[#, Title, State, Assignee] for `a < 80`, these plus Labels and Updated for
`80 ≤ a ≤ 119`, and these plus Repo for `a ≥ 120`, in that order; the table widget
receives the same plan.  A resize to terminal width 79 stores the 4-column plan. -/
theorem column_plan_is_tiered_by_available_width (m : GitHubIssuesModel) (a h : Int) :
    columnTitles (adjustTableColumns m a).state.currentColumns =
        (if a < 80 then ["#".toList, "Title".toList, "State".toList, "Assignee".toList]
        else if a < 120 then
          ["#".toList, "Title".toList, "State".toList, "Assignee".toList, "Labels".toList,
           "Updated".toList]
        else
          ["#".toList, "Title".toList, "State".toList, "Assignee".toList, "Labels".toList,
           "Updated".toList, "Repo".toList]) ∧
      (adjustTableColumns m a).state.table.cols =
        (adjustTableColumns m a).state.currentColumns ∧
      columnTitles (updateWindowSize m 79 h).state.currentColumns =
        ["#".toList, "Title".toList, "State".toList, "Assignee".toList] := by
  obtain ⟨h1, h2⟩ := adjustTableColumns_currentColumns m a
  refine ⟨?_, ?_, ?_⟩
  · rw [h1, columnTitles_planColumns]
  · rw [h1, h2]
  · unfold updateWindowSize
    rw [andThen_state_proj (fun m => columnTitles m.currentColumns) _ _
      (fun m => updateTableRows_proj (fun m => columnTitles m.currentColumns)
        (fun _ _ => rfl) m)]
    have h79 : ¬ (if (79 : Int) ≤ 0 then (150 : Int) else 79) > 120 := by decide
    rw [updateSizes_narrow_currentColumns _ h79]
    show columnTitles (planColumns (if (if (79 : Int) ≤ 0 then (150 : Int) else 79) - 4 < 20
      then 80 else (if (79 : Int) ≤ 0 then (150 : Int) else 79) - 4)) = _
    decide

theorem andThen_eq_done (o : Outcome) (f : GitHubIssuesModel → Outcome)
    (m' : GitHubIssuesModel) (h : o.andThen f = Outcome.done m') :
    ∃ m0, o = Outcome.done m0 ∧ f m0 = Outcome.done m' := by
  cases o with
  | done m0 => exact ⟨m0, rfl, h⟩
  | panicked m0 => simp [Outcome.andThen] at h

/-- The usable height `availableHeight` of `updateSizes`: the height less 15 rows,
or 20 when that is below 5, less 4 more rows when the filter overlay is visible. -/
def availableHeight (height : Int) (showFilters : Bool) : Int :=
  let height := if height ≤ 0 then 40 else height
  let availableHeight := height - 15
  let availableHeight := if availableHeight < 5 then 20 else availableHeight
  if showFilters then availableHeight - 4 else availableHeight

theorem updateSizes_heights (m m' : GitHubIssuesModel) (h : updateSizes m = Outcome.done m') :
    m'.viewport.Height = availableHeight m.height m.showFilters ∧
      m'.table.height = max 10 (availableHeight m.height m.showFilters) := by
  unfold updateSizes at h
  dsimp only at h
  obtain ⟨m0, _, hf⟩ := andThen_eq_done _ _ _ h
  injection hf with hf
  subst hf
  exact ⟨rfl, rfl⟩

/-- C13: when `updateSizes` returns, the table height it has set is the larger of 10
and the usable height (so at least 10), the usable height being stored as the
detail viewport height; the usable height with the filter overlay visible is
exactly 4 less than with the overlay hidden, the floor of 10 being applied after.
`updateSizes` returns for every terminal width outside 24..31 when the rows the
table holds fit the column plan of that width. -/
theorem table_height_floor_after_filter_allowance (m : GitHubIssuesModel) :
    (∀ m', updateSizes m = Outcome.done m' →
        m'.viewport.Height = availableHeight m.height m.showFilters ∧
          m'.table.height = max 10 (availableHeight m.height m.showFilters) ∧
          10 ≤ m'.table.height) ∧
      availableHeight m.height true = availableHeight m.height false - 4 ∧
      (m.width < 24 ∨ 31 < m.width →
        rowsFit (planColumns (plannedWidth m.width)) m.table.rows = true →
        (updateSizes m).completed = true) := by
  refine ⟨?_, rfl, ?_⟩
  · intro m' h
    obtain ⟨h1, h2⟩ := updateSizes_heights m m' h
    exact ⟨h1, h2, by rw [h2]; exact le_max_left _ _⟩
  · intro hw hfit
    obtain ⟨m', h, _⟩ := updateSizes_done m hw hfit
    rw [h]
    rfl

/-- The loaded model in a terminal 22 rows high with the filter overlay visible. -/
def lowWithFilters : GitHubIssuesModel :=
  { loadedModel.state with height := 22, showFilters := true }

/-- C13 at a terminal 150 columns by 22 rows with the filter overlay visible: the
usable height is 22 - 15 - 4 = 3 and the table height is the floor 10. -/
theorem table_height_floor_after_filter_allowance_witness :
    updateSizes lowWithFilters = Outcome.done (updateSizes lowWithFilters).state ∧
      (updateSizes lowWithFilters).state.viewport.Height = 3 ∧
      (updateSizes lowWithFilters).state.table.height = 10 ∧
      availableHeight 22 false = 7 :=
  have h := (table_height_floor_after_filter_allowance lowWithFilters).1
    (updateSizes lowWithFilters).state (by decide)
  ⟨by decide, h.1.trans (by decide), h.2.1.trans (by decide), by decide⟩

theorem adjustTableColumns_done_eq (m : GitHubIssuesModel) (a : Int) (ha : 28 ≤ a)
    (hfit : rowsFit (planColumns a) m.table.rows = true) :
    ∃ rows, adjustTableColumns m a =
      Outcome.done
        { m with
          currentColumns := planColumns a
          table := { m.table with cols := planColumns a, width := a, rows := rows } } := by
  unfold adjustTableColumns
  dsimp only
  rw [if_pos hfit]
  obtain ⟨rows, h⟩ := updateTableRows_done
    { m with
      currentColumns := planColumns a
      table := { m.table with cols := planColumns a, width := a } }
    (safePlan_planColumns a ha)
  exact ⟨rows, h⟩

theorem updateWindowSize_wide (m : GitHubIssuesModel) (w h : Int) (hw : 120 < w)
    (hfit : rowsFit (planColumns (((w - 4) * 60).tdiv 100)) m.table.rows = true) :
    ∃ m', updateWindowSize m w h = Outcome.done m' ∧
      m'.table.width = ((w - 4) * 60).tdiv 100 ∧
      m'.previewPane.Width = ((w - 4) * 35).tdiv 100 ∧
      m'.width = w ∧ m'.filteredIssues = m.filteredIssues ∧ m'.showPreview = true := by
  have ha : 28 ≤ ((w - 4) * 60).tdiv 100 := by
    rw [Int.tdiv_eq_ediv (by omega) (by omega)]
    omega
  obtain ⟨rows, h1⟩ := adjustTableColumns_done_eq
    { m with width := w, height := h, showPreview := true } _ ha hfit
  have hS : ∃ m1, updateSizes { m with width := w, height := h } = Outcome.done m1 ∧
      m1.table.width = ((w - 4) * 60).tdiv 100 ∧
      m1.previewPane.Width = ((w - 4) * 35).tdiv 100 ∧
      m1.width = w ∧ m1.filteredIssues = m.filteredIssues ∧ m1.showPreview = true ∧
      m1.currentColumns = planColumns (((w - 4) * 60).tdiv 100) := by
    unfold updateSizes
    dsimp only
    rw [if_neg (by omega : ¬ w ≤ 0), if_pos (by omega : w > 120),
      if_neg (by omega : ¬ w - 4 < 20), h1]
    exact ⟨_, rfl, rfl, rfl, rfl, rfl, rfl, rfl⟩
  obtain ⟨m1, hm1, e1, e2, e3, e4, e5, e6⟩ := hS
  obtain ⟨rows2, h2⟩ := updateTableRows_done m1 (e6 ▸ safePlan_planColumns _ ha)
  unfold updateWindowSize
  rw [hm1]
  exact ⟨_, h2, e1, e2, e3, e4, e5⟩

theorem updatePreviewPane_state (m : GitHubIssuesModel) (cursor : Int) :
    ∃ c, (updatePreviewPane m cursor).state =
      { m with previewPane := { m.previewPane with content := c } } := by
  unfold updatePreviewPane
  split
  · exact ⟨m.previewPane.content, rfl⟩
  · split
    · exact ⟨m.previewPane.content, rfl⟩
    · split
      · exact ⟨_, rfl⟩
      · exact ⟨m.previewPane.content, rfl⟩

theorem renderTableView_split (m : GitHubIssuesModel) (t : TableFrame)
    (hs : showSplitView m = true) (hf : (renderTableView m).frame = some (Frame.table t)) :
    ∃ panes, t.split = some panes ∧
      panes.tableWidth = (if (m.width * 60).tdiv 100 < 40 then 40 else (m.width * 60).tdiv 100) ∧
      panes.previewWidth =
        (if (m.width * 35).tdiv 100 < 30 then 30 else (m.width * 35).tdiv 100) ∧
      panes.spacerWidth = m.width - (m.width * 60).tdiv 100 - (m.width * 35).tdiv 100 := by
  unfold renderTableView at hf
  dsimp only at hf
  rw [if_pos hs] at hf
  have hstate : ∃ c, (if m.table.cursor < (m.filteredIssues.length : Int)
      then updatePreviewPane m m.table.cursor else Outcome.done m).state =
      { m with previewPane := { m.previewPane with content := c } } := by
    split
    · exact updatePreviewPane_state m _
    · exact ⟨m.previewPane.content, rfl⟩
  obtain ⟨c, hc⟩ := hstate
  cases hO : (if m.table.cursor < (m.filteredIssues.length : Int)
      then updatePreviewPane m m.table.cursor else Outcome.done m) with
  | panicked m' =>
    rw [hO] at hf
    simp at hf
  | done m' =>
    rw [hO] at hf hc
    simp only [Outcome.state] at hc
    subst hc
    dsimp only at hf
    split at hf
    · simp at hf
    · simp only [Option.some.injEq, Frame.table.injEq] at hf
      subst hf
      exact ⟨_, rfl, rfl, rfl, rfl⟩

/-- The split panes of a rendering, when it is a table frame drawn split. -/
def splitPanes (r : Rendering) : Option SplitPanes :=
  match r.frame with
  | some (Frame.table t) => t.split
  | _ => none

/-- The model started at 79 columns (rows of four cells) after a resize to 121
columns by 40 rows. -/
def resizedTo121 : GitHubIssuesModel := (updateWindowSize loadedAt79.state 121 40).state

/-- C12, as stated, fails: at terminal width 121 the available width is 117 and the
columns are planned for a table width of 117*60/100 = 70, while `renderTableView`
gives the table pane 121*60/100 = 72 columns, the preview pane 42 and the spacer 7,
which add up to the terminal width 121 and not to the available width 117.  The
resize that leads there completes. -/
theorem planned_and_rendered_table_width_differ :
    updateWindowSize loadedAt79.state 121 40 = Outcome.done resizedTo121 ∧
      showSplitView resizedTo121 = true ∧
      resizedTo121.table.width = 70 ∧
      resizedTo121.previewPane.Width = 40 ∧
      splitPanes (View resizedTo121) =
        some { tableWidth := 72, spacerWidth := 7, previewWidth := 42,
               preview := Content.preview issueOne 40 } := by
  decide

/-- C12 (amended): after a resize to a terminal width `w > 120` (the rows the table
holds fitting the new column plan), the columns are planned for 60% of the
available width `w - 4` and the preview pane is sized to 35% of it (integer
division); `renderTableView` lays the split out from the terminal width `w`: table
pane 60% of `w`, preview pane 35% of `w`, spacer the remainder, so that the three
add up to `w`.  The planned table width is 2 or 3 columns less than the table
pane. -/
theorem split_widths_planned_and_rendered (m : GitHubIssuesModel) (w h : Int)
    (hw : 120 < w) (hne : m.filteredIssues ≠ [])
    (hfit : rowsFit (planColumns (((w - 4) * 60).tdiv 100)) m.table.rows = true) :
    ∃ m', updateWindowSize m w h = Outcome.done m' ∧
      m'.table.width = ((w - 4) * 60).tdiv 100 ∧
      m'.previewPane.Width = ((w - 4) * 35).tdiv 100 ∧
      ∀ t, (renderTableView m').frame = some (Frame.table t) →
        ∃ panes, t.split = some panes ∧
          panes.tableWidth = (w * 60).tdiv 100 ∧
          panes.previewWidth = (w * 35).tdiv 100 ∧
          panes.tableWidth + panes.spacerWidth + panes.previewWidth = w ∧
          (panes.tableWidth - m'.table.width = 2 ∨ panes.tableWidth - m'.table.width = 3) := by
  obtain ⟨m', h1, e1, e2, e3, e4, e5⟩ := updateWindowSize_wide m w h hw hfit
  refine ⟨m', h1, e1, e2, ?_⟩
  intro t ht
  have hlen : 0 < m.filteredIssues.length := List.length_pos.2 hne
  have hs : showSplitView m' = true := by
    unfold showSplitView
    rw [e5, e4, e3]
    simp [hlen, hw]
  obtain ⟨panes, hp, p1, p2, p3⟩ := renderTableView_split m' t hs ht
  rw [e3] at p1 p2 p3
  have d1 : (w * 60).tdiv 100 = (w * 60) / 100 := Int.tdiv_eq_ediv (by omega) (by omega)
  have d2 : (w * 35).tdiv 100 = (w * 35) / 100 := Int.tdiv_eq_ediv (by omega) (by omega)
  have d3 : ((w - 4) * 60).tdiv 100 = ((w - 4) * 60) / 100 :=
    Int.tdiv_eq_ediv (by omega) (by omega)
  rw [if_neg (by rw [d1]; omega)] at p1
  rw [if_neg (by rw [d2]; omega)] at p2
  refine ⟨panes, hp, p1, p2, ?_, ?_⟩
  · rw [p1, p2, p3]; omega
  · rw [p1, e1, d1, d3]; omega

/-- C12 (amended) at the loaded model and a resize to 150 columns: planned table
width 87, preview pane 51, rendered panes 90 + 8 + 52 = 150. -/
theorem split_widths_planned_and_rendered_witness :
    (120 : Int) < 150 ∧ loadedModel.state.filteredIssues ≠ [] ∧
      (∃ m', updateWindowSize loadedModel.state 150 40 = Outcome.done m' ∧
        m'.table.width = ((150 - 4) * 60 : Int).tdiv 100 ∧
        m'.previewPane.Width = ((150 - 4) * 35 : Int).tdiv 100 ∧
        ∀ t, (renderTableView m').frame = some (Frame.table t) →
          ∃ panes, t.split = some panes ∧
            panes.tableWidth = ((150 : Int) * 60).tdiv 100 ∧
            panes.previewWidth = ((150 : Int) * 35).tdiv 100 ∧
            panes.tableWidth + panes.spacerWidth + panes.previewWidth = 150 ∧
            (panes.tableWidth - m'.table.width = 2 ∨
              panes.tableWidth - m'.table.width = 3)) ∧
      splitPanes (View (updateWindowSize loadedModel.state 150 40).state) =
        some { tableWidth := 90, spacerWidth := 8, previewWidth := 52,
               preview := Content.preview issueOne 51 } :=
  ⟨by decide, by decide,
   split_widths_planned_and_rendered loadedModel.state 150 40 (by decide) (by decide)
     (by decide),
   by decide⟩

/-! ## Theorems on the events -/

/-- C14: the layout is not recomputed when the filter overlay opens.  After start-up
at 150 by 40 and the arrival of issue #1, the key `f` makes the overlay visible
and leaves the table height and the detail viewport height at 25, while
`updateSizes` computes 21 for both from the model as it then stands. -/
theorem filter_overlay_leaves_layout_stale :
    (Update keyboardWidgets loadedModel.state (Msg.KeyMsg "f".toList)).completed = true ∧
      (Update keyboardWidgets loadedModel.state (Msg.KeyMsg "f".toList)).state.showFilters
        = true ∧
      (Update keyboardWidgets loadedModel.state (Msg.KeyMsg "f".toList)).state.table.height
        = 25 ∧
      (Update keyboardWidgets loadedModel.state (Msg.KeyMsg "f".toList)).state.viewport.Height
        = 25 ∧
      (updateSizes
        (Update keyboardWidgets loadedModel.state (Msg.KeyMsg "f".toList)).state).state.table.height
        = 21 ∧
      (updateSizes
        (Update keyboardWidgets loadedModel.state
          (Msg.KeyMsg "f".toList)).state).state.viewport.Height = 21 := by
  decide

/-- The loaded model after `enter` (detail of issue #1), `c` (comments requested)
and `esc` (back to the table). -/
def leftDetail : Outcome :=
  runUpdates keyboardWidgets loadedModel.state
    [Msg.KeyMsg "enter".toList, Msg.KeyMsg "c".toList, Msg.KeyMsg "esc".toList]

/-- C15, as stated, fails: after `enter`, `c` and `esc` the screen is the table and
no issue is selected; the late `commentsLoadedMsg` then switches the screen to the
comment thread, with no selected issue. -/
theorem late_comments_switch_to_comment_thread :
    leftDetail.completed = true ∧
      leftDetail.state.currentView = viewMode.viewModeTable ∧
      leftDetail.state.selected = none ∧
      (Update keyboardWidgets leftDetail.state (Msg.commentsLoadedMsg [])).state.currentView
        = viewMode.viewModeComments ∧
      (Update keyboardWidgets leftDetail.state (Msg.commentsLoadedMsg [])).state.selected
        = none := by
  decide

/-- C16: a failed comment load stays hidden behind the loading screen.  After
`enter`, `c` and a `commentsActionMsg` with success false and a message, the model
holds the message in `error` but is still in the loading-comments state, and
`View` renders the loading-comments frame, not the error. -/
theorem failed_comment_load_keeps_loading_screen :
    (runUpdates keyboardWidgets loadedModel.state
        [Msg.KeyMsg "enter".toList, Msg.KeyMsg "c".toList,
         Msg.commentsActionMsg false "Failed to load comments: timeout".toList]).completed
        = true ∧
      (runUpdates keyboardWidgets loadedModel.state
        [Msg.KeyMsg "enter".toList, Msg.KeyMsg "c".toList,
         Msg.commentsActionMsg false "Failed to load comments: timeout".toList]).state.error
        = "Failed to load comments: timeout".toList ∧
      (runUpdates keyboardWidgets loadedModel.state
        [Msg.KeyMsg "enter".toList, Msg.KeyMsg "c".toList,
         Msg.commentsActionMsg false
           "Failed to load comments: timeout".toList]).state.loadingComments = true ∧
      (View (runUpdates keyboardWidgets loadedModel.state
        [Msg.KeyMsg "enter".toList, Msg.KeyMsg "c".toList,
         Msg.commentsActionMsg false "Failed to load comments: timeout".toList]).state).frame
        = some Frame.loadingComments := by
  decide

theorem updateCommentsView_state (m : GitHubIssuesModel) :
    ∃ c, (updateCommentsView m).state = { m with viewport := { m.viewport with content := c } } := by
  unfold updateCommentsView
  split
  · exact ⟨m.viewport.content, rfl⟩
  · split
    · exact ⟨_, rfl⟩
    · exact ⟨m.viewport.content, rfl⟩

theorem update_commentsLoaded_state (w : Widgets) (m : GitHubIssuesModel)
    (comments : List IssueComment) :
    ∃ c, (Update w m (Msg.commentsLoadedMsg comments)).state =
      { m with
        loadingComments := false
        comments := comments
        currentView := viewMode.viewModeComments
        viewport := { m.viewport with content := c } } := by
  obtain ⟨c, hc⟩ := updateCommentsView_state
    { m with
      loadingComments := false
      comments := comments
      currentView := viewMode.viewModeComments }
  refine ⟨c, ?_⟩
  unfold Update msgCase
  dsimp only
  cases hO : updateCommentsView
    { m with
      loadingComments := false
      comments := comments
      currentView := viewMode.viewModeComments } with
  | panicked m' =>
    rw [hO] at hc
    simpa [Flow.ofOutcome, Outcome.state] using hc
  | done m' =>
    rw [hO] at hc
    simp only [Outcome.state] at hc
    subst hc
    simp [Flow.ofOutcome, updateComponents, Outcome.state]

/-- C15 (amended): a comment-fetch result that arrives late is not discarded.
Handling `commentsLoadedMsg` always stores the comments, ends the loading-comments
state and switches the screen to the comment thread, whatever the screen and the
selection were; the selection is left as it was.  When no issue is selected the
handler completes and, with no load pending and no error, `View` renders
"No issue selected". -/
theorem comments_loaded_always_opens_comment_thread (w : Widgets) (m : GitHubIssuesModel)
    (comments : List IssueComment) :
    (Update w m (Msg.commentsLoadedMsg comments)).state.currentView
        = viewMode.viewModeComments ∧
      (Update w m (Msg.commentsLoadedMsg comments)).state.comments = comments ∧
      (Update w m (Msg.commentsLoadedMsg comments)).state.loadingComments = false ∧
      (Update w m (Msg.commentsLoadedMsg comments)).state.selected = m.selected ∧
      (m.selected = none →
        (Update w m (Msg.commentsLoadedMsg comments)).completed = true ∧
          (m.loading = false → m.error = [] →
            (View (Update w m (Msg.commentsLoadedMsg comments)).state).frame
              = some Frame.noIssueSelected)) := by
  obtain ⟨c, hc⟩ := update_commentsLoaded_state w m comments
  refine ⟨by rw [hc], by rw [hc], by rw [hc], by rw [hc], ?_⟩
  intro hsel
  constructor
  · unfold Update msgCase
    simp [updateCommentsView, hsel, Flow.ofOutcome, updateComponents, Outcome.completed]
  · intro hl he
    rw [hc]
    simp [View, hl, he, renderCommentsView, hsel]

/-- C15 (amended) at the model that left the detail screen before the comments
arrived. -/
theorem comments_loaded_always_opens_comment_thread_witness :
    leftDetail.state.selected = none ∧ leftDetail.state.loading = false ∧
      leftDetail.state.error = [] ∧
      (Update keyboardWidgets leftDetail.state (Msg.commentsLoadedMsg [])).completed = true ∧
      (View (Update keyboardWidgets leftDetail.state (Msg.commentsLoadedMsg [])).state).frame
        = some Frame.noIssueSelected :=
  have h := (comments_loaded_always_opens_comment_thread keyboardWidgets leftDetail.state
    []).2.2.2.2 (by decide)
  ⟨by decide, by decide, by decide, h.1, h.2 (by decide) (by decide)⟩

/-- The model a flow carries. -/
def Flow.state : Flow → GitHubIssuesModel
  | Flow.ends o => o.state
  | Flow.goesOn m => m

/-- The navigation fields of the model: the screen and the selected index. -/
def navFields (m : GitHubIssuesModel) : viewMode × Int := (m.currentView, m.selectedIndex)

theorem updatePreviewPane_navFields (m : GitHubIssuesModel) (cursor : Int) :
    navFields (updatePreviewPane m cursor).state = navFields m := by
  obtain ⟨c, h⟩ := updatePreviewPane_state m cursor
  rw [h]
  rfl

theorem applyFilters_navFields (m : GitHubIssuesModel) :
    navFields (applyFilters m).state = navFields m := by
  unfold applyFilters
  dsimp only
  rw [andThen_state_proj navFields]
  · exact updateTableRows_proj navFields (fun _ _ => rfl) _
  · intro m'
    dsimp only
    split
    · split
      · exact updatePreviewPane_navFields _ _
      · rfl
    · rfl

theorem updateSizes_navFields (m : GitHubIssuesModel) :
    navFields (updateSizes m).state = navFields m := by
  have hadj : ∀ (m : GitHubIssuesModel) (a : Int),
      navFields (adjustTableColumns m a).state = navFields m := by
    intro m a
    obtain ⟨wd, rows, h⟩ := adjustTableColumns_state m a
    rw [h]
    rfl
  unfold updateSizes
  dsimp only
  rw [andThen_state_proj navFields]
  · by_cases hW : (if m.width ≤ 0 then 150 else m.width) > 120
    · rw [if_pos hW, andThen_state_proj navFields]
      · exact hadj _ _
      · intro _; rfl
    · rw [if_neg hW]
      exact hadj _ _
  · intro _; rfl

theorem updateWindowSize_navFields (m : GitHubIssuesModel) (w h : Int) :
    navFields (updateWindowSize m w h).state = navFields m := by
  unfold updateWindowSize
  rw [andThen_state_proj navFields _ _ (updateTableRows_proj navFields (fun _ _ => rfl))]
  exact updateSizes_navFields _

theorem updateComponents_navFields (w : Widgets) (m : GitHubIssuesModel) (msg : Msg) :
    navFields (updateComponents w m msg).state = navFields m := by
  unfold updateComponents
  dsimp only
  split_ifs
  · exact applyFilters_navFields _
  · exact applyFilters_navFields _
  · exact updatePreviewPane_navFields _ _
  · rfl
  · rfl
  · rfl

theorem update_navFields (w : Widgets) (m : GitHubIssuesModel) (msg : Msg) :
    navFields (Update w m msg).state = navFields (msgCase m msg).state := by
  unfold Update
  cases msgCase m msg with
  | ends o => rfl
  | goesOn m' => exact updateComponents_navFields w m' msg

theorem ofOutcome_state (o : Outcome) : (Flow.ofOutcome o).state = o.state := by
  cases o <;> rfl

theorem updateDetailView_state (m : GitHubIssuesModel) :
    ∃ c, (updateDetailView m).state = { m with viewport := { m.viewport with content := c } } := by
  unfold updateDetailView
  split
  · exact ⟨m.viewport.content, rfl⟩
  · split
    · exact ⟨m.viewport.content, rfl⟩
    · exact ⟨_, rfl⟩

theorem shortcutKeys_navFields (m : GitHubIssuesModel) (key : GoString) :
    navFields (shortcutKeys m key).state = navFields m := by
  unfold shortcutKeys
  split
  · split_ifs <;> exact applyFilters_navFields _
  · split_ifs <;> rfl

theorem shortcutKeys_goesOn (m m' : GitHubIssuesModel) (key : GoString)
    (h : shortcutKeys m key = Flow.goesOn m') : m' = m := by
  unfold shortcutKeys at h
  split at h
  · split_ifs at h
  · split_ifs at h
    exact (Flow.goesOn.inj h).symm

theorem alwaysKeys_goesOn (m m' : GitHubIssuesModel) (key : GoString)
    (h : alwaysKeys m key = Flow.goesOn m') : m' = m := by
  unfold alwaysKeys at h
  split_ifs at h <;> exact (Flow.goesOn.inj h).symm

/-- What a key does to the screen and the selected index: nothing, or `esc` goes
one screen back (clearing the index when it reaches the table), or `enter` opens
the detail screen from the table and records the cursor, which is in range. -/
def KeyNavEffect (m m' : GitHubIssuesModel) (key : GoString) : Prop :=
  navFields m' = navFields m ∨
    (key = "esc".toList ∧
      ((m.currentView = viewMode.viewModeComments ∧
          m'.currentView = viewMode.viewModeDetail ∧ m'.selectedIndex = m.selectedIndex) ∨
        (m.currentView = viewMode.viewModeDetail ∧
          m'.currentView = viewMode.viewModeTable ∧ m'.selectedIndex = -1))) ∨
    (key = "enter".toList ∧ m.currentView = viewMode.viewModeTable ∧
      m'.currentView = viewMode.viewModeDetail ∧ m'.selectedIndex = m.table.cursor ∧
      0 ≤ m.table.cursor ∧ m.table.cursor < (m.filteredIssues.length : Int))

theorem alwaysKeys_nav (m : GitHubIssuesModel) (key : GoString) :
    KeyNavEffect m (alwaysKeys m key).state key := by
  unfold alwaysKeys KeyNavEffect
  split_ifs with h1 h2 h3
  · exact Or.inr (Or.inl ⟨h1, Or.inl ⟨h2, rfl, rfl⟩⟩)
  · exact Or.inr (Or.inl ⟨h1, Or.inr ⟨h3, rfl, rfl⟩⟩)
  all_goals exact Or.inl rfl

theorem plainKeys_nav (m : GitHubIssuesModel) (key : GoString) :
    KeyNavEffect m (plainKeys m key).state key := by
  unfold plainKeys
  by_cases hkey : key = "enter".toList
  · rw [if_pos hkey]
    by_cases h2 : m.currentView = viewMode.viewModeTable ∧ m.filteredIssues.length > 0
    · rw [if_pos h2]
      dsimp only
      by_cases h3 : m.table.cursor < (m.filteredIssues.length : Int)
      · rw [if_pos h3]
        by_cases h4 : m.table.cursor < 0
        · rw [if_pos h4]
          exact Or.inl rfl
        · rw [if_neg h4]
          split
          · exact Or.inl rfl
          · rename_i issue _
            rw [ofOutcome_state]
            obtain ⟨c, hc⟩ := updateDetailView_state
              { m with
                selected := some issue
                selectedIndex := m.table.cursor
                currentView := viewMode.viewModeDetail }
            rw [hc]
            exact Or.inr (Or.inr ⟨hkey, h2.1, rfl, rfl, by omega, h3⟩)
      · rw [if_neg h3]
        exact Or.inl rfl
    · rw [if_neg h2]
      exact Or.inl rfl
  · rw [if_neg hkey]
    split_ifs <;> exact Or.inl rfl

theorem keyMsg_nav (m : GitHubIssuesModel) (key : GoString) :
    KeyNavEffect m (keyMsg m key).state key := by
  unfold keyMsg
  dsimp only
  by_cases hfoc : (m.searchInput.focused || m.filterInput.focused) = true
  · simp only [hfoc, Bool.not_true, Bool.false_eq_true, if_false]
    cases ha : alwaysKeys m key with
    | ends o =>
      have h := alwaysKeys_nav m key
      rw [ha] at h
      exact h
    | goesOn m' =>
      have h := alwaysKeys_goesOn m m' key ha
      subst h
      exact Or.inl rfl
  · have hfoc' : (m.searchInput.focused || m.filterInput.focused) = false := by
      simpa using hfoc
    simp only [hfoc', Bool.not_false, if_true]
    cases hs : shortcutKeys m key with
    | ends o =>
      have h := shortcutKeys_navFields m key
      rw [hs] at h
      exact Or.inl h
    | goesOn m' =>
      have h := shortcutKeys_goesOn m m' key hs
      subst h
      dsimp only
      cases ha : alwaysKeys m' key with
      | ends o =>
        have h := alwaysKeys_nav m' key
        rw [ha] at h
        exact h
      | goesOn m'' =>
        have h := alwaysKeys_goesOn m' m'' key ha
        subst h
        exact plainKeys_nav m'' key

theorem msgCase_nav (m : GitHubIssuesModel) (msg : Msg) :
    (∃ key, msg = Msg.KeyMsg key ∧ KeyNavEffect m (msgCase m msg).state key) ∨
      ((∃ comments, msg = Msg.commentsLoadedMsg comments) ∧
        (msgCase m msg).state.currentView = viewMode.viewModeComments ∧
        (msgCase m msg).state.selectedIndex = m.selectedIndex) ∨
      navFields (msgCase m msg).state = navFields m := by
  cases msg with
  | WindowSizeMsg W H => exact Or.inr (Or.inr (updateWindowSize_navFields m W H))
  | KeyMsg key => exact Or.inl ⟨key, rfl, keyMsg_nav m key⟩
  | issuesLoadedMsg Issues =>
    refine Or.inr (Or.inr ?_)
    simp only [msgCase]
    rw [ofOutcome_state]
    exact applyFilters_navFields _
  | errorMsg e => exact Or.inr (Or.inr rfl)
  | browserActionMsg success message =>
    refine Or.inr (Or.inr ?_)
    simp only [msgCase]
    split_ifs <;> rfl
  | commentsActionMsg success message =>
    refine Or.inr (Or.inr ?_)
    simp only [msgCase]
    split_ifs
    · rw [ofOutcome_state]
      unfold updateDetailViewWithCommentInfo
      rw [andThen_state_proj navFields]
      · obtain ⟨c, hc⟩ := updateDetailView_state { m with error := [] }
        rw [hc]
        rfl
      · intro _; rfl
    · rfl
    · rfl
  | commentsLoadedMsg comments =>
    refine Or.inr (Or.inl ⟨⟨comments, rfl⟩, ?_⟩)
    simp only [msgCase]
    rw [ofOutcome_state]
    obtain ⟨c, hc⟩ := updateCommentsView_state
      { m with
        loadingComments := false
        comments := comments
        currentView := viewMode.viewModeComments }
    rw [hc]
    exact ⟨rfl, rfl⟩
  | MouseWheelMsg => exact Or.inr (Or.inr rfl)
  | MouseMsg => exact Or.inr (Or.inr rfl)
  | otherMsg => exact Or.inr (Or.inr rfl)

theorem update_nav (w : Widgets) (m : GitHubIssuesModel) (msg : Msg) :
    (∃ key, msg = Msg.KeyMsg key ∧ KeyNavEffect m (Update w m msg).state key) ∨
      ((∃ comments, msg = Msg.commentsLoadedMsg comments) ∧
        (Update w m msg).state.currentView = viewMode.viewModeComments ∧
        (Update w m msg).state.selectedIndex = m.selectedIndex) ∨
      navFields (Update w m msg).state = navFields m := by
  have hu := update_navFields w m msg
  have hu' : (Update w m msg).state.currentView = (msgCase m msg).state.currentView ∧
      (Update w m msg).state.selectedIndex = (msgCase m msg).state.selectedIndex := by
    simp only [navFields, Prod.mk.injEq] at hu
    exact hu
  rcases msgCase_nav m msg with ⟨key, hk, h⟩ | ⟨hc, h1, h2⟩ | h
  · refine Or.inl ⟨key, hk, ?_⟩
    unfold KeyNavEffect at h ⊢
    rw [hu, hu'.1, hu'.2]
    exact h
  · exact Or.inr (Or.inl ⟨hc, hu'.1.trans h1, hu'.2.trans h2⟩)
  · exact Or.inr (Or.inr (hu.trans h))

/-- An open issue with the given number. -/
def issueNumbered (n : Int) : IssueWithRepo :=
  { Issue := { Number := some n, Title := some "T".toList, State := some "open".toList },
    Repo := "azure/aks".toList }

/-- Five issues, numbered 1 to 5. -/
def fiveIssues : List IssueWithRepo :=
  [issueNumbered 1, issueNumbered 2, issueNumbered 3, issueNumbered 4, issueNumbered 5]

/-- The model after start-up, the arrival of five issues, four times `down` and
`enter`: the detail screen of the fifth issue. -/
def detailOfFifth : Outcome :=
  (Init NewGitHubIssuesModel).andThen fun m =>
    runUpdates keyboardWidgets m
      [Msg.issuesLoadedMsg fiveIssues, Msg.KeyMsg "down".toList, Msg.KeyMsg "down".toList,
       Msg.KeyMsg "down".toList, Msg.KeyMsg "down".toList, Msg.KeyMsg "enter".toList]

/-- C17, as stated, fails: with 5 filtered issues and `selectedIndex = 4` (detail
screen of the fifth issue), a refresh that delivers 2 issues leaves 2 filtered
issues and `selectedIndex = 4`, not 1; a refresh that delivers no issue leaves
`selectedIndex = 4`, not none. -/
theorem selectedIndex_stays_after_refresh :
    detailOfFifth.completed = true ∧
      detailOfFifth.state.filteredIssues.length = 5 ∧
      detailOfFifth.state.selectedIndex = 4 ∧
      (Update keyboardWidgets detailOfFifth.state
        (Msg.issuesLoadedMsg (fiveIssues.take 2))).completed = true ∧
      (Update keyboardWidgets detailOfFifth.state
        (Msg.issuesLoadedMsg (fiveIssues.take 2))).state.filteredIssues.length = 2 ∧
      (Update keyboardWidgets detailOfFifth.state
        (Msg.issuesLoadedMsg (fiveIssues.take 2))).state.selectedIndex = 4 ∧
      (Update keyboardWidgets detailOfFifth.state
        (Msg.issuesLoadedMsg [])).state.filteredIssues = [] ∧
      (Update keyboardWidgets detailOfFifth.state
        (Msg.issuesLoadedMsg [])).state.selectedIndex = 4 := by
  decide

/-- C17 (amended): `selectedIndex` is never re-clamped.  Every message other than
the keys `enter` and `esc`, so every transition that changes the filtered set
(typed search or filter text, a preset toggle, a delivered issue list), leaves
`selectedIndex` as it was.  In the table screen it is none (-1): this holds
after every message if it held before.  `enter` either leaves it or records the
table cursor `c`, with `0 ≤ c < len(filteredIssues)` at that moment, and opens the
detail screen; `esc` either leaves it or, from the detail screen, goes back to the
table and resets it to none. -/
theorem selectedIndex_is_not_reclamped (w : Widgets) (m : GitHubIssuesModel) (msg : Msg) :
    (msg ≠ Msg.KeyMsg "enter".toList → msg ≠ Msg.KeyMsg "esc".toList →
        (Update w m msg).state.selectedIndex = m.selectedIndex) ∧
      ((m.currentView = viewMode.viewModeTable → m.selectedIndex = -1) →
        (Update w m msg).state.currentView = viewMode.viewModeTable →
        (Update w m msg).state.selectedIndex = -1) ∧
      ((Update w m (Msg.KeyMsg "enter".toList)).state.selectedIndex = m.selectedIndex ∨
        ((Update w m (Msg.KeyMsg "enter".toList)).state.selectedIndex = m.table.cursor ∧
          (Update w m (Msg.KeyMsg "enter".toList)).state.currentView
            = viewMode.viewModeDetail ∧
          0 ≤ m.table.cursor ∧ m.table.cursor < (m.filteredIssues.length : Int))) ∧
      ((Update w m (Msg.KeyMsg "esc".toList)).state.selectedIndex = m.selectedIndex ∨
        (m.currentView = viewMode.viewModeDetail ∧
          (Update w m (Msg.KeyMsg "esc".toList)).state.currentView
            = viewMode.viewModeTable ∧
          (Update w m (Msg.KeyMsg "esc".toList)).state.selectedIndex = -1)) := by
  refine ⟨?_, ?_, ?_, ?_⟩
  · intro h1 h2
    rcases update_nav w m msg with ⟨key, hk, h⟩ | ⟨_, _, h⟩ | h
    · subst hk
      rcases h with h | ⟨hesc, _⟩ | ⟨henter, _⟩
      · exact (Prod.mk.inj h).2
      · exact absurd (congrArg Msg.KeyMsg hesc) h2
      · exact absurd (congrArg Msg.KeyMsg henter) h1
    · exact h
    · exact (Prod.mk.inj h).2
  · intro hinv htable
    rcases update_nav w m msg with ⟨key, hk, h⟩ | ⟨_, hc, _⟩ | h
    · rcases h with h | ⟨_, ⟨_, hd, _⟩ | ⟨_, _, hs⟩⟩ | ⟨_, _, hd, _⟩
      · have h' := Prod.mk.inj h
        rw [h'.2]
        exact hinv (h'.1 ▸ htable)
      · rw [hd] at htable
        exact absurd htable (by decide)
      · exact hs
      · rw [hd] at htable
        exact absurd htable (by decide)
    · rw [hc] at htable
      exact absurd htable (by decide)
    · have h' := Prod.mk.inj h
      rw [h'.2]
      exact hinv (h'.1 ▸ htable)
  · rcases update_nav w m (Msg.KeyMsg "enter".toList) with ⟨key, hk, h⟩ | ⟨⟨_, hc⟩, _⟩ | h
    · rcases h with h | ⟨hesc, _⟩ | ⟨_, _, hd, hs, h0, hl⟩
      · exact Or.inl (Prod.mk.inj h).2
      · have hk' := Msg.KeyMsg.inj hk
        rw [hesc] at hk'
        exact absurd hk' (by decide)
      · exact Or.inr ⟨hs, hd, h0, hl⟩
    · exact absurd hc (by simp)
    · exact Or.inl (Prod.mk.inj h).2
  · rcases update_nav w m (Msg.KeyMsg "esc".toList) with ⟨key, hk, h⟩ | ⟨⟨_, hc⟩, _⟩ | h
    · rcases h with h | ⟨_, ⟨_, _, hs⟩ | ⟨hv, hd, hs⟩⟩ | ⟨henter, _⟩
      · exact Or.inl (Prod.mk.inj h).2
      · exact Or.inl hs
      · exact Or.inr ⟨hv, hd, hs⟩
      · have hk' := Msg.KeyMsg.inj hk
        rw [henter] at hk'
        exact absurd hk' (by decide)
    · exact absurd hc (by simp)
    · exact Or.inl (Prod.mk.inj h).2

/-- C17 (amended) at the detail screen of the fifth of five issues and a refresh
that delivers two issues. -/
theorem selectedIndex_is_not_reclamped_witness :
    Msg.issuesLoadedMsg (fiveIssues.take 2) ≠ Msg.KeyMsg "enter".toList ∧
      Msg.issuesLoadedMsg (fiveIssues.take 2) ≠ Msg.KeyMsg "esc".toList ∧
      (Update keyboardWidgets detailOfFifth.state
        (Msg.issuesLoadedMsg (fiveIssues.take 2))).state.selectedIndex
        = detailOfFifth.state.selectedIndex ∧
      detailOfFifth.state.selectedIndex = 4 :=
  ⟨by decide, by decide,
   (selectedIndex_is_not_reclamped keyboardWidgets detailOfFifth.state
      (Msg.issuesLoadedMsg (fiveIssues.take 2))).1 (by decide) (by decide),
   by decide⟩

/-! ## Theorems on the issue store -/

/-- The default repository `Azure/AKS`. -/
def aksRepo : Repository := { Owner := "Azure".toList, Name := "AKS".toList }

/-- A second repository. -/
def cniRepo : Repository := { Owner := "Azure".toList, Name := "azure-container-networking".toList }

/-- A call, at time 0, in which every fetch fails (the write happens one second
later and succeeds). -/
def allFailEnv : CallEnv :=
  { clientReady := true, listByRepo := fun _ => none, now := 0, writeTime := 1000000000,
    writeOk := true }

/-- A call one minute later in which every fetch would succeed with issue #1. -/
def laterEnv : CallEnv :=
  { clientReady := true, listByRepo := fun _ => some [issueOne.Issue], now := 60000000000,
    writeTime := 61000000000, writeOk := true }

/-- C18, as stated, fails: with no cache file and every fetch failing,
`GetGitHubIssues` returns the empty list with no error and writes it to the cache
file; a call one minute later, whose fetches would succeed, is served the empty
list from that file and fetches nothing. -/
theorem all_fetches_failing_is_a_cached_success :
    (GetGitHubIssues allFailEnv [aksRepo, cniRepo] none).result = IssuesResult.ok [] ∧
      (GetGitHubIssues allFailEnv [aksRepo, cniRepo] none).fetched = [aksRepo, cniRepo] ∧
      (GetGitHubIssues allFailEnv [aksRepo, cniRepo] none).cache
        = some { issues := some [], modTime := 1000000000 } ∧
      (GetGitHubIssues laterEnv [aksRepo, cniRepo]
        (GetGitHubIssues allFailEnv [aksRepo, cniRepo] none).cache).result
        = IssuesResult.ok [] ∧
      (GetGitHubIssues laterEnv [aksRepo, cniRepo]
        (GetGitHubIssues allFailEnv [aksRepo, cniRepo] none).cache).fetched = [] := by
  decide

/-- The issues the fetch loop collects, repository by repository. -/
def fetchedIssues (answer : Repository → Option (List Issue))
    (repositories : List Repository) : List IssueWithRepo :=
  repositories.flatMap fun repo =>
    match answer repo with
    | some issues => issues.map fun issue => { Issue := issue, Repo := repo.FullName }
    | none => []

theorem fetchAll_eq (client : Client) (repositories : List Repository) :
    fetchAll client repositories =
      (fetchedIssues client.answer repositories,
        { client with calls := client.calls ++ repositories }) := by
  induction repositories generalizing client with
  | nil => simp [fetchAll, fetchedIssues]
  | cons repo rest ih =>
    rw [fetchAll]
    simp only [Client.ListByRepo]
    cases hans : client.answer repo with
    | none =>
      dsimp only
      rw [ih]
      simp [fetchedIssues, hans, List.flatMap_cons]
    | some issues =>
      dsimp only
      rw [ih]
      simp [fetchedIssues, hans, List.flatMap_cons]

theorem fetchedIssues_all_fail (answer : Repository → Option (List Issue))
    (repositories : List Repository) (hfail : ∀ r ∈ repositories, answer r = none) :
    fetchedIssues answer repositories = [] := by
  induction repositories with
  | nil => rfl
  | cons repo rest ih =>
    unfold fetchedIssues at ih ⊢
    rw [List.flatMap_cons, hfail repo (List.mem_cons_self _ _)]
    exact ih fun r hr => hfail r (List.mem_cons_of_mem _ hr)

theorem getGitHubIssues_miss (env : CallEnv) (repositories : List Repository)
    (cache : Option CacheFile) (hclient : env.clientReady = true)
    (hmiss : cachedIssues env.now cache = none) :
    GetGitHubIssues env repositories cache =
      { result := IssuesResult.ok (fetchedIssues env.listByRepo repositories)
        cache := if env.writeOk then
            some { issues := some (fetchedIssues env.listByRepo repositories),
                   modTime := env.writeTime }
          else cache
        fetched := repositories } := by
  unfold GetGitHubIssues
  simp [hclient, hmiss, fetchAll_eq]

theorem getGitHubIssues_hit (env : CallEnv) (repositories : List Repository)
    (cache : Option CacheFile) (issues : List IssueWithRepo) (hclient : env.clientReady = true)
    (hhit : cachedIssues env.now cache = some issues) :
    GetGitHubIssues env repositories cache =
      { result := IssuesResult.ok issues, cache := cache, fetched := [] } := by
  unfold GetGitHubIssues
  simp [hclient, hhit]

/-- C18 (amended): `GetGitHubIssues` returns an error only when the GitHub client is
not initialized.  When the client exists, no fresh cache entry is found and the
fetch of every configured repository fails, the call attempts one fetch per
repository and returns the empty list with no error. -/
theorem all_fetches_failing_returns_empty_list (env : CallEnv)
    (repositories : List Repository) (cache : Option CacheFile) :
    ((∃ message, (GetGitHubIssues env repositories cache).result = IssuesResult.error message)
        ↔ env.clientReady = false) ∧
      (env.clientReady = true → cachedIssues env.now cache = none →
        (∀ r ∈ repositories, env.listByRepo r = none) →
        (GetGitHubIssues env repositories cache).result = IssuesResult.ok [] ∧
          (GetGitHubIssues env repositories cache).fetched = repositories) := by
  constructor
  · cases hclient : env.clientReady with
    | false =>
      simp [GetGitHubIssues, hclient]
    | true =>
      cases hc : cachedIssues env.now cache with
      | none => rw [getGitHubIssues_miss env repositories cache hclient hc]; simp
      | some issues => rw [getGitHubIssues_hit env repositories cache issues hclient hc]; simp
  · intro hclient hmiss hfail
    rw [getGitHubIssues_miss env repositories cache hclient hmiss,
      fetchedIssues_all_fail env.listByRepo repositories hfail]
    exact ⟨rfl, rfl⟩

/-- C18 (amended) at two repositories whose fetches fail, with no cache file. -/
theorem all_fetches_failing_returns_empty_list_witness :
    allFailEnv.clientReady = true ∧ cachedIssues allFailEnv.now none = none ∧
      (∀ r ∈ [aksRepo, cniRepo], allFailEnv.listByRepo r = none) ∧
      (GetGitHubIssues allFailEnv [aksRepo, cniRepo] none).result = IssuesResult.ok [] ∧
      (GetGitHubIssues allFailEnv [aksRepo, cniRepo] none).fetched = [aksRepo, cniRepo] :=
  have h := (all_fetches_failing_returns_empty_list allFailEnv [aksRepo, cniRepo] none).2
    rfl rfl (fun _ _ => rfl)
  ⟨rfl, rfl, fun _ _ => rfl, h.1, h.2⟩

/-- C19: with the client present and no fresh cache entry, `GetGitHubIssues` returns
no error and exactly the concatenation, in the order of the configured
repositories, of the issues of each repository whose fetch succeeded, in fetch
order and tagged with that repository's `owner/name`; a repository whose fetch
failed contributes nothing.  One fetch is attempted per repository. -/
theorem partial_success_concatenates_fetched_issues (env : CallEnv)
    (repositories : List Repository) (cache : Option CacheFile)
    (hclient : env.clientReady = true) (hmiss : cachedIssues env.now cache = none) :
    (GetGitHubIssues env repositories cache).result =
        IssuesResult.ok (repositories.flatMap fun repo =>
          match env.listByRepo repo with
          | some issues => issues.map fun issue => { Issue := issue, Repo := repo.FullName }
          | none => []) ∧
      (GetGitHubIssues env repositories cache).fetched = repositories ∧
      ∀ repo : Repository, repo.FullName = repo.Owner ++ "/".toList ++ repo.Name := by
  rw [getGitHubIssues_miss env repositories cache hclient hmiss]
  exact ⟨rfl, rfl, fun repo => by simp [Repository.FullName]⟩

/-- A call in which `Azure/AKS` answers with issues #1, #2, #3 and every other
repository fails. -/
def aksOnlyEnv : CallEnv :=
  { clientReady := true
    listByRepo := fun repo =>
      if repo = aksRepo then
        some [(issueNumbered 1).Issue, (issueNumbered 2).Issue, (issueNumbered 3).Issue]
      else none
    now := 0
    writeTime := 1000000000
    writeOk := true }

/-- C19 at source A = `Azure/AKS` succeeding with 3 issues and source B failing:
the result is exactly A's 3 issues, tagged `Azure/AKS`, with no error. -/
theorem partial_success_concatenates_fetched_issues_witness :
    aksOnlyEnv.clientReady = true ∧ cachedIssues aksOnlyEnv.now none = none ∧
      (GetGitHubIssues aksOnlyEnv [aksRepo, cniRepo] none).result =
        IssuesResult.ok
          [{ Issue := (issueNumbered 1).Issue, Repo := "Azure/AKS".toList },
           { Issue := (issueNumbered 2).Issue, Repo := "Azure/AKS".toList },
           { Issue := (issueNumbered 3).Issue, Repo := "Azure/AKS".toList }] :=
  ⟨rfl, rfl,
   (partial_success_concatenates_fetched_issues aksOnlyEnv [aksRepo, cniRepo] none
      rfl rfl).1.trans (by decide)⟩

/-- C20: two calls less than five minutes apart, the first of which fetched and wrote
the cache file, perform one fetch per configured repository together: the first
call fetches each repository once, the second fetches nothing, returns the list
the first returned and leaves the cache file as it is.  A decodable cache file is
served iff its age is strictly less than five minutes; at an age of five minutes
or more the call fetches every repository again. -/
theorem second_call_within_five_minutes_fetches_nothing (env1 env2 : CallEnv)
    (repositories : List Repository) (cache : Option CacheFile)
    (hclient1 : env1.clientReady = true) (hclient2 : env2.clientReady = true)
    (hmiss : cachedIssues env1.now cache = none) (hwrite : env1.writeOk = true)
    (horder : env1.now ≤ env1.writeTime) (hclose : env2.now - env1.now < fiveMinutes) :
    (GetGitHubIssues env1 repositories cache).fetched = repositories ∧
      (GetGitHubIssues env2 repositories
        (GetGitHubIssues env1 repositories cache).cache).fetched = [] ∧
      (GetGitHubIssues env2 repositories
        (GetGitHubIssues env1 repositories cache).cache).result
        = (GetGitHubIssues env1 repositories cache).result ∧
      (GetGitHubIssues env2 repositories
        (GetGitHubIssues env1 repositories cache).cache).cache
        = (GetGitHubIssues env1 repositories cache).cache ∧
      (∀ (now : Int) (file : CacheFile) (issues : List IssueWithRepo),
        file.issues = some issues →
        (cachedIssues now (some file) = some issues ↔ now - file.modTime < fiveMinutes)) ∧
      (∀ (env : CallEnv) (file : CacheFile), env.clientReady = true →
        fiveMinutes ≤ env.now - file.modTime →
        (GetGitHubIssues env repositories (some file)).fetched = repositories) := by
  have h1 := getGitHubIssues_miss env1 repositories cache hclient1 hmiss
  rw [h1, if_pos hwrite]
  have hhit : cachedIssues env2.now
      (some { issues := some (fetchedIssues env1.listByRepo repositories),
              modTime := env1.writeTime }) =
      some (fetchedIssues env1.listByRepo repositories) := by
    have : env2.now - env1.writeTime < fiveMinutes := by omega
    simp [cachedIssues, this]
  have h2 := getGitHubIssues_hit env2 repositories _ _ hclient2 hhit
  dsimp only
  rw [h2]
  refine ⟨rfl, rfl, rfl, rfl, ?_, ?_⟩
  · intro now file issues hfile
    by_cases hage : now - file.modTime < fiveMinutes <;> simp [cachedIssues, hfile, hage]
  · intro env file hclient hold
    have hmiss' : cachedIssues env.now (some file) = none := by
      have : ¬ env.now - file.modTime < fiveMinutes := by omega
      cases hfile : file.issues <;> simp [cachedIssues, hfile, this]
    rw [getGitHubIssues_miss env repositories _ hclient hmiss']

/-- A call 4 minutes 59 seconds after `aksOnlyEnv`, in which every fetch would fail. -/
def soonAfterEnv : CallEnv :=
  { clientReady := true, listByRepo := fun _ => none, now := 299000000000,
    writeTime := 300000000000, writeOk := true }

/-- C20 at a first call at time 0 that fetches 3 issues and a second call 4 minutes
59 seconds later: the second call fetches nothing and returns the same 3 issues. -/
theorem second_call_within_five_minutes_fetches_nothing_witness :
    aksOnlyEnv.clientReady = true ∧ soonAfterEnv.clientReady = true ∧
      cachedIssues aksOnlyEnv.now none = none ∧ aksOnlyEnv.writeOk = true ∧
      aksOnlyEnv.now ≤ aksOnlyEnv.writeTime ∧
      soonAfterEnv.now - aksOnlyEnv.now < fiveMinutes ∧
      (GetGitHubIssues aksOnlyEnv [aksRepo, cniRepo] none).fetched = [aksRepo, cniRepo] ∧
      (GetGitHubIssues soonAfterEnv [aksRepo, cniRepo]
        (GetGitHubIssues aksOnlyEnv [aksRepo, cniRepo] none).cache).fetched = [] ∧
      (GetGitHubIssues soonAfterEnv [aksRepo, cniRepo]
        (GetGitHubIssues aksOnlyEnv [aksRepo, cniRepo] none).cache).result
        = (GetGitHubIssues aksOnlyEnv [aksRepo, cniRepo] none).result :=
  have h := second_call_within_five_minutes_fetches_nothing aksOnlyEnv soonAfterEnv
    [aksRepo, cniRepo] none rfl rfl rfl rfl (by decide) (by decide)
  ⟨rfl, rfl, rfl, rfl, by decide, by decide, h.1, h.2.1, h.2.2.1⟩

/-! ## Theorems on the column plan and the rows -/


theorem updateSizes_currentColumns (m : GitHubIssuesModel) :
    (updateSizes m).state.currentColumns = planColumns (plannedWidth m.width) := by
  unfold updateSizes plannedWidth
  dsimp only
  rw [andThen_state_proj (fun m => m.currentColumns)]
  · by_cases hW : (if m.width ≤ 0 then 150 else m.width) > 120
    · rw [if_pos hW, if_pos hW, andThen_state_proj (fun m => m.currentColumns)]
      · exact (adjustTableColumns_currentColumns _ _).1
      · intro _; rfl
    · rw [if_neg hW, if_neg hW]
      exact (adjustTableColumns_currentColumns _ _).1
  · intro _; rfl

theorem updateWindowSize_currentColumns (m : GitHubIssuesModel) (w h : Int) :
    (updateWindowSize m w h).state.currentColumns = planColumns (plannedWidth w) := by
  unfold updateWindowSize
  rw [andThen_state_proj (fun m => m.currentColumns) _ _
    (updateTableRows_proj (fun m => m.currentColumns) (fun _ _ => rfl))]
  exact updateSizes_currentColumns _

theorem plannedWidth_tiers (w : Int) :
    (120 ≤ plannedWidth w ↔ 204 ≤ w) ∧
      (121 ≤ w → w ≤ 137 → plannedWidth w < 80) ∧
      (84 ≤ w → w ≤ 120 → 80 ≤ plannedWidth w ∧ plannedWidth w < 120) := by
  unfold plannedWidth
  dsimp only
  by_cases h0 : w ≤ 0
  · rw [if_pos h0]
    have : ((if (150 : Int) - 4 < 20 then (80 : Int) else 150 - 4) * 60).tdiv 100 = 87 := by
      decide
    rw [if_pos (by decide), this]
    omega
  · rw [if_neg h0]
    by_cases hW : w > 120
    · rw [if_pos hW, if_neg (by omega), Int.tdiv_eq_ediv (by omega) (by omega)]
      omega
    · rw [if_neg hW]
      split_ifs <;> omega

/-- C29: after a resize to terminal width `w` the stored column plan contains the
Repo column iff `w ≥ 204`; a terminal of width 121..137 gets the 4-column plan
and a terminal of width 84..120 the 6-column plan. -/
theorem repo_column_iff_width_at_least_204 (m : GitHubIssuesModel) (w h : Int) :
    ("Repo".toList ∈ columnTitles (updateWindowSize m w h).state.currentColumns ↔ 204 ≤ w) ∧
      (121 ≤ w → w ≤ 137 →
        columnTitles (updateWindowSize m w h).state.currentColumns =
          ["#".toList, "Title".toList, "State".toList, "Assignee".toList]) ∧
      (84 ≤ w → w ≤ 120 →
        columnTitles (updateWindowSize m w h).state.currentColumns =
          ["#".toList, "Title".toList, "State".toList, "Assignee".toList, "Labels".toList,
           "Updated".toList]) := by
  obtain ⟨t1, t2, t3⟩ := plannedWidth_tiers w
  rw [updateWindowSize_currentColumns, columnTitles_planColumns]
  refine ⟨?_, ?_, ?_⟩
  · rw [← t1]
    split_ifs with h1 h2
    · constructor
      · intro hmem
        exact absurd hmem (by decide)
      · intro h; omega
    · constructor
      · intro hmem
        exact absurd hmem (by decide)
      · intro h; omega
    · constructor
      · intro _; omega
      · intro _; decide
  · intro ha hb
    rw [if_pos (t2 ha hb)]
  · intro ha hb
    obtain ⟨h1, h2⟩ := t3 ha hb
    rw [if_neg (by omega), if_pos h2]

/-- C29 at the terminal widths 203, 204, 130 and 100. -/
theorem repo_column_iff_width_at_least_204_witness :
    "Repo".toList ∈ columnTitles (updateWindowSize loadedModel.state 204 40).state.currentColumns ∧
      "Repo".toList ∉
        columnTitles (updateWindowSize loadedModel.state 203 40).state.currentColumns ∧
      columnTitles (updateWindowSize loadedModel.state 130 40).state.currentColumns =
        ["#".toList, "Title".toList, "State".toList, "Assignee".toList] ∧
      columnTitles (updateWindowSize loadedModel.state 100 40).state.currentColumns =
        ["#".toList, "Title".toList, "State".toList, "Assignee".toList, "Labels".toList,
         "Updated".toList] :=
  have h204 := repo_column_iff_width_at_least_204 loadedModel.state 204 40
  have h203 := repo_column_iff_width_at_least_204 loadedModel.state 203 40
  ⟨h204.1.2 (by decide), fun hmem => absurd (h203.1.1 hmem) (by decide),
   (repo_column_iff_width_at_least_204 loadedModel.state 130 40).2.1 (by decide) (by decide),
   (repo_column_iff_width_at_least_204 loadedModel.state 100 40).2.2 (by decide) (by decide)⟩

theorem findColumn_planColumns_optional (a : Int) :
    (findColumn (planColumns a) "Labels".toList).isSome = decide (80 ≤ a) ∧
      (findColumn (planColumns a) "Updated".toList).isSome = decide (80 ≤ a) ∧
      (findColumn (planColumns a) "Repo".toList).isSome = decide (120 ≤ a) := by
  unfold planColumns
  by_cases h1 : a < 80
  · rw [if_pos h1]
    have e1 : decide (80 ≤ a) = false := by simp; omega
    have e2 : decide (120 ≤ a) = false := by simp; omega
    rw [e1, e2]
    exact ⟨rfl, rfl, rfl⟩
  · rw [if_neg h1]
    by_cases h2 : a < 120
    · rw [if_pos h2]
      have e1 : decide (80 ≤ a) = true := by simp; omega
      have e2 : decide (120 ≤ a) = false := by simp; omega
      rw [e1, e2]
      exact ⟨rfl, rfl, rfl⟩
    · rw [if_neg h2]
      have e1 : decide (80 ≤ a) = true := by simp; omega
      have e2 : decide (120 ≤ a) = true := by simp; omega
      rw [e1, e2]
      dsimp only
      exact ⟨rfl, rfl, rfl⟩

theorem length_planColumns (a : Int) :
    (planColumns a).length = 4 + (if 80 ≤ a then 2 else 0) + (if 120 ≤ a then 1 else 0) := by
  unfold planColumns
  by_cases h1 : a < 80
  · rw [if_pos h1, if_neg (by omega), if_neg (by omega)]
    rfl
  · rw [if_neg h1]
    by_cases h2 : a < 120
    · rw [if_pos h2, if_pos (by omega), if_neg (by omega)]
      rfl
    · rw [if_neg h2, if_pos (by omega), if_pos (by omega)]
      rfl

theorem buildRow_shape (cols : List Column) (w : Int) (issue : IssueWithRepo) (row : Row)
    (h : buildRow cols w issue = some row) :
    ∃ title assignee labels repo,
      titleCell issue w = some title ∧ assigneeCell cols issue = some assignee ∧
      (∀ col, findColumn cols "Labels".toList = some col → labelsCell col issue = some labels) ∧
      (∀ col, findColumn cols "Repo".toList = some col → repoCell col issue = some repo) ∧
      row = [numberCell issue, title, stateCell issue, assignee]
        ++ (if (findColumn cols "Labels".toList).isSome then [labels] else [])
        ++ (if (findColumn cols "Updated".toList).isSome then [updatedCell issue] else [])
        ++ (if (findColumn cols "Repo".toList).isSome then [repo] else []) := by
  unfold buildRow at h
  generalize findColumn cols "Labels".toList = fl at h ⊢
  generalize findColumn cols "Updated".toList = fu at h ⊢
  generalize findColumn cols "Repo".toList = fr at h ⊢
  cases ht : titleCell issue w with
  | none => rw [ht] at h; simp at h
  | some title =>
    cases ha : assigneeCell cols issue with
    | none => rw [ht, ha] at h; simp at h
    | some assignee =>
      rw [ht, ha] at h
      rcases fl with _ | lc <;> rcases fu with _ | uc <;> rcases fr with _ | rc <;>
        simp [Option.bind_eq_some] at h ⊢
      all_goals first
        | exact h.symm
        | (obtain ⟨x, hx, h⟩ := h; exact ⟨x, hx, h.symm⟩)
        | (obtain ⟨x, hx, y, hy, h⟩ := h; exact ⟨x, hx, y, hy, h.symm⟩)

theorem findColumn_isSome_iff (cols : List Column) (title : GoString) :
    (findColumn cols title).isSome = true ↔ title ∈ columnTitles cols := by
  unfold findColumn columnTitles
  rw [List.find?_isSome]
  simp only [decide_eq_true_eq, List.mem_map]

theorem buildRows_forall₂ (cols : List Column) (w : Int) :
    ∀ (issues : List IssueWithRepo) (rows : List Row), buildRows cols w issues = some rows →
      List.Forall₂ (fun issue row => buildRow cols w issue = some row) issues rows := by
  intro issues
  induction issues with
  | nil =>
    intro rows h
    simp only [buildRows, Option.some.injEq] at h
    subst h
    exact List.Forall₂.nil
  | cons issue rest ih =>
    intro rows h
    simp only [buildRows] at h
    cases hr : buildRow cols w issue with
    | none => rw [hr] at h; simp at h
    | some row =>
      cases hrs : buildRows cols w rest with
      | none => rw [hr, hrs] at h; simp at h
      | some rows' =>
        rw [hr, hrs] at h
        simp only [Option.bind, Option.some.injEq] at h
        subst h
        exact List.Forall₂.cons hr (ih rows' hrs)

theorem updateTableRows_rows (m m' : GitHubIssuesModel)
    (h : updateTableRows m = Outcome.done m') :
    m'.currentColumns = m.currentColumns ∧ m'.table.cols = m.table.cols ∧
      List.Forall₂
        (fun issue row =>
          buildRow m.currentColumns (titleColWidth m.currentColumns) issue = some row)
        m.filteredIssues m'.table.rows := by
  unfold updateTableRows at h
  split at h
  · rename_i hlen
    injection h with h
    subst h
    refine ⟨rfl, rfl, ?_⟩
    rw [List.length_eq_zero.1 hlen]
    exact List.Forall₂.nil
  · dsimp only at h
    unfold titleColWidth
    generalize (match findColumn m.currentColumns "Title".toList with
      | some col => col.Width
      | none => 40) = w at h ⊢
    cases hb : buildRows m.currentColumns w m.filteredIssues with
    | none => rw [hb] at h; cases h
    | some rows =>
      rw [hb] at h
      injection h with h
      subst h
      exact ⟨rfl, rfl, buildRows_forall₂ _ _ _ _ hb⟩

theorem titleColWidth_planColumns (a : Int) :
    titleColWidth (planColumns a) =
      if a < 80 then a - 25 else if a < 120 then a - 55 else max 20 (a - 75) := by
  unfold titleColWidth planColumns
  split_ifs <;> rfl

/-- C28: every table row matches the column plan.  For every available width `a`
given to `adjustTableColumns`, when the method returns, the table and the model
hold the plan of `a`, the table has one row per issue of the filtered set in the
same order, and each row has exactly as many cells as the plan has columns, in
the order of the plan: the number cell, the title cell (cut to the Title width of
the plan), the state cell, the assignee cell, then the labels cell, the updated
cell and the repo cell exactly when the plan has a Labels, an Updated and a Repo
column.  The method does return for every width of at least 28 when the rows the
table holds fit the new plan. -/
theorem rows_match_column_plan (m : GitHubIssuesModel) (a : Int) :
    (28 ≤ a → rowsFit (planColumns a) m.table.rows = true →
      (adjustTableColumns m a).completed = true) ∧
    ∀ m', adjustTableColumns m a = Outcome.done m' →
      m'.currentColumns = planColumns a ∧ m'.table.cols = planColumns a ∧
      List.Forall₂
        (fun issue row =>
          row.length = m'.table.cols.length ∧
          ∃ title assignee labels repo,
            titleCell issue (titleColWidth (planColumns a)) = some title ∧
            assigneeCell (planColumns a) issue = some assignee ∧
            (∀ col, findColumn (planColumns a) "Labels".toList = some col →
              labelsCell col issue = some labels) ∧
            (∀ col, findColumn (planColumns a) "Repo".toList = some col →
              repoCell col issue = some repo) ∧
            row = [numberCell issue, title, stateCell issue, assignee]
              ++ (if "Labels".toList ∈ columnTitles m'.table.cols then [labels] else [])
              ++ (if "Updated".toList ∈ columnTitles m'.table.cols then [updatedCell issue]
                  else [])
              ++ (if "Repo".toList ∈ columnTitles m'.table.cols then [repo] else []))
        m.filteredIssues m'.table.rows := by
  constructor
  · intro ha hfit
    obtain ⟨m', h, _⟩ := adjustTableColumns_done m a ha hfit
    rw [h]
    rfl
  · intro m' h
    unfold adjustTableColumns at h
    dsimp only at h
    split at h
    swap
    · cases h
    obtain ⟨hcols, htable, hrows⟩ := updateTableRows_rows _ _ h
    dsimp only at hcols htable hrows
    refine ⟨hcols, htable, ?_⟩
    rw [htable]
    refine List.Forall₂.imp ?_ hrows
    intro issue row hrow
    obtain ⟨title, assignee, labels, repo, htitle, hassignee, hlabels, hrepo, hshape⟩ :=
      buildRow_shape _ _ _ _ hrow
    obtain ⟨hl, hu, hr⟩ := findColumn_planColumns_optional a
    have hlen := length_planColumns a
    have ml : "Labels".toList ∈ columnTitles (planColumns a) ↔ 80 ≤ a := by
      rw [← findColumn_isSome_iff, hl, decide_eq_true_eq]
    have mu : "Updated".toList ∈ columnTitles (planColumns a) ↔ 80 ≤ a := by
      rw [← findColumn_isSome_iff, hu, decide_eq_true_eq]
    have mr : "Repo".toList ∈ columnTitles (planColumns a) ↔ 120 ≤ a := by
      rw [← findColumn_isSome_iff, hr, decide_eq_true_eq]
    rw [hl, hu, hr] at hshape
    simp only [decide_eq_true_eq] at hshape
    refine ⟨?_, title, assignee, labels, repo, htitle, hassignee, hlabels, hrepo, ?_⟩
    · rw [hshape, hlen]
      by_cases h1 : 80 ≤ a <;> by_cases h2 : 120 ≤ a <;> simp [h1, h2]
    · rw [hshape]
      simp only [ml, mu, mr]

/-- C28 at the loaded model and the available width 100: the row of issue #1 has
the six cells of the medium plan, in its order. -/
theorem rows_match_column_plan_witness :
    (adjustTableColumns loadedModel.state 100).completed = true ∧
      ∃ m', adjustTableColumns loadedModel.state 100 = Outcome.done m' ∧
        m'.table.cols = planColumns 100 ∧
        m'.table.rows =
          [[utf8 "#1".toList, utf8 "A".toList, utf8 "🟢 Open".toList,
            utf8 "Unassigned".toList, utf8 "bug".toList, utf8 "Unknown".toList]] ∧
        List.Forall₂
          (fun issue row =>
            row.length = m'.table.cols.length ∧
            ∃ title assignee labels repo,
              titleCell issue (titleColWidth (planColumns 100)) = some title ∧
              assigneeCell (planColumns 100) issue = some assignee ∧
              (∀ col, findColumn (planColumns 100) "Labels".toList = some col →
                labelsCell col issue = some labels) ∧
              (∀ col, findColumn (planColumns 100) "Repo".toList = some col →
                repoCell col issue = some repo) ∧
              row = [numberCell issue, title, stateCell issue, assignee]
                ++ (if "Labels".toList ∈ columnTitles m'.table.cols then [labels] else [])
                ++ (if "Updated".toList ∈ columnTitles m'.table.cols then [updatedCell issue]
                    else [])
                ++ (if "Repo".toList ∈ columnTitles m'.table.cols then [repo] else []))
          [issueOne] m'.table.rows :=
  ⟨(rows_match_column_plan loadedModel.state 100).1 (by decide) (by decide),
    (adjustTableColumns loadedModel.state 100).state, by decide,
    ((rows_match_column_plan loadedModel.state 100).2 _ (by decide)).2.1,
    by decide,
    ((rows_match_column_plan loadedModel.state 100).2 _ (by decide)).2.2⟩

/-! ## Theorems on the title cell -/

/-- An issue whose title `abcdefghijklmnop` has 16 characters, of one byte each. -/
def longTitleIssue : IssueWithRepo :=
  { Issue := { Number := some 7, Title := some "abcdefghijklmnop".toList,
               State := some "open".toList },
    Repo := "azure/aks".toList }

/-- An issue whose title is 20 times the letter `é`, of two bytes each. -/
def accentedTitleIssue : IssueWithRepo :=
  { Issue := { Number := some 8, Title := some (List.replicate 20 'é'),
               State := some "open".toList },
    Repo := "azure/aks".toList }

/-- C26, as stated, fails twice.  At a Title column of width 13 both fragments would
have exactly 5 characters, which is at least 5, yet the 16-character title
`abcdefghijklmnop` is shown head-truncated as `abcdefghij...` and not as
`abcde...lmnop`.  And lengths are counted in bytes: the title of 20 letters `é`
has 40 bytes, so at width 23 it is truncated, to `ééééé...ééééé`, although it has
no more than 23 characters. -/
theorem title_cell_fragments_of_five_head_truncate :
    (13 - 3 : Int) / 2 = 5 ∧ (13 - 3 : Int) - (13 - 3) / 2 = 5 ∧
      titleCell longTitleIssue 13 = some (utf8 "abcdefghij...".toList) ∧
      titleCell longTitleIssue 13 ≠ some (utf8 "abcde...lmnop".toList) ∧
      (List.replicate 20 'é').length = 20 ∧
      (utf8 (List.replicate 20 'é')).length = 40 ∧
      titleCell accentedTitleIssue 23 = some (utf8 "ééééé...ééééé".toList) ∧
      titleCell accentedTitleIssue 23 ≠ some (utf8 (List.replicate 20 'é')) := by
  decide

theorem utf8_length_ascii (s : GoString) (h : ∀ c ∈ s, c.toNat < 128) :
    (utf8 s).length = s.length := by
  induction s with
  | nil => rfl
  | cons c cs ih =>
    have hc : c.toNat < 128 := h c (List.mem_cons_self _ _)
    have hcs := ih fun d hd => h d (List.mem_cons_of_mem _ hd)
    unfold utf8 at hcs ⊢
    rw [List.flatMap_cons, List.length_append, hcs]
    simp only [utf8Rune, hc, if_true, List.length_cons, List.length_nil]
    omega

/-- C26, amended: lengths and fragments are counted in bytes of the title (`len`;
one byte per character when the title is ASCII).  For every title and every Title
column width `w`, a title of length at most `w` is shown unchanged; for `w` of at
least 3, a longer title is shown as head, `...` and tail, with head the first
`(w-3)/2` bytes and tail the last `w-3-(w-3)/2` bytes, whenever both fragments
have more than 5 bytes each, and otherwise as the first `w-3` bytes followed by
`...`; in both cases the cell has length exactly `w`. -/
theorem title_cell_truncation (issue : IssueWithRepo) (title : GoString) (w : Int)
    (ht : issue.Issue.Title = some title) :
    (((utf8 title).length : Int) ≤ w → titleCell issue w = some (utf8 title)) ∧
    (3 ≤ w → w < ((utf8 title).length : Int) →
      (5 < (w - 3) / 2 ∧ 5 < w - 3 - (w - 3) / 2 →
        titleCell issue w =
          some ((utf8 title).take ((w - 3) / 2).toNat ++ utf8 "...".toList ++
            (utf8 title).drop
              (((utf8 title).length : Int) - (w - 3 - (w - 3) / 2)).toNat)) ∧
      (¬ (5 < (w - 3) / 2 ∧ 5 < w - 3 - (w - 3) / 2) →
        titleCell issue w = some ((utf8 title).take (w - 3).toNat ++ utf8 "...".toList)) ∧
      ∃ cell, titleCell issue w = some cell ∧ (cell.length : Int) = w) ∧
    ((∀ c ∈ title, c.toNat < 128) → (utf8 title).length = title.length) := by
  unfold titleCell
  rw [ht]
  dsimp only
  refine ⟨?_, ?_, utf8_length_ascii title⟩
  · intro hle
    by_cases h1 : ((utf8 title).length : Int) > w - 3
    · rw [if_pos h1, if_neg (by omega)]
    · rw [if_neg h1]
  · intro hw hlt
    have hdiv : (w - 3).tdiv 2 = (w - 3) / 2 := Int.tdiv_eq_ediv (by omega) (by omega)
    rw [hdiv, if_pos (by omega), if_pos (by omega)]
    have hlen3 : (utf8 "...".toList).length = 3 := by decide
    by_cases hfrag : (w - 3) / 2 > 5 ∧ w - 3 - (w - 3) / 2 > 5
    · rw [if_pos hfrag, sliceTo_eq_some _ _ (by omega) (by omega),
        sliceFrom_eq_some _ _ (by omega) (by omega)]
      refine ⟨fun _ => rfl, fun hn => absurd ⟨hfrag.1, hfrag.2⟩ hn, _, rfl, ?_⟩
      rw [List.length_append, List.length_append, List.length_take, List.length_drop, hlen3]
      omega
    · rw [if_neg hfrag, sliceTo_eq_some _ _ (by omega) (by omega)]
      refine ⟨fun hy => absurd ⟨hy.1, hy.2⟩ hfrag, fun _ => rfl, _, rfl, ?_⟩
      rw [List.length_append, List.length_take, hlen3]
      omega

/-- C26 (amended) at the 16-byte title `abcdefghijklmnop` and the widths 16, 15 and
13, and at the 40-byte title of 20 letters `é` and the width 25, where the cut
falls inside a letter. -/
theorem title_cell_truncation_witness :
    titleCell longTitleIssue 16 = some (utf8 "abcdefghijklmnop".toList) ∧
      titleCell longTitleIssue 15 = some (utf8 "abcdef...klmnop".toList) ∧
      titleCell longTitleIssue 13 = some (utf8 "abcdefghij...".toList) ∧
      titleCell accentedTitleIssue 25 =
        some (utf8 "ééééé".toList ++ [195] ++ utf8 "...".toList ++ [169] ++
          utf8 "ééééé".toList) ∧
      (utf8 "abcdefghijklmnop".toList).length = 16 :=
  ⟨(title_cell_truncation longTitleIssue "abcdefghijklmnop".toList 16 rfl).1 (by decide),
    ((title_cell_truncation longTitleIssue "abcdefghijklmnop".toList 15 rfl).2.1
      (by decide) (by decide)).1 (by decide),
    ((title_cell_truncation longTitleIssue "abcdefghijklmnop".toList 13 rfl).2.1
      (by decide) (by decide)).2.1 (by decide),
    (((title_cell_truncation accentedTitleIssue (List.replicate 20 'é') 25 rfl).2.1
      (by decide) (by decide)).1 (by decide)).trans (by decide),
    (title_cell_truncation longTitleIssue "abcdefghijklmnop".toList 16 rfl).2.2 (by decide)⟩

/-! ## Theorems on the keys -/

theorem applyFilters_state (m : GitHubIssuesModel) :
    ∃ filtered rows c, (applyFilters m).state =
      { m with
        filteredIssues := filtered
        table := { m.table with rows := rows }
        previewPane := { m.previewPane with content := c } } := by
  unfold applyFilters
  dsimp only
  generalize (if toLower (trimSpace m.filterInput.value) ≠ [] then
      List.filter (fun issue => matchesFilter issue (toLower (trimSpace m.filterInput.value)))
        (if toLower (trimSpace m.searchInput.value) ≠ [] then
          List.filter (fun issue => matchesSearch issue (toLower (trimSpace m.searchInput.value)))
            m.issues
        else m.issues)
    else
      if toLower (trimSpace m.searchInput.value) ≠ [] then
        List.filter (fun issue => matchesSearch issue (toLower (trimSpace m.searchInput.value)))
          m.issues
      else m.issues) = filtered
  obtain ⟨rows, hrows⟩ := updateTableRows_state { m with filteredIssues := filtered }
  cases hu : updateTableRows { m with filteredIssues := filtered } with
  | panicked m1 =>
    rw [hu] at hrows
    exact ⟨filtered, rows, m.previewPane.content, hrows⟩
  | done m1 =>
    rw [hu] at hrows
    have hm1 : m1 = { m with filteredIssues := filtered, table := { m.table with rows := rows } } :=
      hrows
    subst hm1
    simp only [Outcome.andThen]
    split
    · split
      · obtain ⟨c, hc⟩ := updatePreviewPane_state
          { m with filteredIssues := filtered, table := { m.table with rows := rows } }
          m.table.cursor
        exact ⟨filtered, rows, c, hc⟩
      · exact ⟨filtered, rows, m.previewPane.content, rfl⟩
    · exact ⟨filtered, rows, m.previewPane.content, rfl⟩

theorem updatePreviewPane_done (m : GitHubIssuesModel) (cursor : Int) (hc : 0 ≤ cursor) :
    (updatePreviewPane m cursor).completed = true := by
  unfold updatePreviewPane
  split
  · rfl
  · rename_i hlt
    rw [if_neg (by omega)]
    have hlt' : cursor.toNat < m.filteredIssues.length := by omega
    rw [List.get?_eq_get hlt']
    rfl

theorem applyFilters_done (m : GitHubIssuesModel) (hsafe : SafePlan m.currentColumns)
    (hc : 0 ≤ m.table.cursor) : (applyFilters m).completed = true := by
  unfold applyFilters
  dsimp only
  generalize (if toLower (trimSpace m.filterInput.value) ≠ [] then
      List.filter (fun issue => matchesFilter issue (toLower (trimSpace m.filterInput.value)))
        (if toLower (trimSpace m.searchInput.value) ≠ [] then
          List.filter (fun issue => matchesSearch issue (toLower (trimSpace m.searchInput.value)))
            m.issues
        else m.issues)
    else
      if toLower (trimSpace m.searchInput.value) ≠ [] then
        List.filter (fun issue => matchesSearch issue (toLower (trimSpace m.searchInput.value)))
          m.issues
      else m.issues) = filtered
  obtain ⟨rows, hrows⟩ := updateTableRows_done { m with filteredIssues := filtered } hsafe
  rw [hrows]
  simp only [Outcome.andThen]
  split
  · split
    · exact updatePreviewPane_done _ _ hc
    · rfl
  · rfl

theorem quickFilterIndex_preset (key : GoString) (i : Nat)
    (hkey : quickFilterIndex key = some i) : ∃ q, quickFilters.get? i = some q := by
  unfold quickFilterIndex at hkey
  split_ifs at hkey <;> injection hkey with hkey <;> subst hkey <;> exact ⟨_, rfl⟩

theorem update_quick_filter (w : Widgets) (m : GitHubIssuesModel) (key : GoString) (i : Nat)
    (q : quickFilter) (hkey : quickFilterIndex key = some i) (hq : quickFilters.get? i = some q)
    (hview : m.currentView = viewMode.viewModeTable)
    (hs : m.searchInput.focused = false) (hf : m.filterInput.focused = false) :
    Update w m (Msg.KeyMsg key) =
      if m.activeQuickFilter = (i : Int) then
        applyFilters
          { m with activeQuickFilter := -1, filterInput := { m.filterInput with value := [] } }
      else
        applyFilters
          { m with
            activeQuickFilter := i
            filterInput := { m.filterInput with value := q.query } } := by
  simp only [Update, msgCase, keyMsg, hs, hf, shortcutKeys, hview, hkey, hq, Bool.or_self,
    Bool.not_false, if_true, Option.bind, Option.map]
  split_ifs <;> rfl

/-- C21: the quick-filter toggle.  In the table screen with no input focused, a key
`1` to `6` (index `i` from 0) has a preset `q`; if preset `i` was not the active one
it becomes the active quick filter and the filter text becomes its query, whatever
the filter text and the active preset were; if it was the active one, the active
quick filter becomes none (`-1`) and the filter text empty.  In both cases the
filtered set is recomputed from the issues, the search text and the new filter
text, and the screen, the issues and the search input are untouched.  The key is
handled without a crash when the column plan is safe and the cursor is not
negative. -/
theorem quick_filter_key_toggles_preset (w : Widgets) (m : GitHubIssuesModel)
    (key : GoString) (i : Nat) (hkey : quickFilterIndex key = some i)
    (hview : m.currentView = viewMode.viewModeTable)
    (hs : m.searchInput.focused = false) (hf : m.filterInput.focused = false) :
    ∃ q, quickFilters.get? i = some q ∧
      (m.activeQuickFilter ≠ (i : Int) →
        (Update w m (Msg.KeyMsg key)).state.activeQuickFilter = (i : Int) ∧
          (Update w m (Msg.KeyMsg key)).state.filterInput.value = q.query) ∧
      (m.activeQuickFilter = (i : Int) →
        (Update w m (Msg.KeyMsg key)).state.activeQuickFilter = -1 ∧
          (Update w m (Msg.KeyMsg key)).state.filterInput.value = []) ∧
      (Update w m (Msg.KeyMsg key)).state.filteredIssues =
        m.issues.filter (fun issue =>
          searchQueryMatches issue m.searchInput.value &&
            filterQueryMatches issue (Update w m (Msg.KeyMsg key)).state.filterInput.value) ∧
      (Update w m (Msg.KeyMsg key)).state.currentView = viewMode.viewModeTable ∧
      (Update w m (Msg.KeyMsg key)).state.issues = m.issues ∧
      (Update w m (Msg.KeyMsg key)).state.searchInput = m.searchInput ∧
      (SafePlan m.currentColumns → 0 ≤ m.table.cursor →
        (Update w m (Msg.KeyMsg key)).completed = true) := by
  obtain ⟨q, hq⟩ := quickFilterIndex_preset key i hkey
  refine ⟨q, hq, ?_⟩
  rw [update_quick_filter w m key i q hkey hq hview hs hf]
  by_cases hact : m.activeQuickFilter = (i : Int)
  · rw [if_pos hact]
    have hfilt := applyFilters_filteredIssues_eq
      { m with activeQuickFilter := -1, filterInput := { m.filterInput with value := [] } }
    obtain ⟨filtered, rows, c, hst⟩ := applyFilters_state
      { m with activeQuickFilter := -1, filterInput := { m.filterInput with value := [] } }
    refine ⟨fun hne => absurd hact hne, fun _ => ?_, ?_, ?_, ?_, ?_, ?_⟩
    · rw [hst]; exact ⟨rfl, rfl⟩
    · rw [hfilt, hst]
    · rw [hst]; exact hview
    · rw [hst]
    · rw [hst]
    · intro hsafe hc
      exact applyFilters_done _ hsafe hc
  · rw [if_neg hact]
    have hfilt := applyFilters_filteredIssues_eq
      { m with activeQuickFilter := i, filterInput := { m.filterInput with value := q.query } }
    obtain ⟨filtered, rows, c, hst⟩ := applyFilters_state
      { m with activeQuickFilter := i, filterInput := { m.filterInput with value := q.query } }
    refine ⟨fun _ => ?_, fun h => absurd h hact, ?_, ?_, ?_, ?_, ?_⟩
    · rw [hst]; exact ⟨rfl, rfl⟩
    · rw [hfilt, hst]
    · rw [hst]; exact hview
    · rw [hst]
    · rw [hst]
    · intro hsafe hc
      exact applyFilters_done _ hsafe hc

/-- The loaded model holding issue #1 (open) and issue #2 (closed), no filter. -/
def twoIssues : GitHubIssuesModel :=
  (applyFilters { loadedModel.state with issues := [issueOne, issueTwo] }).state

theorem quick_filter_key_toggles_preset_witness :
    ∃ q, quickFilters.get? 1 = some q ∧
      (twoIssues.activeQuickFilter ≠ ((1 : Nat) : Int) →
        (Update keyboardWidgets twoIssues (Msg.KeyMsg "2".toList)).state.activeQuickFilter
            = ((1 : Nat) : Int) ∧
          (Update keyboardWidgets twoIssues (Msg.KeyMsg "2".toList)).state.filterInput.value
            = q.query) ∧
      (Update keyboardWidgets twoIssues (Msg.KeyMsg "2".toList)).state.filteredIssues
        = [issueOne] ∧
      (Update keyboardWidgets twoIssues (Msg.KeyMsg "2".toList)).completed = true :=
  have h := quick_filter_key_toggles_preset keyboardWidgets twoIssues "2".toList 1
    (by decide) (by decide) (by decide) (by decide)
  h.imp fun _ hq => ⟨hq.1, hq.2.1, by decide, by decide⟩

theorem shortcutKeys_esc (m : GitHubIssuesModel) :
    shortcutKeys m "esc".toList = Flow.goesOn m := by
  unfold shortcutKeys
  have hq : quickFilterIndex "esc".toList = none := by decide
  rw [hq]
  have h1 : ¬ ("esc".toList = "f".toList ∧ m.currentView = viewMode.viewModeTable) :=
    fun h => absurd h.1 (by decide)
  have h2 : ¬ ("esc".toList = "s".toList ∧ m.currentView = viewMode.viewModeTable ∧
      (!m.showFilters) = true) := fun h => absurd h.1 (by decide)
  have h3 : ¬ ("esc".toList = "p".toList ∧ m.currentView = viewMode.viewModeTable) :=
    fun h => absurd h.1 (by decide)
  split
  · rename_i heq
    split_ifs at heq
    simp at heq
  · rw [if_neg h1, if_neg h2, if_neg h3]

theorem update_esc (w : Widgets) (m : GitHubIssuesModel) :
    Flow.ends (Update w m (Msg.KeyMsg "esc".toList)) = alwaysKeys m "esc".toList := by
  have hends : ∃ o, alwaysKeys m "esc".toList = Flow.ends o := by
    unfold alwaysKeys
    rw [if_pos rfl]
    split_ifs <;> exact ⟨_, rfl⟩
  obtain ⟨o, ho⟩ := hends
  simp only [Update, msgCase, keyMsg]
  by_cases hfoc : (m.searchInput.focused || m.filterInput.focused) = true
  · simp only [hfoc, Bool.not_true, Bool.false_eq_true, if_false, ho]
  · simp only [Bool.not_eq_true] at hfoc
    simp only [hfoc, Bool.not_false, if_true, shortcutKeys_esc, ho]

/-- C23: `esc` unwinds exactly one level per press.  In the comment-thread screen
it goes to Detail, keeping the selected issue and dropping the comments; in Detail
it goes to Table and clears the selection; in any other screen with the filter
overlay open it closes the overlay and removes the focus of both inputs, leaving
the screen and the search and filter texts as they were; with the overlay closed
and the search box focused it only removes that focus; otherwise the model is
returned unchanged.  In every case `Update` returns, and nothing but the fields
named changes. -/
theorem esc_unwinds_one_level (w : Widgets) (m : GitHubIssuesModel) :
    (m.currentView = viewMode.viewModeComments →
      Update w m (Msg.KeyMsg "esc".toList) =
        Outcome.done { m with currentView := viewMode.viewModeDetail, comments := [] }) ∧
    (m.currentView = viewMode.viewModeDetail →
      Update w m (Msg.KeyMsg "esc".toList) =
        Outcome.done
          { m with currentView := viewMode.viewModeTable, selected := none, selectedIndex := -1 }) ∧
    (m.currentView ≠ viewMode.viewModeComments → m.currentView ≠ viewMode.viewModeDetail →
      (m.showFilters = true →
        Update w m (Msg.KeyMsg "esc".toList) =
          Outcome.done
            { m with
              showFilters := false
              searchInput := { m.searchInput with focused := false }
              filterInput := { m.filterInput with focused := false } }) ∧
      (m.showFilters = false → m.searchInput.focused = true →
        Update w m (Msg.KeyMsg "esc".toList) =
          Outcome.done { m with searchInput := { m.searchInput with focused := false } }) ∧
      (m.showFilters = false → m.searchInput.focused = false →
        Update w m (Msg.KeyMsg "esc".toList) = Outcome.done m)) := by
  have h := update_esc w m
  unfold alwaysKeys at h
  rw [if_pos rfl] at h
  refine ⟨fun hc => ?_, fun hd => ?_, fun hc hd => ⟨fun hsf => ?_, fun hsf hfoc => ?_,
    fun hsf hfoc => ?_⟩⟩
  · rw [if_pos hc] at h
    exact Flow.ends.inj h
  · rw [if_neg (by rw [hd]; decide), if_pos hd] at h
    exact Flow.ends.inj h
  · rw [if_neg hc, if_neg hd, if_pos hsf] at h
    exact Flow.ends.inj h
  · rw [if_neg hc, if_neg hd, if_neg (by rw [hsf]; decide), if_pos hfoc] at h
    exact Flow.ends.inj h
  · rw [if_neg hc, if_neg hd, if_neg (by rw [hsf]; decide),
      if_neg (by rw [hfoc]; decide)] at h
    exact Flow.ends.inj h

/-- The loaded model with the filter overlay open and the filter input focused, as
the key `f` leaves it. -/
def overlayOpen : GitHubIssuesModel :=
  (Update keyboardWidgets loadedModel.state (Msg.KeyMsg "f".toList)).state

theorem esc_unwinds_one_level_witness :
    Update keyboardWidgets { loadedModel.state with currentView := viewMode.viewModeComments }
        (Msg.KeyMsg "esc".toList) =
      Outcome.done { loadedModel.state with currentView := viewMode.viewModeDetail, comments := [] } ∧
    Update keyboardWidgets detailOfFifth.state (Msg.KeyMsg "esc".toList) =
      Outcome.done
        { detailOfFifth.state with
          currentView := viewMode.viewModeTable, selected := none, selectedIndex := -1 } ∧
    Update keyboardWidgets overlayOpen (Msg.KeyMsg "esc".toList) =
      Outcome.done
        { overlayOpen with
          showFilters := false
          searchInput := { overlayOpen.searchInput with focused := false }
          filterInput := { overlayOpen.filterInput with focused := false } } ∧
    Update keyboardWidgets loadedModel.state (Msg.KeyMsg "esc".toList) =
      Outcome.done loadedModel.state :=
  ⟨(esc_unwinds_one_level keyboardWidgets
      { loadedModel.state with currentView := viewMode.viewModeComments }).1 (by decide),
    (esc_unwinds_one_level keyboardWidgets detailOfFifth.state).2.1 (by decide),
    ((esc_unwinds_one_level keyboardWidgets overlayOpen).2.2 (by decide) (by decide)).1
      (by decide),
    ((esc_unwinds_one_level keyboardWidgets loadedModel.state).2.2 (by decide) (by decide)).2.2
      (by decide) (by decide)⟩

/-- The model after start-up, a resize to 100 columns (no preview), the key `down`
on the still empty table, and the arrival of issue #1. -/
def downOnEmptyTable : Outcome :=
  (Init NewGitHubIssuesModel).andThen fun m =>
    runUpdates keyboardWidgets m
      [Msg.WindowSizeMsg 100 40, Msg.KeyMsg "down".toList, Msg.issuesLoadedMsg [issueOne]]

/-- C24: `enter` with a negative cursor crashes.  After start-up, a resize to 100
columns, `down` on the empty table (the cursor is then `-1`) and the arrival of one
issue, the model is in the table screen with no input focused, one filtered issue
and cursor `-1`; `enter` then indexes `filteredIssues[-1]` and panics instead of
being ignored. -/
theorem enter_with_negative_cursor_panics :
    downOnEmptyTable.completed = true ∧
      downOnEmptyTable.state.currentView = viewMode.viewModeTable ∧
      downOnEmptyTable.state.searchInput.focused = false ∧
      downOnEmptyTable.state.filterInput.focused = false ∧
      downOnEmptyTable.state.filteredIssues = [issueOne] ∧
      downOnEmptyTable.state.table.cursor = -1 ∧
      Update keyboardWidgets downOnEmptyTable.state (Msg.KeyMsg "enter".toList) =
        Outcome.panicked downOnEmptyTable.state := by
  decide

/-! ## Theorems on the rendering -/

theorem updatePreviewPane_idem (m m' : GitHubIssuesModel) (cursor : Int)
    (h : updatePreviewPane m cursor = Outcome.done m') :
    updatePreviewPane m' cursor = Outcome.done m' := by
  unfold updatePreviewPane at h
  by_cases h1 : cursor ≥ (m.filteredIssues.length : Int)
  · rw [if_pos h1] at h
    injection h with h
    subst h
    unfold updatePreviewPane
    rw [if_pos h1]
  · rw [if_neg h1] at h
    by_cases h2 : cursor < 0
    · rw [if_pos h2] at h
      cases h
    · rw [if_neg h2] at h
      cases hg : m.filteredIssues.get? cursor.toNat with
      | none => rw [hg] at h; cases h
      | some issue =>
        rw [hg] at h
        injection h with h
        subst h
        unfold updatePreviewPane
        dsimp only
        rw [if_neg h1, if_neg h2, hg]

theorem updatePreviewPane_panicked (m m' : GitHubIssuesModel) (cursor : Int)
    (h : updatePreviewPane m cursor = Outcome.panicked m') : m' = m := by
  unfold updatePreviewPane at h
  split_ifs at h
  · injection h with h
    exact h.symm
  · split at h
    · cases h
    · injection h with h
      exact h.symm

theorem renderDetailView_state (m : GitHubIssuesModel) : (renderDetailView m).state = m := by
  unfold renderDetailView
  split <;> rfl

theorem renderCommentsView_idem (m : GitHubIssuesModel) :
    renderCommentsView (renderCommentsView m).state = renderCommentsView m := by
  unfold renderCommentsView
  rcases hsel : m.selected with _ | issue
  · simp only [hsel]
  · rcases hn : issue.Issue.Number with _ | n
    · simp only [hsel, hn]
    · rcases ht : issue.Issue.Title with _ | t
      · simp only [hsel, hn, ht]
      · simp only [hsel, hn, ht]

theorem renderCommentsView_state (m : GitHubIssuesModel) :
    ∃ v, (renderCommentsView m).state = { m with viewport := { m.viewport with content := v } } := by
  unfold renderCommentsView
  split
  · exact ⟨m.viewport.content, rfl⟩
  · split
    · exact ⟨_, rfl⟩
    · exact ⟨m.viewport.content, rfl⟩

theorem renderTableView_state (m : GitHubIssuesModel) :
    (renderTableView m).state = m ∨
      (showSplitView m = true ∧ m.table.cursor < (m.filteredIssues.length : Int) ∧
        updatePreviewPane m m.table.cursor = Outcome.done (renderTableView m).state) := by
  unfold renderTableView
  dsimp only
  by_cases hs : showSplitView m = true
  · rw [if_pos hs]
    by_cases hc : m.table.cursor < (m.filteredIssues.length : Int)
    · rw [if_pos hc]
      cases hO : updatePreviewPane m m.table.cursor with
      | panicked m' =>
        left
        exact updatePreviewPane_panicked m m' _ hO
      | done m' =>
        right
        refine ⟨hs, hc, ?_⟩
        dsimp only
        split <;> rfl
    · rw [if_neg hc]
      left
      dsimp only
      split <;> rfl
  · rw [if_neg hs]
    left
    split <;> rfl

theorem renderTableView_idem (m : GitHubIssuesModel) :
    renderTableView (renderTableView m).state = renderTableView m := by
  rcases renderTableView_state m with h | ⟨hs, hc, hO⟩
  · rw [h]
  · generalize (renderTableView m).state = m' at hO
    obtain ⟨c, hshape⟩ := updatePreviewPane_state m m.table.cursor
    rw [hO] at hshape
    have hidem := updatePreviewPane_idem m m' _ hO
    have hm' : m' = { m with previewPane := { m.previewPane with content := c } } := hshape
    have hs' : showSplitView m' = true := by rw [hm']; exact hs
    have hc' : m'.table.cursor < (m'.filteredIssues.length : Int) := by rw [hm']; exact hc
    have hcur : m'.table.cursor = m.table.cursor := by rw [hm']
    rw [← hcur] at hidem
    unfold renderTableView
    dsimp only
    rw [if_pos hs', if_pos hc', if_pos hs, if_pos hc, hidem, hO]
    subst hm'
    rfl

theorem renderTableView_shape (m : GitHubIssuesModel) :
    ∃ c, (renderTableView m).state = { m with previewPane := { m.previewPane with content := c } } := by
  rcases renderTableView_state m with h | ⟨_, _, hO⟩
  · exact ⟨m.previewPane.content, h⟩
  · obtain ⟨c, hc⟩ := updatePreviewPane_state m m.table.cursor
    rw [hO] at hc
    exact ⟨c, hc⟩

theorem View_state_shape (m : GitHubIssuesModel) :
    ∃ c v, (View m).state =
      { m with
        previewPane := { m.previewPane with content := c }
        viewport := { m.viewport with content := v } } := by
  unfold View
  split_ifs
  · exact ⟨m.previewPane.content, m.viewport.content, rfl⟩
  · exact ⟨m.previewPane.content, m.viewport.content, rfl⟩
  · exact ⟨m.previewPane.content, m.viewport.content, rfl⟩
  · split
    · exact ⟨m.previewPane.content, m.viewport.content, renderDetailView_state m⟩
    · obtain ⟨v, hv⟩ := renderCommentsView_state m
      exact ⟨m.previewPane.content, v, hv⟩
    · obtain ⟨c, hc⟩ := renderTableView_shape m
      exact ⟨c, m.viewport.content, hc⟩

theorem View_idle (m : GitHubIssuesModel) (hl : ¬ m.loading = true)
    (hlc : ¬ m.loadingComments = true) (he : ¬ m.error ≠ []) :
    View m =
      match m.currentView with
      | viewMode.viewModeDetail => renderDetailView m
      | viewMode.viewModeComments => renderCommentsView m
      | _ => renderTableView m := by
  unfold View
  rw [if_neg hl, if_neg hlc, if_neg he]

theorem View_idem (m : GitHubIssuesModel) : View (View m).state = View m := by
  by_cases hl : m.loading = true
  · have e : ∀ m1 : GitHubIssuesModel, m1.loading = true →
        View m1 = { frame := some Frame.loadingIssues, state := m1 } := by
      intro m1 h
      unfold View
      rw [if_pos h]
    rw [e m hl]
    exact e m hl
  · by_cases hlc : m.loadingComments = true
    · have e : ∀ m1 : GitHubIssuesModel, ¬ m1.loading = true → m1.loadingComments = true →
          View m1 = { frame := some Frame.loadingComments, state := m1 } := by
        intro m1 h1 h2
        unfold View
        rw [if_neg h1, if_pos h2]
      rw [e m hl hlc]
      exact e m hl hlc
    · by_cases he : m.error ≠ []
      · have e : ∀ m1 : GitHubIssuesModel, ¬ m1.loading = true → ¬ m1.loadingComments = true →
            m1.error ≠ [] → View m1 = { frame := some (Frame.error m1.error), state := m1 } := by
          intro m1 h1 h2 h3
          unfold View
          rw [if_neg h1, if_neg h2, if_pos h3]
        rw [e m hl hlc he]
        exact e m hl hlc he
      · obtain ⟨c, v, hshape⟩ := View_state_shape m
        have hV := View_idle m hl hlc he
        have hV1 := View_idle (View m).state (by rw [hshape]; exact hl) (by rw [hshape]; exact hlc)
          (by rw [hshape]; exact he)
        have hcv : (View m).state.currentView = m.currentView := by rw [hshape]
        rw [hV1, hcv]
        cases hv : m.currentView <;> rw [hv] at hV <;> dsimp only at hV ⊢ <;> rw [hV]
        · exact renderTableView_idem m
        · exact renderTableView_idem m
        · rw [renderDetailView_state]
        · exact renderCommentsView_idem m

/-- The loaded model after a resize to 160 columns by 40 rows. -/
def resizedTo160 : GitHubIssuesModel := (updateWindowSize loadedModel.state 160 40).state

/-- C27, as stated, fails: after a resize from 150 to 160 columns, which completes,
the preview pane still holds the preview of issue #1 wrapped for the old pane
width 51; `View` returns a frame and, on the way, rewrites the content of the
preview pane for the new width 54, so the model after `View` differs from the
model before. -/
theorem view_rewrites_preview_pane :
    updateWindowSize loadedModel.state 160 40 = Outcome.done resizedTo160 ∧
      (View resizedTo160).frame.isSome = true ∧
      resizedTo160.previewPane.content = Content.preview issueOne 51 ∧
      (View resizedTo160).state.previewPane.content = Content.preview issueOne 54 ∧
      (View resizedTo160).state ≠ resizedTo160 := by
  decide

/-- C27, amended: for every model state, `View` leaves every field of the model
unchanged except the content of the preview pane and the content of the detail
viewport, which it recomputes; the comment-thread screen leaves the preview pane
untouched, every other screen leaves the viewport untouched, and the detail screen
returns a frame and changes nothing at all.  Two consecutive `View` calls return
identical frames, and the state after the second equals the state after the
first. -/
theorem view_changes_only_pane_contents (m : GitHubIssuesModel) :
    (∃ c v, (View m).state =
      { m with
        previewPane := { m.previewPane with content := c }
        viewport := { m.viewport with content := v } }) ∧
    View (View m).state = View m ∧
    (m.currentView = viewMode.viewModeDetail →
      (View m).state = m ∧ (View m).frame.isSome = true) ∧
    (m.currentView = viewMode.viewModeComments → (View m).state.previewPane = m.previewPane) ∧
    (m.currentView ≠ viewMode.viewModeComments → (View m).state.viewport = m.viewport) := by
  refine ⟨View_state_shape m, View_idem m, fun hd => ?_, fun hc => ?_, fun hc => ?_⟩
  · unfold View
    rw [hd]
    dsimp only
    unfold renderDetailView
    split_ifs
    · exact ⟨rfl, rfl⟩
    · exact ⟨rfl, rfl⟩
    · exact ⟨rfl, rfl⟩
    · split <;> exact ⟨rfl, rfl⟩
  · unfold View
    rw [hc]
    dsimp only
    split_ifs
    · rfl
    · rfl
    · rfl
    · obtain ⟨v, hv⟩ := renderCommentsView_state m
      rw [hv]
  · unfold View
    split_ifs
    · rfl
    · rfl
    · rfl
    · split
      · rw [renderDetailView_state]
      · rename_i hcv
        exact absurd hcv hc
      · obtain ⟨c, hcs⟩ := renderTableView_shape m
        rw [hcs]

theorem view_changes_only_pane_contents_witness :
    ((View detailOfFifth.state).state = detailOfFifth.state ∧
        (View detailOfFifth.state).frame.isSome = true) ∧
      (View resizedTo160).state.viewport = resizedTo160.viewport ∧
      View (View resizedTo160).state = View resizedTo160 :=
  ⟨(view_changes_only_pane_contents detailOfFifth.state).2.2.1 (by decide),
    (view_changes_only_pane_contents resizedTo160).2.2.2.2 (by decide),
    (view_changes_only_pane_contents resizedTo160).2.1⟩

/-! ## Theorems on the input focus -/

/-- The fields a key must leave alone while an input has focus: screen, selected
issue and index, table cursor, overlay flag, preview flag, active quick filter and
the focus of both inputs. -/
def frameFields (m : GitHubIssuesModel) :
    viewMode × Option IssueWithRepo × Int × Int × Bool × Bool × Int × Bool × Bool :=
  (m.currentView, m.selected, m.selectedIndex, m.table.cursor, m.showFilters, m.showPreview,
    m.activeQuickFilter, m.searchInput.focused, m.filterInput.focused)

theorem alwaysKeys_other (m : GitHubIssuesModel) (key : GoString)
    (hesc : key ≠ "esc".toList) (htab : key ≠ "tab".toList) :
    alwaysKeys m key = Flow.goesOn m := by
  unfold alwaysKeys
  rw [if_neg hesc, if_neg htab]

theorem keyMsg_focused (m : GitHubIssuesModel) (key : GoString)
    (hfoc : (m.searchInput.focused || m.filterInput.focused) = true)
    (hesc : key ≠ "esc".toList) (htab : key ≠ "tab".toList) :
    keyMsg m key = Flow.goesOn m ∧ keyMsgCmd m key = none := by
  simp only [keyMsg, keyMsgCmd, hfoc, Bool.not_true, Bool.false_eq_true, if_false,
    alwaysKeys_other m key hesc htab, and_self]

theorem applyFilters_frameFields (m : GitHubIssuesModel) :
    frameFields (applyFilters m).state = frameFields m := by
  obtain ⟨filtered, rows, c, h⟩ := applyFilters_state m
  rw [h]
  rfl

theorem update_focused (w : Widgets) (m : GitHubIssuesModel) (key : GoString)
    (hfoc : (m.searchInput.focused || m.filterInput.focused) = true)
    (hesc : key ≠ "esc".toList) (htab : key ≠ "tab".toList) :
    Update w m (Msg.KeyMsg key) = updateComponents w m (Msg.KeyMsg key) := by
  simp only [Update, msgCase, (keyMsg_focused m key hfoc hesc htab).1]

/-- C25: while the search or the filter input has focus, a key other than `esc`
and `tab` goes to the focused input only.  For every such key, and any text-input
widget that keeps its focus flag, `Update` leaves the screen, the selected issue,
`selectedIndex`, the table cursor, the overlay flag, the preview flag, the active
quick filter and the focus of both inputs unchanged, and returns none of the
commands `loadIssues`, `openInBrowser`, `copyToClipboard`, `loadComments`.  In the
table screen the focused input is the widget's answer to the key and the other
input is untouched.  `Update` returns when the column plan is safe and the cursor
is not negative. -/
theorem focused_input_takes_every_key (w : Widgets)
    (hw : ∀ t msg, (w.textinputUpdate t msg).focused = t.focused)
    (m : GitHubIssuesModel) (key : GoString)
    (hfoc : m.searchInput.focused = true ∨ m.filterInput.focused = true)
    (hesc : key ≠ "esc".toList) (htab : key ≠ "tab".toList) :
    frameFields (Update w m (Msg.KeyMsg key)).state = frameFields m ∧
      UpdateCmd m (Msg.KeyMsg key) = none ∧
      (m.currentView = viewMode.viewModeTable → m.searchInput.focused = true →
        (Update w m (Msg.KeyMsg key)).state.searchInput =
            w.textinputUpdate m.searchInput (Msg.KeyMsg key) ∧
          (Update w m (Msg.KeyMsg key)).state.filterInput = m.filterInput) ∧
      (m.currentView = viewMode.viewModeTable → m.searchInput.focused = false →
        (Update w m (Msg.KeyMsg key)).state.filterInput =
            w.textinputUpdate m.filterInput (Msg.KeyMsg key) ∧
          (Update w m (Msg.KeyMsg key)).state.searchInput = m.searchInput) ∧
      (SafePlan m.currentColumns → 0 ≤ m.table.cursor →
        (Update w m (Msg.KeyMsg key)).completed = true) := by
  have hor : (m.searchInput.focused || m.filterInput.focused) = true := by
    rcases hfoc with h | h <;> simp [h]
  rw [update_focused w m key hor hesc htab]
  refine ⟨?_, (keyMsg_focused m key hor hesc htab).2, ?_, ?_, ?_⟩
  · unfold updateComponents
    by_cases hv : m.currentView = viewMode.viewModeTable
    · rw [if_pos hv]
      by_cases hs : m.searchInput.focused = true
      · rw [if_pos hs, applyFilters_frameFields]
        simp only [frameFields, hw]
      · have hf : m.filterInput.focused = true := by
          rcases hfoc with h | h
          · exact absurd h hs
          · exact h
        rw [if_neg hs, if_pos hf, applyFilters_frameFields]
        simp only [frameFields, hw]
    · rw [if_neg hv]
      split_ifs <;> rfl
  · intro hv hs
    unfold updateComponents
    rw [if_pos hv, if_pos hs]
    obtain ⟨filtered, rows, c, h⟩ := applyFilters_state
      { m with searchInput := w.textinputUpdate m.searchInput (Msg.KeyMsg key) }
    rw [h]
    exact ⟨rfl, rfl⟩
  · intro hv hs
    have hf : m.filterInput.focused = true := by
      rcases hfoc with h | h
      · rw [hs] at h; cases h
      · exact h
    unfold updateComponents
    rw [if_pos hv, if_neg (by rw [hs]; decide), if_pos hf]
    obtain ⟨filtered, rows, c, h⟩ := applyFilters_state
      { m with filterInput := w.textinputUpdate m.filterInput (Msg.KeyMsg key) }
    rw [h]
    exact ⟨rfl, rfl⟩
  · intro hsafe hc
    unfold updateComponents
    by_cases hv : m.currentView = viewMode.viewModeTable
    · rw [if_pos hv]
      by_cases hs : m.searchInput.focused = true
      · rw [if_pos hs]
        exact applyFilters_done _ hsafe hc
      · have hf : m.filterInput.focused = true := by
          rcases hfoc with h | h
          · exact absurd h hs
          · exact h
        rw [if_neg hs, if_pos hf]
        exact applyFilters_done _ hsafe hc
    · rw [if_neg hv]
      split_ifs <;> rfl

theorem keyboardWidgets_keeps_focus (t : TextInput) (msg : Msg) :
    (keyboardWidgets.textinputUpdate t msg).focused = t.focused := by
  unfold keyboardWidgets
  dsimp only
  cases msg with
  | KeyMsg key =>
    dsimp only
    by_cases h1 : (!t.focused) = true
    · rw [if_pos h1]
    · rw [if_neg h1]
      by_cases h2 : key = "backspace".toList
      · rw [if_pos h2]
      · rw [if_neg h2]
        rcases key with _ | ⟨c, _ | ⟨d, rest⟩⟩
        · rfl
        · dsimp only
          by_cases h3 : t.value.length < 100
          · rw [if_pos h3]
          · rw [if_neg h3]
        · rfl
  | _ => rfl

theorem focused_input_takes_every_key_witness :
    frameFields (Update keyboardWidgets overlayOpen (Msg.KeyMsg "2".toList)).state =
        frameFields overlayOpen ∧
      UpdateCmd overlayOpen (Msg.KeyMsg "2".toList) = none ∧
      (Update keyboardWidgets overlayOpen (Msg.KeyMsg "2".toList)).state.filterInput.value =
        "2".toList ∧
      (Update keyboardWidgets overlayOpen (Msg.KeyMsg "2".toList)).completed = true :=
  have h := focused_input_takes_every_key keyboardWidgets keyboardWidgets_keeps_focus
    overlayOpen "2".toList (Or.inr (by decide)) (by decide) (by decide)
  ⟨h.1, h.2.1, by decide, by decide⟩

/-- The focus flags of the search and the filter input and the overlay flag. -/
def focusFields (m : GitHubIssuesModel) : Bool × Bool × Bool :=
  (m.searchInput.focused, m.filterInput.focused, m.showFilters)

theorem applyFilters_focusFields (m : GitHubIssuesModel) :
    focusFields (applyFilters m).state = focusFields m := by
  obtain ⟨filtered, rows, c, h⟩ := applyFilters_state m
  rw [h]
  rfl

theorem updateSizes_focusFields (m : GitHubIssuesModel) :
    focusFields (updateSizes m).state = focusFields m := by
  have hadj : ∀ (m : GitHubIssuesModel) (a : Int),
      focusFields (adjustTableColumns m a).state = focusFields m := by
    intro m a
    obtain ⟨wd, rows, h⟩ := adjustTableColumns_state m a
    rw [h]
    rfl
  unfold updateSizes
  dsimp only
  rw [andThen_state_proj focusFields]
  · by_cases hW : (if m.width ≤ 0 then 150 else m.width) > 120
    · rw [if_pos hW, andThen_state_proj focusFields]
      · exact hadj _ _
      · intro _; rfl
    · rw [if_neg hW]
      exact hadj _ _
  · intro _; rfl

theorem updateWindowSize_focusFields (m : GitHubIssuesModel) (w h : Int) :
    focusFields (updateWindowSize m w h).state = focusFields m := by
  unfold updateWindowSize
  rw [andThen_state_proj focusFields _ _ (updateTableRows_proj focusFields (fun _ _ => rfl))]
  exact updateSizes_focusFields _

theorem updateDetailView_focusFields (m : GitHubIssuesModel) :
    focusFields (updateDetailView m).state = focusFields m := by
  obtain ⟨c, hc⟩ := updateDetailView_state m
  rw [hc]
  rfl

theorem updateComponents_focusFields (w : Widgets)
    (hw : ∀ t msg, (w.textinputUpdate t msg).focused = t.focused)
    (m : GitHubIssuesModel) (msg : Msg) :
    focusFields (updateComponents w m msg).state = focusFields m := by
  unfold updateComponents
  dsimp only
  split_ifs
  · rw [applyFilters_focusFields]
    simp only [focusFields, hw]
  · rw [applyFilters_focusFields]
    simp only [focusFields, hw]
  · obtain ⟨c, hc⟩ := updatePreviewPane_state
      { m with table := w.tableUpdate m.table msg } (w.tableUpdate m.table msg).cursor
    rw [hc]
    rfl
  · rfl
  · rfl
  · rfl

theorem update_focusFields (w : Widgets)
    (hw : ∀ t msg, (w.textinputUpdate t msg).focused = t.focused)
    (m : GitHubIssuesModel) (msg : Msg) :
    focusFields (Update w m msg).state = focusFields (msgCase m msg).state := by
  unfold Update
  cases msgCase m msg with
  | ends o => rfl
  | goesOn m' => exact updateComponents_focusFields w hw m' msg

theorem msgCase_focusFields (m : GitHubIssuesModel) (msg : Msg)
    (hkey : ∀ key, msg ≠ Msg.KeyMsg key) :
    focusFields (msgCase m msg).state = focusFields m := by
  cases msg with
  | KeyMsg key => exact absurd rfl (hkey key)
  | WindowSizeMsg W H => exact updateWindowSize_focusFields m W H
  | issuesLoadedMsg Issues =>
    simp only [msgCase]
    rw [ofOutcome_state, applyFilters_focusFields]
    rfl
  | errorMsg e => rfl
  | browserActionMsg success message =>
    simp only [msgCase]
    split_ifs <;> rfl
  | commentsActionMsg success message =>
    simp only [msgCase]
    split_ifs
    · rw [ofOutcome_state]
      unfold updateDetailViewWithCommentInfo
      rw [andThen_state_proj focusFields]
      · rw [updateDetailView_focusFields]
        rfl
      · intro _
        rfl
    · rfl
    · rfl
  | commentsLoadedMsg comments =>
    simp only [msgCase]
    rw [ofOutcome_state]
    obtain ⟨c, hc⟩ := updateCommentsView_state
      { m with
        loadingComments := false
        comments := comments
        currentView := viewMode.viewModeComments }
    rw [hc]
    rfl
  | MouseWheelMsg => rfl
  | MouseMsg => rfl
  | otherMsg => rfl

/-- The focus invariant on the flags (search focused, filter focused, overlay
open): not both inputs focused, and one of them focused when the overlay is open. -/
def focusOk (f : Bool × Bool × Bool) : Bool :=
  !(f.1 && f.2.1) && (!f.2.2 || f.1 || f.2.1)

theorem flow_ends_state (o : Outcome) : (Flow.ends o).state = o.state := rfl

theorem shortcutKeys_focusOk (m : GitHubIssuesModel) (key : GoString)
    (hfree : (m.searchInput.focused || m.filterInput.focused) = false)
    (h : focusOk (focusFields m) = true) :
    focusOk (focusFields (shortcutKeys m key).state) = true := by
  obtain ⟨hs, hf⟩ := Bool.or_eq_false_iff.1 hfree
  unfold shortcutKeys
  split
  · split_ifs
    · rw [flow_ends_state, applyFilters_focusFields]
      exact h
    · rw [flow_ends_state, applyFilters_focusFields]
      exact h
  · split_ifs <;> simp_all [Flow.state, Outcome.state, focusFields, focusOk]

theorem alwaysKeys_focusOk (m : GitHubIssuesModel) (key : GoString)
    (h : focusOk (focusFields m) = true) :
    focusOk (focusFields (alwaysKeys m key).state) = true := by
  unfold alwaysKeys
  split_ifs <;> simp_all [Flow.state, Outcome.state, focusFields, focusOk]

theorem plainKeys_focusFields (m : GitHubIssuesModel) (key : GoString) :
    focusFields (plainKeys m key).state = focusFields m := by
  unfold plainKeys
  by_cases hkey : key = "enter".toList
  · rw [if_pos hkey]
    by_cases h2 : m.currentView = viewMode.viewModeTable ∧ m.filteredIssues.length > 0
    · rw [if_pos h2]
      dsimp only
      by_cases h3 : m.table.cursor < (m.filteredIssues.length : Int)
      · rw [if_pos h3]
        by_cases h4 : m.table.cursor < 0
        · rw [if_pos h4]
          rfl
        · rw [if_neg h4]
          split
          · rfl
          · rw [ofOutcome_state, updateDetailView_focusFields]
            rfl
      · rw [if_neg h3]
        rfl
    · rw [if_neg h2]
      rfl
  · rw [if_neg hkey]
    split_ifs <;> rfl

theorem keyMsg_not_free (m : GitHubIssuesModel) (key : GoString)
    (hfoc : (m.searchInput.focused || m.filterInput.focused) = true) :
    (keyMsg m key).state = (alwaysKeys m key).state := by
  simp only [keyMsg, hfoc, Bool.not_true, Bool.false_eq_true, if_false]
  cases alwaysKeys m key <;> rfl

theorem keyMsg_focusOk (m : GitHubIssuesModel) (key : GoString)
    (h : focusOk (focusFields m) = true) :
    focusOk (focusFields (keyMsg m key).state) = true := by
  by_cases hfoc : (m.searchInput.focused || m.filterInput.focused) = true
  · rw [keyMsg_not_free m key hfoc]
    exact alwaysKeys_focusOk m key h
  · have hfree : (m.searchInput.focused || m.filterInput.focused) = false := by
      simpa using hfoc
    have hS := shortcutKeys_focusOk m key hfree h
    simp only [keyMsg, hfree, Bool.not_false, if_true]
    cases hsk : shortcutKeys m key with
    | ends o =>
      rw [hsk] at hS
      exact hS
    | goesOn m' =>
      have hm' := shortcutKeys_goesOn m m' key hsk
      subst hm'
      have hA := alwaysKeys_focusOk m' key h
      dsimp only
      cases hak : alwaysKeys m' key with
      | ends o =>
        rw [hak] at hA
        exact hA
      | goesOn m'' =>
        have hm'' := alwaysKeys_goesOn m' m'' key hak
        subst hm''
        dsimp only
        rw [plainKeys_focusFields]
        exact h

theorem update_focusOk (w : Widgets)
    (hw : ∀ t msg, (w.textinputUpdate t msg).focused = t.focused)
    (m : GitHubIssuesModel) (msg : Msg) (h : focusOk (focusFields m) = true) :
    focusOk (focusFields (Update w m msg).state) = true := by
  rw [update_focusFields w hw]
  cases msg with
  | KeyMsg key => exact keyMsg_focusOk m key h
  | WindowSizeMsg W H =>
    rw [msgCase_focusFields _ _ (fun _ hk => by cases hk)]; exact h
  | issuesLoadedMsg Issues =>
    rw [msgCase_focusFields _ _ (fun _ hk => by cases hk)]; exact h
  | errorMsg e =>
    rw [msgCase_focusFields _ _ (fun _ hk => by cases hk)]; exact h
  | browserActionMsg success message =>
    rw [msgCase_focusFields _ _ (fun _ hk => by cases hk)]; exact h
  | commentsActionMsg success message =>
    rw [msgCase_focusFields _ _ (fun _ hk => by cases hk)]; exact h
  | commentsLoadedMsg comments =>
    rw [msgCase_focusFields _ _ (fun _ hk => by cases hk)]; exact h
  | MouseWheelMsg =>
    rw [msgCase_focusFields _ _ (fun _ hk => by cases hk)]; exact h
  | MouseMsg =>
    rw [msgCase_focusFields _ _ (fun _ hk => by cases hk)]; exact h
  | otherMsg =>
    rw [msgCase_focusFields _ _ (fun _ hk => by cases hk)]; exact h

/-- The states of the browser reachable from the constructor by the calls the host
makes: `Init`, `Update` with any message, `View`, `Refresh`. -/
inductive Reachable (w : Widgets) : GitHubIssuesModel → Prop where
  | new : Reachable w NewGitHubIssuesModel
  | init (m : GitHubIssuesModel) : Reachable w m → Reachable w (Init m).state
  | update (m : GitHubIssuesModel) (msg : Msg) :
      Reachable w m → Reachable w (Update w m msg).state
  | view (m : GitHubIssuesModel) : Reachable w m → Reachable w (View m).state
  | refresh (m : GitHubIssuesModel) : Reachable w m → Reachable w (Refresh m)

theorem reachable_focusOk (w : Widgets)
    (hw : ∀ t msg, (w.textinputUpdate t msg).focused = t.focused)
    (m : GitHubIssuesModel) (hr : Reachable w m) : focusOk (focusFields m) = true := by
  induction hr with
  | new => rfl
  | init m _ ih =>
    unfold Init
    rw [updateSizes_focusFields]
    exact ih
  | update m msg _ ih => exact update_focusOk w hw m msg ih
  | view m _ ih =>
    obtain ⟨c, v, h⟩ := View_state_shape m
    rw [h]
    exact ih
  | refresh m _ ih => exact ih

theorem alwaysKeys_showFilters (m : GitHubIssuesModel) (key : GoString)
    (hesc : key ≠ "esc".toList) : (alwaysKeys m key).state.showFilters = m.showFilters := by
  unfold alwaysKeys
  rw [if_neg hesc]
  split_ifs <;> rfl

theorem update_showFilters (w : Widgets)
    (hw : ∀ t msg, (w.textinputUpdate t msg).focused = t.focused)
    (m : GitHubIssuesModel) (msg : Msg) :
    (Update w m msg).state.showFilters = (msgCase m msg).state.showFilters :=
  congrArg (fun f => f.2.2) (update_focusFields w hw m msg)

/-- C30: the input-focus invariant.  For any text-input widget that keeps its focus
flag, in every state reachable from the constructor by `Init`, `Update` with any
message, `View` and `Refresh`, the search input and the filter input are never both
focused, and whenever the filter overlay is open exactly one of them is focused.
Consequently the key `f` leaves an open overlay open, and a message after which an
open overlay is closed can only be the key `esc`. -/
theorem focus_invariant (w : Widgets)
    (hw : ∀ t msg, (w.textinputUpdate t msg).focused = t.focused)
    (m : GitHubIssuesModel) (hr : Reachable w m) :
    ¬ (m.searchInput.focused = true ∧ m.filterInput.focused = true) ∧
    (m.showFilters = true →
      (m.searchInput.focused = true ∧ m.filterInput.focused = false) ∨
        (m.searchInput.focused = false ∧ m.filterInput.focused = true)) ∧
    (m.showFilters = true →
      (Update w m (Msg.KeyMsg "f".toList)).state.showFilters = true) ∧
    (∀ msg, m.showFilters = true → (Update w m msg).state.showFilters = false →
      msg = Msg.KeyMsg "esc".toList) := by
  have hok := reachable_focusOk w hw m hr
  have hfoc : m.showFilters = true →
      (m.searchInput.focused || m.filterInput.focused) = true := by
    intro hsf
    simp only [focusOk, focusFields, hsf] at hok
    revert hok
    cases m.searchInput.focused <;> cases m.filterInput.focused <;> decide
  refine ⟨?_, ?_, ?_, ?_⟩
  · simp only [focusOk, focusFields] at hok
    revert hok
    cases m.searchInput.focused <;> cases m.filterInput.focused <;> cases m.showFilters <;>
      decide
  · intro hsf
    simp only [focusOk, focusFields, hsf] at hok
    revert hok
    cases m.searchInput.focused <;> cases m.filterInput.focused <;> decide
  · intro hsf
    rw [update_showFilters w hw]
    simp only [msgCase]
    rw [(keyMsg_focused m "f".toList (hfoc hsf) (by decide) (by decide)).1]
    exact hsf
  · intro msg hsf hclosed
    rw [update_showFilters w hw] at hclosed
    cases msg with
    | KeyMsg key =>
      by_cases hesc : key = "esc".toList
      · rw [hesc]
      · exfalso
        simp only [msgCase] at hclosed
        rw [keyMsg_not_free m key (hfoc hsf), alwaysKeys_showFilters m key hesc, hsf] at hclosed
        cases hclosed
    | WindowSizeMsg W H =>
      exfalso
      have h := congrArg (fun f => f.2.2)
        (msgCase_focusFields m (Msg.WindowSizeMsg W H) (fun _ hk => by cases hk))
      simp only [focusFields] at h
      rw [h, hsf] at hclosed
      cases hclosed
    | issuesLoadedMsg Issues =>
      exfalso
      have h := congrArg (fun f => f.2.2)
        (msgCase_focusFields m (Msg.issuesLoadedMsg Issues) (fun _ hk => by cases hk))
      simp only [focusFields] at h
      rw [h, hsf] at hclosed
      cases hclosed
    | errorMsg e =>
      exfalso
      have h := congrArg (fun f => f.2.2)
        (msgCase_focusFields m (Msg.errorMsg e) (fun _ hk => by cases hk))
      simp only [focusFields] at h
      rw [h, hsf] at hclosed
      cases hclosed
    | browserActionMsg success message =>
      exfalso
      have h := congrArg (fun f => f.2.2)
        (msgCase_focusFields m (Msg.browserActionMsg success message)
          (fun _ hk => by cases hk))
      simp only [focusFields] at h
      rw [h, hsf] at hclosed
      cases hclosed
    | commentsActionMsg success message =>
      exfalso
      have h := congrArg (fun f => f.2.2)
        (msgCase_focusFields m (Msg.commentsActionMsg success message)
          (fun _ hk => by cases hk))
      simp only [focusFields] at h
      rw [h, hsf] at hclosed
      cases hclosed
    | commentsLoadedMsg comments =>
      exfalso
      have h := congrArg (fun f => f.2.2)
        (msgCase_focusFields m (Msg.commentsLoadedMsg comments) (fun _ hk => by cases hk))
      simp only [focusFields] at h
      rw [h, hsf] at hclosed
      cases hclosed
    | MouseWheelMsg =>
      exfalso
      rw [show (msgCase m Msg.MouseWheelMsg).state.showFilters = m.showFilters from rfl,
        hsf] at hclosed
      cases hclosed
    | MouseMsg =>
      exfalso
      rw [show (msgCase m Msg.MouseMsg).state.showFilters = m.showFilters from rfl,
        hsf] at hclosed
      cases hclosed
    | otherMsg =>
      exfalso
      rw [show (msgCase m Msg.otherMsg).state.showFilters = m.showFilters from rfl,
        hsf] at hclosed
      cases hclosed

/-- The model after start-up and the key `f`: the overlay is open and the filter
input has the focus. -/
def overlayAfterStart : GitHubIssuesModel :=
  (Update keyboardWidgets (Init NewGitHubIssuesModel).state (Msg.KeyMsg "f".toList)).state

theorem focus_invariant_witness :
    overlayAfterStart.showFilters = true ∧
      ¬ (overlayAfterStart.searchInput.focused = true ∧
          overlayAfterStart.filterInput.focused = true) ∧
      ((overlayAfterStart.searchInput.focused = true ∧
          overlayAfterStart.filterInput.focused = false) ∨
        (overlayAfterStart.searchInput.focused = false ∧
          overlayAfterStart.filterInput.focused = true)) ∧
      (Update keyboardWidgets overlayAfterStart (Msg.KeyMsg "f".toList)).state.showFilters
        = true :=
  have h := focus_invariant keyboardWidgets keyboardWidgets_keeps_focus overlayAfterStart
    (Reachable.update _ _ (Reachable.init _ Reachable.new))
  ⟨by decide, h.1, h.2.1 (by decide), h.2.2.1 (by decide)⟩

/-! ## Theorems on the host model -/

/-- The host with the GitHub Issues tab active and the loaded browser: table
screen, no input focused, no active quick filter. -/
def hostOnIssuesTab : MainModel :=
  { currentTab := Tab.TabGitHubIssues, githubIssues := loadedModel.state, error := [] }

/-- C22: the quick filters `1` to `5` are not reachable through the host.  With
the GitHub Issues tab active and the browser in the table screen with no input
focused, the key `2` delivered to `MainModel.Update` selects the ADO tab and never
reaches the browser, although the browser alone would make preset 1 active; each of
the keys `1` to `5` leaves the browser as it was; only the key `6` is delegated and
toggles its quick filter. -/
theorem host_keys_1_to_5_switch_tabs_only :
    hostOnIssuesTab.githubIssues.currentView = viewMode.viewModeTable ∧
      hostOnIssuesTab.githubIssues.searchInput.focused = false ∧
      hostOnIssuesTab.githubIssues.filterInput.focused = false ∧
      hostOnIssuesTab.githubIssues.activeQuickFilter = -1 ∧
      (Update keyboardWidgets hostOnIssuesTab.githubIssues
        (Msg.KeyMsg "2".toList)).state.activeQuickFilter = 1 ∧
      (MainModel.Update keyboardWidgets hostOnIssuesTab
        (MainMsg.tea (Msg.KeyMsg "2".toList))).state.currentTab = Tab.TabADOItems ∧
      ["1".toList, "2".toList, "3".toList, "4".toList, "5".toList].all (fun key =>
        decide ((MainModel.Update keyboardWidgets hostOnIssuesTab
          (MainMsg.tea (Msg.KeyMsg key))).state.githubIssues = hostOnIssuesTab.githubIssues))
        = true ∧
      (MainModel.Update keyboardWidgets hostOnIssuesTab
        (MainMsg.tea (Msg.KeyMsg "6".toList))).state.githubIssues.activeQuickFilter = 5 ∧
      (MainModel.Update keyboardWidgets hostOnIssuesTab
        (MainMsg.tea (Msg.KeyMsg "6".toList))).state.currentTab = Tab.TabGitHubIssues := by
  decide

end IssueMonitor
